import Mathlib

/-!
# RcEngine cascaded shadow maps: clipper and cascade splitter

A shallow embedding of `RcEngine/Graphics/CascadedShadowMap.cpp`.

* `float` arithmetic is modelled exactly, in an arbitrary linearly ordered
  field `K` (the rationals contain every finite `float`; the reals are used
  where `powf` is needed, and `powf` itself is a parameter of the model).
* The fixed array `triangleList[16]` is a map from index to entry whose
  accesses are bounds-checked: an access outside the array makes the embedded
  function return `none`.  Its initial content is a parameter (`uninit`).
* `sceneAABBPointLightSpace[8]` is a map from index to point of which only
  the indices below 8 are read.
-/

namespace RcEngine

set_option linter.unusedSectionVars false

variable {K : Type} [LinearOrderedField K]

/-! ## Data model -/

/-- A three-component vector, the engine's `float3`. -/
structure float3 (K : Type) where
  x : K
  y : K
  z : K

/-- Component access `v[i]` of a `float3`: 0 is X, 1 is Y, anything else Z. -/
def float3.comp (v : float3 K) (i : Nat) : K :=
  if i = 0 then v.x else if i = 1 then v.y else v.z

/-- Modelled from the spec: `Lerp` of `Math/MathUtil.h` (not among the sources), the
"edge-intersection lerp" from `a` to `b` with ratio `t`, component by component,
in exact arithmetic (`LerpRounded` below rounds each operation). -/
def Lerp (a b : float3 K) (t : K) : float3 K :=
  ⟨a.x + (b.x - a.x) * t, a.y + (b.y - a.y) * t, a.z + (b.z - a.z) * t⟩

/-- The engine's `BoundingBoxf`: two corners. -/
structure BoundingBox (K : Type) where
  Min : float3 K
  Max : float3 K

/-- The local `struct Triangle` of `CalculateLightNearFar`. -/
structure Triangle (K : Type) where
  pt0 : float3 K
  pt1 : float3 K
  pt2 : float3 K
  culled : Bool

/-- The constant `FLT_MAX` of `<cfloat>`: `(2 - 2^-23) * 2^127`. -/
def FLT_MAX : K := 340282346638528859811704183484516925440

/-- Capacity of `Triangle triangleList[16]`. -/
def triangleListSize : Nat := 16

/-- The working storage of the clipper: the fixed array (as a map from
index to entry, every access guarded by `triangleListSize`) and `iTriangleCnt`. -/
structure ClipState (K : Type) where
  triangleList : Nat → Triangle K
  iTriangleCnt : Nat

/-- The table `AABBTriIndexes` (lines 66-74). -/
def AABBTriIndexes : List Nat :=
  [0,1,2,  1,2,3,
   4,5,6,  5,6,7,
   0,2,4,  2,4,6,
   1,3,5,  3,5,7,
   0,1,4,  1,4,5,
   2,3,6,  3,6,7]

/-- The array `ClipPlaneEdge` (lines 77-82). -/
def ClipPlaneEdge (lightFrustumBound : BoundingBox K) (iFrustumPlane : Nat) : K :=
  match iFrustumPlane with
  | 0 => lightFrustumBound.Min.x
  | 1 => lightFrustumBound.Max.x
  | 2 => lightFrustumBound.Min.y
  | _ => lightFrustumBound.Max.y

/-! ## The clipper `CalculateLightNearFar` -/

/-- The inside test of one vertex (lines 116-131): `> edge` for the Min
planes (even index), `< edge` for the Max planes; the result is 1 or 0. -/
def pointPassClip (iFrustumPlane : Nat) (edge : K) (component : Nat) (p : float3 K) : Nat :=
  if iFrustumPlane % 2 = 0 then
    (if p.comp component > edge then 1 else 0)
  else
    (if p.comp component < edge then 1 else 0)

/-- Three points with their pass flags, the data the swap network permutes. -/
structure Flagged (K : Type) where
  pt0 : float3 K
  pt1 : float3 K
  pt2 : float3 K
  c0 : Nat
  c1 : Nat
  c2 : Nat

/-- One conditional swap of positions 0 and 1 (lines 134-138 and 144-148). -/
def swap01 (s : Flagged K) : Flagged K :=
  if s.c1 ≠ 0 ∧ s.c0 = 0 then ⟨s.pt1, s.pt0, s.pt2, s.c1, s.c0, s.c2⟩ else s

/-- The conditional swap of positions 1 and 2 (lines 139-143). -/
def swap12 (s : Flagged K) : Flagged K :=
  if s.c2 ≠ 0 ∧ s.c1 = 0 then ⟨s.pt0, s.pt2, s.pt1, s.c0, s.c2, s.c1⟩ else s

/-- The three-step swap network (lines 134-148). -/
def swapNetwork (s : Flagged K) : Flagged K :=
  swap01 (swap12 (swap01 s))

/-- First ratio of the one-inside case, `ratio01` (line 159). -/
def ratio01 (edge : K) (component : Nat) (t : Triangle K) : K :=
  (edge - t.pt0.comp component) / (t.pt1.comp component - t.pt0.comp component)

/-- Second ratio of the one-inside case, `ratio02` (line 160). -/
def ratio02 (edge : K) (component : Nat) (t : Triangle K) : K :=
  (edge - t.pt0.comp component) / (t.pt2.comp component - t.pt0.comp component)

/-- First ratio of the two-inside case, `ratio20` (line 180). -/
def ratio20 (edge : K) (component : Nat) (t : Triangle K) : K :=
  (edge - t.pt2.comp component) / (t.pt0.comp component - t.pt2.comp component)

/-- Second ratio of the two-inside case, `ratio21` (line 181). -/
def ratio21 (edge : K) (component : Nat) (t : Triangle K) : K :=
  (edge - t.pt2.comp component) / (t.pt1.comp component - t.pt2.comp component)

/-- The body of the `iTri` loop (lines 109-203) for one list entry.  Returns
the new state and the value of `iTri` at the end of the body (before the
loop's own `++iTri`), or `none` when an index leaves the array.  The hit
ratios and `Lerp` are computed in exact arithmetic (`clipTriangleRounded`
below rounds each operation). -/
def clipTriangle (iFrustumPlane : Nat) (edge : K) (component : Nat)
    (st : ClipState K) (iTri : Nat) : Option (ClipState K × Nat) :=
  if iTri < triangleListSize then
    if (st.triangleList iTri).culled = false then
      let t := st.triangleList iTri
      let c0 := pointPassClip iFrustumPlane edge component t.pt0
      let c1 := pointPassClip iFrustumPlane edge component t.pt1
      let c2 := pointPassClip iFrustumPlane edge component t.pt2
      let insideVertCount := c0 + c1 + c2
      let s := swapNetwork ⟨t.pt0, t.pt1, t.pt2, c0, c1, c2⟩
      let tl := Function.update st.triangleList iTri ⟨s.pt0, s.pt1, s.pt2, t.culled⟩
      if insideVertCount = 0 then
        some (⟨Function.update tl iTri { tl iTri with culled := true }, st.iTriangleCnt⟩, iTri)
      else if insideVertCount = 1 then
        let tl1 := Function.update tl iTri { tl iTri with culled := false }
        let v1 := Lerp (tl1 iTri).pt0 (tl1 iTri).pt1 (ratio01 edge component (tl1 iTri))
        let v2 := Lerp (tl1 iTri).pt0 (tl1 iTri).pt2 (ratio02 edge component (tl1 iTri))
        let tl2 := Function.update tl1 iTri { tl1 iTri with pt1 := v2 }
        let tl3 := Function.update tl2 iTri { tl2 iTri with pt2 := v1 }
        some (⟨tl3, st.iTriangleCnt⟩, iTri)
      else if insideVertCount = 2 then
        if st.iTriangleCnt < triangleListSize ∧ iTri + 1 < triangleListSize then
          let tl1 := Function.update tl st.iTriangleCnt (tl (iTri + 1))
          let tl2 := Function.update tl1 iTri { tl1 iTri with culled := false }
          let tl3 := Function.update tl2 (iTri + 1) { tl2 (iTri + 1) with culled := false }
          let v2 := Lerp (tl3 iTri).pt2 (tl3 iTri).pt0 (ratio20 edge component (tl3 iTri))
          let v1 := Lerp (tl3 iTri).pt2 (tl3 iTri).pt1 (ratio21 edge component (tl3 iTri))
          let tl4 := Function.update tl3 (iTri + 1)
            { tl3 (iTri + 1) with pt0 := (tl3 iTri).pt0, pt1 := (tl3 iTri).pt1, pt2 := v2 }
          let tl5 := Function.update tl4 iTri
            { tl4 iTri with pt0 := (tl4 (iTri + 1)).pt1, pt1 := (tl4 (iTri + 1)).pt2, pt2 := v1 }
          some (⟨tl5, st.iTriangleCnt + 1⟩, iTri + 1)
        else none
      else
        some (⟨Function.update tl iTri { tl iTri with culled := false }, st.iTriangleCnt⟩, iTri)
    else some (st, iTri)
  else none

/-- The loop `for (iTri = 0; iTri < iTriangleCnt; ++iTri)` (lines 107-204),
from a given `iTri`, with a bound on the number of iterations; `none` when
the bound is exhausted or an index leaves the array. -/
def clipLoop (iFrustumPlane : Nat) (edge : K) (component : Nat) :
    Nat → ClipState K → Nat → Option (ClipState K)
  | 0, st, iTri => if iTri < st.iTriangleCnt then none else some st
  | fuel + 1, st, iTri =>
    if iTri < st.iTriangleCnt then
      match clipTriangle iFrustumPlane edge component st iTri with
      | none => none
      | some (st1, iTri1) => clipLoop iFrustumPlane edge component fuel st1 (iTri1 + 1)
    else some st

/-- One pass of the `iFrustumPlane` loop body (lines 104-204). -/
def clipPlane (lightFrustumBound : BoundingBox K) (st : ClipState K) (iFrustumPlane : Nat) :
    Option (ClipState K) :=
  clipLoop iFrustumPlane (ClipPlaneEdge lightFrustumBound iFrustumPlane) (iFrustumPlane >>> 1)
    triangleListSize st 0

/-- The first `n` passes of the loop over the clip planes (line 102); the
code runs `n = 4`. -/
def clipPlanes (lightFrustumBound : BoundingBox K) (n : Nat) (st : ClipState K) :
    Option (ClipState K) :=
  (List.range n).foldlM (clipPlane lightFrustumBound) st

/-- The update of the running near/far pair by one vertex (lines 214-217). -/
def accumVert (nf : K × K) (vertCoordZ : K) : K × K :=
  (if nf.1 > vertCoordZ then vertCoordZ else nf.1,
   if nf.2 < vertCoordZ then vertCoordZ else nf.2)

/-- The body of the `index` loop (lines 209-219). -/
def accumTriangle (st : ClipState K) (nf : K × K) (index : Nat) : Option (K × K) :=
  if index < triangleListSize then
    if (st.triangleList index).culled = false then
      some (accumVert (accumVert (accumVert nf (st.triangleList index).pt0.z)
        (st.triangleList index).pt1.z) (st.triangleList index).pt2.z)
    else some nf
  else none

/-- The loop over the working list after clipping (lines 207-220). -/
def accumTriangles (st : ClipState K) (nf : K × K) : Option (K × K) :=
  (List.range st.iTriangleCnt).foldlM (accumTriangle st) nf

/-- Lines 94-98: entry 0 becomes the `iAABBTri`-th triangle of the scene box. -/
def loadTriangle (sceneAABBPointLightSpace : Nat → float3 K) (triangleList : Nat → Triangle K)
    (iAABBTri : Nat) : ClipState K :=
  ⟨Function.update triangleList 0
    ⟨sceneAABBPointLightSpace (AABBTriIndexes.getD (iAABBTri * 3 + 0) 0),
     sceneAABBPointLightSpace (AABBTriIndexes.getD (iAABBTri * 3 + 1) 0),
     sceneAABBPointLightSpace (AABBTriIndexes.getD (iAABBTri * 3 + 2) 0), false⟩, 1⟩

/-- The body of the loop over the 12 triangles (lines 94-220), on the array
contents and the running near/far pair. -/
def processAABBTri (lightFrustumBound : BoundingBox K)
    (sceneAABBPointLightSpace : Nat → float3 K)
    (acc : (Nat → Triangle K) × (K × K)) (iAABBTri : Nat) :
    Option ((Nat → Triangle K) × (K × K)) :=
  match clipPlanes lightFrustumBound 4
      (loadTriangle sceneAABBPointLightSpace acc.1 iAABBTri) with
  | none => none
  | some st =>
    match accumTriangles st acc.2 with
    | none => none
    | some nf => some (st.triangleList, nf)

/-- The function `CalculateLightNearFar` (lines 49-225).  `uninit` is the
indeterminate initial content of the local array `triangleList`.  The
result is the updated `lightFrustumBound`. -/
def CalculateLightNearFar (lightFrustumBound : BoundingBox K)
    (sceneAABBPointLightSpace : Nat → float3 K) (uninit : Nat → Triangle K) :
    Option (BoundingBox K) :=
  match (List.range 12).foldlM (processAABBTri lightFrustumBound sceneAABBPointLightSpace)
      (uninit, ((FLT_MAX : K), -(FLT_MAX : K))) with
  | none => none
  | some r =>
    some ⟨{ lightFrustumBound.Min with z := r.2.1 }, { lightFrustumBound.Max with z := r.2.2 }⟩

/-! ## The cascade splitter `UpdateShadowMatrix` -/

/-- The body of the split loop (lines 490-493).  `powf` is the C library
function, a parameter of the model; `mSplitPlanes` is the member array,
declared in the header, as a map from index to value.  The quotient
`farPlane / nearPlane` is the field quotient: for `nearPlane = 0` the code
computes an infinity or a NaN, which the field does not have, so statements
about split depths are made for `nearPlane ≠ 0` only. -/
def splitLoopBody (powf : K → K → K) (nearPlane farPlane splitLambda : K) (numSplits : Nat)
    (mSplitPlanes : Nat → K) (iSplit : Nat) : Nat → K :=
  let f := (iSplit : K) / (numSplits : K)
  let logSplit := nearPlane * powf (farPlane / nearPlane) f
  let uniSplit := nearPlane + (farPlane - nearPlane) * f
  Function.update mSplitPlanes iSplit (splitLambda * logSplit + (1 - splitLambda) * uniSplit)

/-- Step 1 of `UpdateShadowMatrix` (lines 483-495): the split depths.  The
loop runs `iSplit = 1, ..., numSplits - 1`; afterwards `iSplit` is
`max 1 numSplits`, the index that receives `farPlane`. -/
def computeSplitPlanes (powf : K → K → K) (nearPlane farPlane splitLambda : K)
    (numSplits : Nat) (mSplitPlanes : Nat → K) : Nat → K :=
  let s0 := Function.update mSplitPlanes 0 nearPlane
  let s1 := (List.range' 1 (numSplits - 1)).foldl
    (splitLoopBody powf nearPlane farPlane splitLambda numSplits) s0
  Function.update s1 (max 1 numSplits) farPlane

/-- The blend of the logarithmic and the uniform split depth at fraction `i / N`. -/
def splitBlend (powf : K → K → K) (nearPlane farPlane splitLambda : K) (numSplits i : Nat) : K :=
  splitLambda * (nearPlane * powf (farPlane / nearPlane) ((i : K) / (numSplits : K))) +
    (1 - splitLambda) * (nearPlane + (farPlane - nearPlane) * ((i : K) / (numSplits : K)))

/-- The quantisation of one bound (lines 544-546): divide by the texel size,
`floorf`, multiply back.  `floorf` is the integer floor; the quotient and the
product are exact (`snapCoordRounded` below rounds each of the three steps). -/
def snapCoord [FloorRing K] (v w : K) : K :=
  ((Int.floor (v / w) : ℤ) : K) * w

/-- The texel-snap step of `UpdateShadowMatrix` (lines 540-557), guarded by
the member flag `mMoveLightTexelSize`. -/
def snapToTexel [FloorRing K] (mMoveLightTexelSize : Bool) (worldUnitsPerTexel : float3 K)
    (boundSplit : BoundingBox K) : BoundingBox K :=
  if mMoveLightTexelSize then
    ⟨{ boundSplit.Min with
        x := snapCoord boundSplit.Min.x worldUnitsPerTexel.x,
        y := snapCoord boundSplit.Min.y worldUnitsPerTexel.y },
     { boundSplit.Max with
        x := snapCoord boundSplit.Max.x worldUnitsPerTexel.x,
        y := snapCoord boundSplit.Max.y worldUnitsPerTexel.y }⟩
  else boundSplit

/-! ## Vectors, matrices and cameras -/

/-- Modelled from the spec: `operator+` of `float3` (`Math/Vector.h`, not among
the sources), component by component. -/
def float3.add (a b : float3 K) : float3 K := ⟨a.x + b.x, a.y + b.y, a.z + b.z⟩

/-- Modelled from the spec: `operator-` of `float3`, component by component. -/
def float3.sub (a b : float3 K) : float3 K := ⟨a.x - b.x, a.y - b.y, a.z - b.z⟩

/-- Modelled from the spec: the product of a scalar and a `float3`. -/
def float3.smul (s : K) (a : float3 K) : float3 K := ⟨s * a.x, s * a.y, s * a.z⟩

/-- Modelled from the spec: `Dot` of `Math/MathUtil.h`, the scalar product. -/
def Dot (a b : float3 K) : K := a.x * b.x + a.y * b.y + a.z * b.z

/-- A four-component vector, the engine's `float4`. -/
structure float4 (K : Type) where
  x : K
  y : K
  z : K
  w : K

/-- The engine's `float4x4`, with its member names `M11` .. `M44` (row, column). -/
structure float4x4 (K : Type) where
  M11 : K
  M12 : K
  M13 : K
  M14 : K
  M21 : K
  M22 : K
  M23 : K
  M24 : K
  M31 : K
  M32 : K
  M33 : K
  M34 : K
  M41 : K
  M42 : K
  M43 : K
  M44 : K

/-- What this code reads of a `Camera` (`Graphics/Camera.h`, not among the
sources): the values of its getters. -/
structure Camera (K : Type) where
  Position : float3 K
  Forward : float3 K
  Up : float3 K
  Right : float3 K
  Fov : K
  Aspect : K
  NearPlane : K
  FarPlane : K
  ViewMatrix : float4x4 K
  ProjMatrix : float4x4 K

/-- The function `FrustumPlaneExtraction` (lines 26-39).  `tanf` is the C
library function, a parameter of the model; `corner` is the caller's array
of four points, of which entries 0 to 3 are overwritten. -/
def FrustumPlaneExtraction (tanf : K → K) (camera : Camera K) (camZ : K)
    (corner : Nat → float3 K) : Nat → float3 K :=
  let height := camZ * tanf (camera.Fov * (1 / 2))
  let width := height * camera.Aspect
  let center := camera.Position.add (float3.smul camZ camera.Forward)
  let right := camera.Right
  let up := camera.Up
  let corner0 := Function.update corner 0
    ((center.sub (float3.smul width right)).sub (float3.smul height up))
  let corner1 := Function.update corner0 1
    ((center.add (float3.smul width right)).sub (float3.smul height up))
  let corner2 := Function.update corner1 2
    ((center.sub (float3.smul width right)).add (float3.smul height up))
  Function.update corner2 3
    ((center.add (float3.smul width right)).add (float3.smul height up))

/-! ## Lights and the render paths -/

/-- The enum `LightType` of `Scene/Light.h` (not among the sources): its four
values, in the order of `lightTypeStr` in `SceneManager::CreateLight`. -/
inductive LightType
  | LT_DirectionalLight
  | LT_PointLight
  | LT_SpotLight
  | LT_AreaLight
  deriving DecidableEq

/-- What this code reads of a `Light` (`Scene/Light.h`, not among the
sources): the values of its getters. -/
structure Light (K : Type) where
  LightType : RcEngine.LightType
  CastShadow : Bool
  ShadowCascades : Nat
  SplitLambda : K
  DerivedDirection : float3 K
  DerivedPosition : float3 K
  Position : float3 K
  LightColor : float3 K
  LightIntensity : K
  Range : K
  Attenuation : float3 K
  SpotInnerAngle : K
  SpotOuterAngle : K
  SpotlightNearClip : K

/-- The effect techniques named in `RenderPath.cpp`. -/
inductive Technique
  | DirectionalLighting
  | PointLighting
  | SpotLighting
  | Shading
  | GBuffer

/-- The render operations drawn by the deferred lighting pass. -/
inductive LightShape
  | mFullscreenTrangle
  | mSpotLightShape
  | mPointLightShape
  deriving DecidableEq

/-- The effect parameters set in `RenderPath.cpp` other than `ShadowEnabled`. -/
inductive EffectParam
  | Light_Color
  | Light_Dir
  | Light_Position
  | Light_Attenuation
  | cbPossionDiskSamples
  | CascadeShadowMap
  | LightView
  | NumCascades
  | BorderPaddingMinMax
  | CascadeScale
  | CascadeOffset
  | InvShadowMapSize
  | WorldViewProj
  | InvViewProj
  | CameraOrigin

/-- The frame buffers bound in `RenderPath.cpp`. -/
inductive FrameBufferId
  | screenFB
  | mLightAccumulateFB

/-- The calls a render path issues, in order; render-queue items are
identified by numbers.  `SetValue` and `SetShadowEnabled` act on the effect
of an item's material, `SetDeferredValue` on `mDeferredEffect`. -/
inductive RenderEvent (K : Type)
  | BindFrameBuffer (fb : FrameBufferId)
  | Clear (fb : FrameBufferId)
  | ClearColor
  | CopyDepthStencil
  | ClearStencil
  | RenderBackground (item : Nat)
  | MakeCascadedShadowMap (light : Light K)
  | MakeSpotShadowMap (light : Light K)
  | SetCurrentTechnique (item : Nat) (tech : Technique)
  | SetValue (item : Nat) (param : EffectParam)
  | SetShadowEnabled (item : Nat) (value : Bool)
  | Render (item : Nat)
  | SetDeferredValue (param : EffectParam)
  | Draw (tech : Technique) (shape : LightShape)

/-- The body of the loop over the opaque bucket in `ForwardPath::RenderScene`
(lines 116-148) for one light and one item. -/
def ForwardPath.renderItem (light : Light K) (renderItem : Nat) : List (RenderEvent K) :=
  [RenderEvent.SetCurrentTechnique renderItem Technique.DirectionalLighting,
   RenderEvent.SetValue renderItem EffectParam.Light_Color,
   RenderEvent.SetValue renderItem EffectParam.Light_Dir,
   RenderEvent.SetShadowEnabled renderItem light.CastShadow] ++
  (if light.CastShadow then
    [RenderEvent.SetValue renderItem EffectParam.cbPossionDiskSamples,
     RenderEvent.SetValue renderItem EffectParam.CascadeShadowMap,
     RenderEvent.SetValue renderItem EffectParam.LightView,
     RenderEvent.SetValue renderItem EffectParam.NumCascades,
     RenderEvent.SetValue renderItem EffectParam.BorderPaddingMinMax,
     RenderEvent.SetValue renderItem EffectParam.CascadeScale,
     RenderEvent.SetValue renderItem EffectParam.CascadeOffset,
     RenderEvent.SetValue renderItem EffectParam.InvShadowMapSize]
   else []) ++
  [RenderEvent.Render renderItem]

/-- The body of the loop over the light queue in `ForwardPath::RenderScene`
(lines 104-151) for one light. -/
def ForwardPath.renderLight (opaqueBucket : List Nat) (light : Light K) :
    List (RenderEvent K) :=
  if light.LightType = LightType.LT_DirectionalLight then
    (if light.CastShadow then [RenderEvent.MakeCascadedShadowMap light] else []) ++
      (opaqueBucket.map (ForwardPath.renderItem light)).flatten
  else []

/-- The function `ForwardPath::RenderScene` (lines 84-152) as the sequence of
calls it issues.  The background bucket, the light queue (after
`UpdateLightQueue`) and the opaque bucket come from the scene manager. -/
def ForwardPath.RenderScene (bkgBucket : List Nat) (sceneLights : List (Light K))
    (opaqueBucket : List Nat) : List (RenderEvent K) :=
  [RenderEvent.BindFrameBuffer FrameBufferId.screenFB, RenderEvent.Clear FrameBufferId.screenFB] ++
    bkgBucket.map RenderEvent.RenderBackground ++
    (sceneLights.map (ForwardPath.renderLight opaqueBucket)).flatten

/-- The function `DeferredPath::DrawDirectionalLightShape` (lines 482-507). -/
def DeferredPath.DrawDirectionalLightShape (light : Light K) : List (RenderEvent K) :=
  (if light.CastShadow then [RenderEvent.MakeCascadedShadowMap light] else []) ++
  [RenderEvent.SetDeferredValue EffectParam.Light_Color,
   RenderEvent.SetDeferredValue EffectParam.Light_Dir,
   RenderEvent.Draw Technique.DirectionalLighting LightShape.mFullscreenTrangle]

/-- The function `DeferredPath::DrawSpotLightShape` (lines 509-558).
`hasLightColor` tells whether the effect has a parameter of usage
`EPU_Light_Color`. -/
def DeferredPath.DrawSpotLightShape (hasLightColor : Bool) (light : Light K) :
    List (RenderEvent K) :=
  (if light.CastShadow then [RenderEvent.MakeSpotShadowMap light] else []) ++
  (if hasLightColor then
    [RenderEvent.SetDeferredValue EffectParam.Light_Color,
     RenderEvent.SetDeferredValue EffectParam.Light_Position,
     RenderEvent.SetDeferredValue EffectParam.Light_Dir,
     RenderEvent.SetDeferredValue EffectParam.Light_Attenuation]
   else []) ++
  [RenderEvent.SetDeferredValue EffectParam.WorldViewProj,
   RenderEvent.Draw Technique.SpotLighting LightShape.mSpotLightShape]

/-- The function `DeferredPath::DrawPointLightShape` (lines 560-584). -/
def DeferredPath.DrawPointLightShape (_light : Light K) : List (RenderEvent K) :=
  [RenderEvent.SetDeferredValue EffectParam.Light_Color,
   RenderEvent.SetDeferredValue EffectParam.Light_Position,
   RenderEvent.SetDeferredValue EffectParam.Light_Attenuation,
   RenderEvent.SetDeferredValue EffectParam.WorldViewProj,
   RenderEvent.Draw Technique.PointLighting LightShape.mPointLightShape]

/-- The loop over the scene lights in `DeferredPath::DeferredLighting`
(lines 415-437), from a given value of the local flag `stencilZFail`. -/
def DeferredPath.lightLoop (hasLightColor : Bool) :
    Bool → List (Light K) → List (RenderEvent K)
  | _, [] => []
  | stencilZFail, light :: rest =>
    if light.LightType = LightType.LT_DirectionalLight then
      DeferredPath.DrawDirectionalLightShape light ++
        DeferredPath.lightLoop hasLightColor stencilZFail rest
    else
      (if !stencilZFail then [RenderEvent.ClearStencil] else []) ++
      (if light.LightType = LightType.LT_SpotLight then
        DeferredPath.DrawSpotLightShape hasLightColor light
       else if light.LightType = LightType.LT_PointLight then
        DeferredPath.DrawPointLightShape light
       else []) ++
      DeferredPath.lightLoop hasLightColor true rest

/-- The function `DeferredPath::DeferredLighting` (lines 390-437) as the
sequence of calls it issues.  `hasCameraOrigin` and `hasLightColor` tell
whether the effect has those parameters. -/
def DeferredPath.DeferredLighting (hasCameraOrigin hasLightColor : Bool)
    (sceneLights : List (Light K)) : List (RenderEvent K) :=
  [RenderEvent.BindFrameBuffer FrameBufferId.mLightAccumulateFB, RenderEvent.ClearColor,
   RenderEvent.CopyDepthStencil, RenderEvent.SetDeferredValue EffectParam.InvViewProj] ++
  (if hasCameraOrigin then [RenderEvent.SetDeferredValue EffectParam.CameraOrigin] else []) ++
  DeferredPath.lightLoop hasLightColor false sceneLights

/-- One record of the structured light buffer (`struct PointLight`). -/
structure PointLight (K : Type) where
  Color : float3 K
  Position : float3 K
  Range : K
  Falloff : float3 K

/-- The loop that fills the light buffer in
`TiledDeferredPath::TiledDeferredLighting` (lines 749-760): `pLights` is the
mapped memory, `numTotalCount` the `uint32_t` counter. -/
def TiledDeferredPath.fillLoop :
    List (Light K) → (Nat → PointLight K) → Nat → (Nat → PointLight K) × Nat
  | [], pLights, numTotalCount => (pLights, numTotalCount)
  | light :: rest, pLights, numTotalCount =>
    if light.LightType = LightType.LT_PointLight then
      TiledDeferredPath.fillLoop rest
        (Function.update pLights numTotalCount
          ⟨float3.smul light.LightIntensity light.LightColor, light.Position, light.Range,
            light.Attenuation⟩)
        ((numTotalCount + 1) % 2 ^ 32)
    else TiledDeferredPath.fillLoop rest pLights numTotalCount

/-- The light-data part of `TiledDeferredPath::TiledDeferredLighting`
(lines 741-762): the records written through the mapped pointer and the
value passed as `LightCount`. -/
def TiledDeferredPath.fillLightBuffer (sceneLights : List (Light K))
    (mapped : Nat → PointLight K) : (Nat → PointLight K) × Nat :=
  if sceneLights.length ≠ 0 then TiledDeferredPath.fillLoop sceneLights mapped 0
  else (mapped, 0)

/-! ## The scene manager -/

/-- The scene-object type ids the constructor of `SceneManager` registers
(constants of `Scene/SceneObject.h`, not among the sources). -/
inductive SceneObjectType
  | SOT_Entity
  | SOT_Light
  | SOT_Sky
  deriving DecidableEq

/-- The failure code raised by the three creation functions. -/
inductive ExceptionCode
  | ERR_ITEM_NOT_FOUND
  deriving DecidableEq

/-- The keys the creation functions put into the `NameValuePairList`. -/
inductive ParamKey
  | LightType
  | ResourceGroup
  | Mesh
  | Sky
  deriving DecidableEq

/-- A value of the `NameValuePairList`: one of the caller's strings (of type
`S`), or the entry of `lightTypeStr` that names a light type. -/
inductive ParamValue (S : Type)
  | str (s : S)
  | lightTypeStr (type : LightType)

/-- What the creation functions read of a `SceneObjectRegEntry` : the factory
function, which builds an object (of type `O`) from a name and the
parameter list. -/
structure SceneObjectRegEntry (S O : Type) where
  factoryFunc : S → List (ParamKey × ParamValue S) → O

/-- The members of `SceneManager` the creation functions touch.  A type
without an entry in `mRegistry` maps to `none`; a type without objects maps
to the empty vector in `mSceneObjectCollections`. -/
structure SceneManager (S O : Type) where
  mRegistry : SceneObjectType → Option (SceneObjectRegEntry S O)
  mSceneObjectCollections : SceneObjectType → List O
  mAllSceneLights : List O

/-- The function `SceneManager::RegisterType` (lines 70-81), without the call
of the initialisation function. -/
def SceneManager.RegisterType {S O : Type} (sm : SceneManager S O) (type : SceneObjectType)
    (ff : S → List (ParamKey × ParamValue S) → O) : SceneManager S O :=
  { sm with mRegistry := Function.update sm.mRegistry type (some ⟨ff⟩) }

/-- Modelled from the spec: `ENGINE_EXCEPT` (`Core/Exception.h`, not among the
sources) raises the failure with the given code immediately, so that the
statements after it are not executed.  A call is modelled by its final state
together with either the failure code or the returned object. -/
def ENGINE_EXCEPT {S O : Type} (sm : SceneManager S O) (code : ExceptionCode) :
    SceneManager S O × Except ExceptionCode O :=
  (sm, Except.error code)

/-- The function `SceneManager::CreateLight` (lines 148-165).  The parameter
`type` is a `uint32_t` holding a value of `LightType`, the index into
`lightTypeStr`. -/
def SceneManager.CreateLight {S O : Type} (sm : SceneManager S O) (name : S)
    (type : LightType) : SceneManager S O × Except ExceptionCode O :=
  match sm.mRegistry SceneObjectType.SOT_Light with
  | none => ENGINE_EXCEPT sm ExceptionCode.ERR_ITEM_NOT_FOUND
  | some entry =>
    let params := [(ParamKey.LightType, ParamValue.lightTypeStr type)]
    let light := entry.factoryFunc name params
    ({ sm with
        mSceneObjectCollections := Function.update sm.mSceneObjectCollections
          SceneObjectType.SOT_Light
          (sm.mSceneObjectCollections SceneObjectType.SOT_Light ++ [light]),
        mAllSceneLights := sm.mAllSceneLights ++ [light] },
      Except.ok light)

/-- The function `SceneManager::CreateEntity` (lines 167-183). -/
def SceneManager.CreateEntity {S O : Type} (sm : SceneManager S O)
    (entityName meshName groupName : S) : SceneManager S O × Except ExceptionCode O :=
  match sm.mRegistry SceneObjectType.SOT_Entity with
  | none => ENGINE_EXCEPT sm ExceptionCode.ERR_ITEM_NOT_FOUND
  | some entry =>
    let params := [(ParamKey.ResourceGroup, ParamValue.str groupName),
      (ParamKey.Mesh, ParamValue.str meshName)]
    let entity := entry.factoryFunc entityName params
    ({ sm with
        mSceneObjectCollections := Function.update sm.mSceneObjectCollections
          SceneObjectType.SOT_Entity
          (sm.mSceneObjectCollections SceneObjectType.SOT_Entity ++ [entity]) },
      Except.ok entity)

/-- The function `SceneManager::CreateSkyBox` (lines 185-201). -/
def SceneManager.CreateSkyBox {S O : Type} (sm : SceneManager S O)
    (skyName resName groupName : S) : SceneManager S O × Except ExceptionCode O :=
  match sm.mRegistry SceneObjectType.SOT_Sky with
  | none => ENGINE_EXCEPT sm ExceptionCode.ERR_ITEM_NOT_FOUND
  | some entry =>
    let params := [(ParamKey.ResourceGroup, ParamValue.str groupName),
      (ParamKey.Sky, ParamValue.str resName)]
    let sky := entry.factoryFunc skyName params
    ({ sm with
        mSceneObjectCollections := Function.update sm.mSceneObjectCollections
          SceneObjectType.SOT_Sky
          (sm.mSceneObjectCollections SceneObjectType.SOT_Sky ++ [sky]) },
      Except.ok sky)

/-! ## The shadow manager `CascadedShadowMap` -/

/-- Modelled from the spec: `operator/` of a `float3` by a scalar
(`Math/Vector.h`, not among the sources), component by component. -/
def float3.sdiv (a : float3 K) (s : K) : float3 K := ⟨a.x / s, a.y / s, a.z / s⟩

/-- Modelled from the spec: `operator*` of `float4x4` (`Math/Matrix.h`, not
among the sources), the matrix product. -/
def float4x4.mul (A B : float4x4 K) : float4x4 K :=
  { M11 := A.M11 * B.M11 + A.M12 * B.M21 + A.M13 * B.M31 + A.M14 * B.M41
    M12 := A.M11 * B.M12 + A.M12 * B.M22 + A.M13 * B.M32 + A.M14 * B.M42
    M13 := A.M11 * B.M13 + A.M12 * B.M23 + A.M13 * B.M33 + A.M14 * B.M43
    M14 := A.M11 * B.M14 + A.M12 * B.M24 + A.M13 * B.M34 + A.M14 * B.M44
    M21 := A.M21 * B.M11 + A.M22 * B.M21 + A.M23 * B.M31 + A.M24 * B.M41
    M22 := A.M21 * B.M12 + A.M22 * B.M22 + A.M23 * B.M32 + A.M24 * B.M42
    M23 := A.M21 * B.M13 + A.M22 * B.M23 + A.M23 * B.M33 + A.M24 * B.M43
    M24 := A.M21 * B.M14 + A.M22 * B.M24 + A.M23 * B.M34 + A.M24 * B.M44
    M31 := A.M31 * B.M11 + A.M32 * B.M21 + A.M33 * B.M31 + A.M34 * B.M41
    M32 := A.M31 * B.M12 + A.M32 * B.M22 + A.M33 * B.M32 + A.M34 * B.M42
    M33 := A.M31 * B.M13 + A.M32 * B.M23 + A.M33 * B.M33 + A.M34 * B.M43
    M34 := A.M31 * B.M14 + A.M32 * B.M24 + A.M33 * B.M34 + A.M34 * B.M44
    M41 := A.M41 * B.M11 + A.M42 * B.M21 + A.M43 * B.M31 + A.M44 * B.M41
    M42 := A.M41 * B.M12 + A.M42 * B.M22 + A.M43 * B.M32 + A.M44 * B.M42
    M43 := A.M41 * B.M13 + A.M42 * B.M23 + A.M43 * B.M33 + A.M44 * B.M43
    M44 := A.M41 * B.M14 + A.M42 * B.M24 + A.M43 * B.M34 + A.M44 * B.M44 }

/-- Modelled from the spec: `CreateScaling` (`Math/MathUtil.h`, not among the
sources), the matrix of the half-extent scale. -/
def CreateScaling (sX sY sZ : K) : float4x4 K :=
  { M11 := sX, M12 := 0, M13 := 0, M14 := 0
    M21 := 0, M22 := sY, M23 := 0, M24 := 0
    M31 := 0, M32 := 0, M33 := sZ, M34 := 0
    M41 := 0, M42 := 0, M43 := 0, M44 := 1 }

/-- Modelled from the spec: `CreateTranslation` (`Math/MathUtil.h`, not among
the sources), the matrix of the centre translation, with the translation in
the fourth row. -/
def CreateTranslation (x y z : K) : float4x4 K :=
  { M11 := 1, M12 := 0, M13 := 0, M14 := 0
    M21 := 0, M22 := 1, M23 := 0, M24 := 0
    M31 := 0, M32 := 0, M33 := 1, M34 := 0
    M41 := x, M42 := y, M43 := z, M44 := 1 }

/-- Modelled from the spec: `Transform` of a point by a matrix
(`Math/MathUtil.h`, not among the sources): the row vector `(p, 1)` times the
matrix, first three components. -/
def Transform (p : float3 K) (M : float4x4 K) : float3 K :=
  ⟨p.x * M.M11 + p.y * M.M21 + p.z * M.M31 + M.M41,
   p.x * M.M12 + p.y * M.M22 + p.z * M.M32 + M.M42,
   p.x * M.M13 + p.y * M.M23 + p.z * M.M33 + M.M43⟩

/-- Modelled from the spec: the orthographic projection matrix that an
off-centre box (left, right, bottom, top, near, far) gets: X and Y are mapped
to [-1, 1], Z to [0, 1]. -/
def CreateOrthographic (left right bottom top zNear zFar : K) : float4x4 K :=
  { M11 := 2 / (right - left), M12 := 0, M13 := 0, M14 := 0
    M21 := 0, M22 := 2 / (top - bottom), M23 := 0, M24 := 0
    M31 := 0, M32 := 0, M33 := 1 / (zFar - zNear), M34 := 0
    M41 := (left + right) / (left - right), M42 := (top + bottom) / (bottom - top),
    M43 := zNear / (zNear - zFar), M44 := 1 }

/-- Modelled from the spec: `Camera::CreateLookAt` (`Graphics/Camera.h`, not
among the sources) gives the camera the view matrix built from eye, target
and up vector; the matrix construction `lookAt` is a parameter. -/
def Camera.CreateLookAt (lookAt : float3 K → float3 K → float3 K → float4x4 K)
    (camera : Camera K) (eye target up : float3 K) : Camera K :=
  { camera with ViewMatrix := lookAt eye target up }

/-- Modelled from the spec: `Camera::CreateOrthoOffCenter` (`Graphics/Camera.h`,
not among the sources) gives the camera the orthographic projection fitted
to the box. -/
def Camera.CreateOrthoOffCenter (camera : Camera K) (left right bottom top zNear zFar : K) :
    Camera K :=
  { camera with ProjMatrix := CreateOrthographic left right bottom top zNear zFar }

/-- Modelled from the spec: `BoundingBox::Merge` of a point
(`Math/BoundingBox.h`, not among the sources).  A default-constructed box is
undefined (`none`); merging a point gives the smallest box that holds the
box and the point. -/
def BoundingBox.Merge (box : Option (BoundingBox K)) (p : float3 K) : Option (BoundingBox K) :=
  match box with
  | none => some ⟨p, p⟩
  | some b =>
    some ⟨⟨min b.Min.x p.x, min b.Min.y p.y, min b.Min.z p.z⟩,
      ⟨max b.Max.x p.x, max b.Max.y p.y, max b.Max.z p.z⟩⟩

/-- Modelled from the spec: the element assignment `v[i] = x` of a
`std::vector`, defined for an index below the size only. -/
def vectorSet {α : Type} (v : List α) (i : Nat) (x : α) : Option (List α) :=
  if i < v.length then some (v.set i x) else none

/-- The resources of the shadow manager that are textures. -/
inductive ShadowResource
  | mShadowDepth
  | mShadowTexture
  | mShadowMapTempBlur
  deriving DecidableEq

/-- The calls of the render factory made by `UpdateShadowMapStorage`, with
the target resource and the array size (of a texture) or the array slice (of
a view). -/
inductive FactoryCall
  | CreateFrameBuffer
  | CreateTexture2D (target : ShadowResource) (arraySize : Nat)
  | CreateDepthStencilView
  | CreateRenderTargetView2D (target : ShadowResource) (arrIndex : Nat)
  deriving DecidableEq

/-- The members of `CascadedShadowMap` used by its constructor,
`UpdateShadowMapStorage` and `UpdateShadowMatrix`.  A resource pointer is
represented by whether it is set; `mShadowTexture` by the array size the
texture was created with, which is what `GetTextureArraySize` reports;
`mShadowSplitsRTV` by the array slice of each view. -/
structure CascadedShadowMap (K : Type) where
  mMoveLightTexelSize : Bool
  mLightCamera : List (Camera K)
  mShadowCascadeScale : List (float4 K)
  mShadowCascadeOffset : List (float4 K)
  mSplitPlanes : Nat → K
  mShadowView : float4x4 K
  mShadowTextureNorm : float4x4 K
  mBorderPaddingMinMax : K × K
  mCascadeBlendArea : K
  mShadowFrameBuffer : Bool
  mShadowDepth : Bool
  mShadowTexture : Option Nat
  mShadowSplitsRTV : List Nat
  mShadowMapTempBlur : Bool
  mShadowMapTempBlurRTV : Bool

/-- The constants and library functions the shadow manager depends on:
the constants of `Graphics/CascadedShadowMap.h` (not among the sources), the
device type of the application settings, the C library functions and the
look-at matrix construction. -/
structure ShadowEnv (K : Type) where
  MAX_CASCADES : Nat
  SHADOW_MAP_SIZE : Nat
  SHADOW_MAP_BLUR_KERNEL_SIZE : Nat
  isDirect3D11 : Bool
  tanf : K → K
  powf : K → K → K
  lookAt : float3 K → float3 K → float3 K → float4x4 K

/-- The texture-space normalisation matrix of the constructor (lines 251-252). -/
def textureNorm (isDirect3D11 : Bool) : float4x4 K :=
  let scaleY : K := if isDirect3D11 then -(1 / 2) else 1 / 2
  (CreateScaling (1 / 2) scaleY 1).mul (CreateTranslation (1 / 2) (1 / 2) 0)

/-- The constructor `CascadedShadowMap::CascadedShadowMap` (lines 232-253).
`defaultFloat4` and `defaultCamera` are the default-constructed elements;
`mSplitPlanes` and `mShadowView` are not initialised by the constructor and
start with the given content. -/
def CascadedShadowMap.ctor (env : ShadowEnv K) (defaultFloat4 : float4 K)
    (defaultCamera : Camera K) (mSplitPlanes : Nat → K) (mShadowView : float4x4 K) :
    CascadedShadowMap K :=
  { mMoveLightTexelSize := true
    mLightCamera := List.replicate env.MAX_CASCADES defaultCamera
    mShadowCascadeScale := List.replicate env.MAX_CASCADES defaultFloat4
    mShadowCascadeOffset := List.replicate env.MAX_CASCADES defaultFloat4
    mSplitPlanes := mSplitPlanes
    mShadowView := mShadowView
    mShadowTextureNorm := textureNorm env.isDirect3D11
    mBorderPaddingMinMax :=
      (1 / (env.SHADOW_MAP_SIZE : K),
        (((env.SHADOW_MAP_SIZE : ℤ) - 1 : ℤ) : K) / (env.SHADOW_MAP_SIZE : K))
    mCascadeBlendArea := (((env.SHADOW_MAP_SIZE : ℤ) - 1 : ℤ) : K) / (env.SHADOW_MAP_SIZE : K)
    mShadowFrameBuffer := false
    mShadowDepth := false
    mShadowTexture := none
    mShadowSplitsRTV := []
    mShadowMapTempBlur := false
    mShadowMapTempBlurRTV := false }

/-- The function `CascadedShadowMap::UpdateShadowMapStorage` (lines 255-337):
the new state and the calls of the render factory, in order. -/
def CascadedShadowMap.UpdateShadowMapStorage (csm : CascadedShadowMap K) (light : Light K) :
    CascadedShadowMap K × List FactoryCall :=
  let r1 : CascadedShadowMap K × List FactoryCall :=
    if !csm.mShadowFrameBuffer then
      ({ csm with mShadowFrameBuffer := true, mShadowDepth := true },
        [FactoryCall.CreateFrameBuffer,
         FactoryCall.CreateTexture2D ShadowResource.mShadowDepth 1,
         FactoryCall.CreateDepthStencilView])
    else (csm, [])
  if light.LightType = LightType.LT_DirectionalLight then
    let numCascade := light.ShadowCascades
    let stale : Bool :=
      match r1.1.mShadowTexture with
      | none => true
      | some arraySize => decide (arraySize ≠ numCascade)
    if stale then
      ({ r1.1 with
          mShadowTexture := some numCascade
          mShadowSplitsRTV := List.range numCascade
          mShadowMapTempBlur := true
          mShadowMapTempBlurRTV := true },
        r1.2 ++ [FactoryCall.CreateTexture2D ShadowResource.mShadowTexture numCascade] ++
          (List.range numCascade).map
            (FactoryCall.CreateRenderTargetView2D ShadowResource.mShadowTexture) ++
          [FactoryCall.CreateTexture2D ShadowResource.mShadowMapTempBlur 1,
           FactoryCall.CreateRenderTargetView2D ShadowResource.mShadowMapTempBlur 0])
    else r1
  else r1

/-- The choice of the up vector of the light's coordinate system (lines
461-462). -/
def lightUpVector (camera : Camera K) (lightDirection : float3 K) : float3 K :=
  if |Dot camera.Right lightDirection| > 9 / 10 then camera.Up else camera.Right

/-- One iteration of the loop of lines 464-465: the light camera `i` gets the
look-at view from the origin along the light direction. -/
def lookAtStep (lookAt : float3 K → float3 K → float3 K → float4x4 K)
    (lightDirection lightUp : float3 K) (cams : List (Camera K)) (i : Nat) :
    Option (List (Camera K)) :=
  match cams[i]? with
  | none => none
  | some camera => some (cams.set i (camera.CreateLookAt lookAt ⟨0, 0, 0⟩ lightDirection lightUp))

/-- The transformation of four corners to light view space (lines 503-504
and 511-512). -/
def transformCorners (M : float4x4 K) (corner : Nat → float3 K) : Nat → float3 K :=
  fun i => if i < 4 then Transform (corner i) M else corner i

/-- The box of the eight corners of a sub-frustum (lines 514-519). -/
def mergeCorners (near far : Nat → float3 K) : Option (BoundingBox K) :=
  (List.range 4).foldl
    (fun box i => BoundingBox.Merge (BoundingBox.Merge box (near i)) (far i)) none

/-- The padding by the blur kernel (lines 521-536): the padded box and the
world units per texel. -/
def padBound (env : ShadowEnv K) (boundSplit : BoundingBox K) : BoundingBox K × float3 K :=
  let scaleDuetoBlureAMT : K :=
    (env.SHADOW_MAP_BLUR_KERNEL_SIZE : K) / (env.SHADOW_MAP_SIZE : K)
  let vBoarderOffset :=
    float3.smul scaleDuetoBlureAMT (float3.smul (1 / 2) (boundSplit.Max.sub boundSplit.Min))
  let padded : BoundingBox K :=
    ⟨boundSplit.Min.sub vBoarderOffset, boundSplit.Max.add vBoarderOffset⟩
  (padded, (padded.Max.sub padded.Min).sdiv (env.SHADOW_MAP_SIZE : K))

/-- The cascade scale read off the composed projection (line 567). -/
def cascadeScale (orthoProjection : float4x4 K) : float4 K :=
  ⟨orthoProjection.M11, orthoProjection.M22, orthoProjection.M33, 1⟩

/-- The cascade offset read off the composed projection (line 568). -/
def cascadeOffset (orthoProjection : float4x4 K) : float4 K :=
  ⟨orthoProjection.M41, orthoProjection.M42, orthoProjection.M43, 0⟩

/-- The variables of the loop over the cascades in `UpdateShadowMatrix`: the
members, the local array `Corners[2][4]` and the two ping-pong indices.
`extractionCalls` is not a variable of the code: it records the calls of
`FrustumPlaneExtraction` made so far, the depth passed to each, in call
order. -/
structure CascadeLoopState (K : Type) where
  csm : CascadedShadowMap K
  Corners : Nat → Nat → float3 K
  nearSplitIdx : Nat
  farSplitIdx : Nat
  extractionCalls : List K

/-- A call `FrustumPlaneExtraction(camera, camZ, corner)` made by
`UpdateShadowMatrix` (lines 500 and 509): the corners it writes, and the
record of the calls extended by this one. -/
def callFrustumPlaneExtraction (tanf : K → K) (camera : Camera K) (camZ : K)
    (corner : Nat → float3 K) (extractionCalls : List K) : (Nat → float3 K) × List K :=
  (FrustumPlaneExtraction tanf camera camZ corner, extractionCalls ++ [camZ])

/-- The scene box in light view space (lines 471-479). -/
def sceneLightSpace (mShadowView : float4x4 K) (sceneAABB : Nat → float3 K) : Nat → float3 K :=
  fun i => if i < 8 then Transform (sceneAABB i) mShadowView else sceneAABB i

/-- The part of `UpdateShadowMatrix` before the loop over the cascades (lines
448-504): the look-at views are set, the shared view and the split depths are
stored and the first cross-section is extracted and transformed.  `Corners`
is the indeterminate initial content of the local array.  The result is
`none` when an array is accessed outside its size. -/
def cascadeLoopInit (env : ShadowEnv K) (csm : CascadedShadowMap K) (camera : Camera K)
    (light : Light K) (Corners : Nat → Nat → float3 K) : Option (CascadeLoopState K) :=
  let numSplits := light.ShadowCascades
  let lightDirection := light.DerivedDirection
  let lightUp := lightUpVector camera lightDirection
  match (List.range numSplits).foldlM (lookAtStep env.lookAt lightDirection lightUp)
      csm.mLightCamera with
  | none => none
  | some cams =>
    match cams[0]? with
    | none => none
    | some camera0 =>
      let mShadowView := camera0.ViewMatrix
      let mSplitPlanes := computeSplitPlanes env.powf camera.NearPlane camera.FarPlane
        light.SplitLambda numSplits csm.mSplitPlanes
      let call := callFrustumPlaneExtraction env.tanf camera (mSplitPlanes 0) (Corners 0) []
      some
        { csm := { csm with
            mLightCamera := cams, mShadowView := mShadowView, mSplitPlanes := mSplitPlanes }
          Corners := Function.update Corners 0 (transformCorners mShadowView call.1)
          nearSplitIdx := 0
          farSplitIdx := 1
          extractionCalls := call.2 }

/-- The first statements of one iteration of the loop over the cascades
(lines 508-512): the cross-section at `mSplitPlanes[iSplit+1]` is extracted
into `Corners[farSplitIdx]` and transformed to light view space. -/
def cascadeExtract (env : ShadowEnv K) (camera : Camera K) (s : CascadeLoopState K)
    (iSplit : Nat) : CascadeLoopState K :=
  let call := callFrustumPlaneExtraction env.tanf camera (s.csm.mSplitPlanes (iSplit + 1))
    (s.Corners s.farSplitIdx) s.extractionCalls
  { s with
    Corners := Function.update s.Corners s.farSplitIdx
      (transformCorners s.csm.mShadowView call.1)
    extractionCalls := call.2 }

/-- The box `boundSplit` that iteration `iSplit` builds before padding (lines
514-519): after the extraction, the corners of both buffers are merged. -/
def cascadeBoundSplit (env : ShadowEnv K) (camera : Camera K) (s : CascadeLoopState K)
    (iSplit : Nat) : Option (BoundingBox K) :=
  mergeCorners ((cascadeExtract env camera s iSplit).Corners s.nearSplitIdx)
    ((cascadeExtract env camera s iSplit).Corners s.farSplitIdx)

/-- One iteration of the loop over the cascades (lines 506-572).
`sceneAABBPointsLightSpace` is the scene box in light space, `uninit iSplit`
the indeterminate content of the clipper's local array in this iteration. -/
def cascadeStep [FloorRing K] (env : ShadowEnv K) (camera : Camera K)
    (sceneAABBPointsLightSpace : Nat → float3 K) (uninit : Nat → Nat → Triangle K)
    (s : CascadeLoopState K) (iSplit : Nat) : Option (CascadeLoopState K) :=
  let extracted := cascadeExtract env camera s iSplit
  match cascadeBoundSplit env camera s iSplit with
  | none => none
  | some merged =>
    let padded := padBound env merged
    let snapped := snapToTexel s.csm.mMoveLightTexelSize padded.2 padded.1
    match CalculateLightNearFar snapped sceneAABBPointsLightSpace (uninit iSplit) with
    | none => none
    | some boundSplit =>
      match s.csm.mLightCamera[iSplit]? with
      | none => none
      | some lightCamera =>
        let fitted := lightCamera.CreateOrthoOffCenter boundSplit.Min.x boundSplit.Max.x
          boundSplit.Min.y boundSplit.Max.y boundSplit.Min.z boundSplit.Max.z
        let orthoProjection := fitted.ProjMatrix.mul s.csm.mShadowTextureNorm
        match vectorSet s.csm.mShadowCascadeScale iSplit (cascadeScale orthoProjection),
          vectorSet s.csm.mShadowCascadeOffset iSplit (cascadeOffset orthoProjection) with
        | some scale, some offset =>
          some
            { csm := { s.csm with
                mLightCamera := s.csm.mLightCamera.set iSplit fitted
                mShadowCascadeScale := scale
                mShadowCascadeOffset := offset }
              Corners := extracted.Corners
              nearSplitIdx := s.farSplitIdx
              farSplitIdx := s.nearSplitIdx
              extractionCalls := extracted.extractionCalls }
        | _, _ => none

/-- The variables of `UpdateShadowMatrix` after `k` iterations of the loop over
the cascades (lines 448-504, then `k` times lines 506-572).  `sceneAABB`
holds the eight corners of the world bounding box of the scene. -/
def cascadeStateAt [FloorRing K] (env : ShadowEnv K) (csm : CascadedShadowMap K)
    (camera : Camera K) (light : Light K) (sceneAABB : Nat → float3 K)
    (Corners : Nat → Nat → float3 K) (uninit : Nat → Nat → Triangle K) (k : Nat) :
    Option (CascadeLoopState K) :=
  (cascadeLoopInit env csm camera light Corners).bind (fun s0 =>
    (List.range k).foldlM
      (cascadeStep env camera (sceneLightSpace s0.csm.mShadowView sceneAABB) uninit) s0)

/-- The function `CascadedShadowMap::UpdateShadowMatrix` (lines 448-573): the
members after all `numSplits` iterations of the loop over the cascades.
`sceneAABB` holds the eight corners of the world bounding box of the scene;
`Corners` is the indeterminate initial content of the local array.  The
result is `none` when an array is accessed outside its size. -/
def CascadedShadowMap.UpdateShadowMatrix [FloorRing K] (env : ShadowEnv K)
    (csm : CascadedShadowMap K) (camera : Camera K) (light : Light K)
    (sceneAABB : Nat → float3 K) (Corners : Nat → Nat → float3 K)
    (uninit : Nat → Nat → Triangle K) : Option (CascadedShadowMap K) :=
  (cascadeStateAt env csm camera light sceneAABB Corners uninit light.ShadowCascades).map
    (fun s => s.csm)

/-- The group count of one axis in `TiledDeferredPath::TiledDeferredLighting`
(lines 774-775), `(dimension + TileGroupSize - 1) / TileGroupSize` in
`uint32_t` arithmetic: the sum and the difference wrap modulo `2^32`.
`TileGroupSize` is a constant of `Graphics/RenderPath.h` (not among the
sources). -/
def TiledDeferredPath.numGroup (dimension TileGroupSize : Nat) : Nat :=
  (((dimension + TileGroupSize) % 2 ^ 32 + (2 ^ 32 - 1)) % 2 ^ 32) / TileGroupSize

/-- The three group counts passed to `DispatchCompute` (line 779). -/
def TiledDeferredPath.dispatchGroups (windowWidth windowHeight TileGroupSize : Nat) :
    Nat × Nat × Nat :=
  (TiledDeferredPath.numGroup windowWidth TileGroupSize,
    TiledDeferredPath.numGroup windowHeight TileGroupSize, 1)

/-! ## The clipper and the snap step with rounding -/

/-- The power `2^e` for an integer exponent. -/
def pow2 (e : ℤ) : ℚ :=
  if 0 ≤ e then ((2 ^ e.toNat : ℕ) : ℚ) else 1 / ((2 ^ (-e).toNat : ℕ) : ℚ)

/-- Rounding to the nearest integer, ties to the even one. -/
def roundNearestEven (q : ℚ) : ℤ :=
  let f : ℤ := Int.floor q
  if q - (f : ℚ) < 1 / 2 then f
  else if 1 / 2 < q - (f : ℚ) then f + 1
  else if f % 2 = 0 then f else f + 1

/-- The number of binary digits of `n`, by halving at most `fuel` times. -/
def bitLengthAux : Nat → Nat → Nat
  | 0, _ => 0
  | fuel + 1, n => if n = 0 then 0 else bitLengthAux fuel (n / 2) + 1

/-- The number of binary digits of `n`. -/
def bitLength (n : Nat) : Nat := bitLengthAux n n

/-- The exponent `e` with `2^e ≤ |q| < 2^(e+1)`, for `q ≠ 0`: the difference of
the bit lengths of numerator and denominator, or one less. -/
def binade (q : ℚ) : ℤ :=
  let e0 : ℤ := (bitLength q.num.natAbs : ℤ) - (bitLength q.den : ℤ)
  if pow2 e0 * (q.den : ℚ) ≤ (q.num.natAbs : ℚ) then e0 else e0 - 1

/-- The `float` nearest to `q` (IEEE 754 binary32, round to nearest, ties to
even): 24 significant bits, and below `2^-126` the fixed spacing `2^-149` of
the subnormal numbers.  Overflow to infinity is not modelled: the definition
is meant for `|q| ≤ FLT_MAX`. -/
def round32 (q : ℚ) : ℚ :=
  if q = 0 then 0
  else
    let ulp := pow2 (max (binade q) (-126) - 23)
    (roundNearestEven (q / ulp) : ℚ) * ulp

/-- The quantisation of one bound (lines 544-546) where the quotient, its
floor and the product are each rounded by `fl`, as the three assignments to
the `float` member do. -/
def snapCoordRounded [FloorRing K] (fl : K → K) (v w : K) : K :=
  fl (fl ((Int.floor (fl (v / w)) : ℤ) : K) * w)

/-- The texel-snap step (lines 540-557) with every operation rounded by `fl`. -/
def snapToTexelRounded [FloorRing K] (fl : K → K) (mMoveLightTexelSize : Bool)
    (worldUnitsPerTexel : float3 K) (boundSplit : BoundingBox K) : BoundingBox K :=
  if mMoveLightTexelSize then
    ⟨{ boundSplit.Min with
        x := snapCoordRounded fl boundSplit.Min.x worldUnitsPerTexel.x,
        y := snapCoordRounded fl boundSplit.Min.y worldUnitsPerTexel.y },
     { boundSplit.Max with
        x := snapCoordRounded fl boundSplit.Max.x worldUnitsPerTexel.x,
        y := snapCoordRounded fl boundSplit.Max.y worldUnitsPerTexel.y }⟩
  else boundSplit

/-- Modelled from the spec: `Lerp` with the difference, the product and the
sum each rounded by `fl`. -/
def LerpRounded (fl : K → K) (a b : float3 K) (t : K) : float3 K :=
  ⟨fl (a.x + fl (fl (b.x - a.x) * t)), fl (a.y + fl (fl (b.y - a.y) * t)),
    fl (a.z + fl (fl (b.z - a.z) * t))⟩

/-- The ratio `ratio01` (lines 158-159) with `hitRatio`, the divisor and the
quotient each rounded by `fl`. -/
def ratio01Rounded (fl : K → K) (edge : K) (component : Nat) (t : Triangle K) : K :=
  fl (fl (edge - t.pt0.comp component) / fl (t.pt1.comp component - t.pt0.comp component))

/-- The ratio `ratio02` (lines 158 and 160) with rounding. -/
def ratio02Rounded (fl : K → K) (edge : K) (component : Nat) (t : Triangle K) : K :=
  fl (fl (edge - t.pt0.comp component) / fl (t.pt2.comp component - t.pt0.comp component))

/-- The ratio `ratio20` (lines 179-180) with rounding. -/
def ratio20Rounded (fl : K → K) (edge : K) (component : Nat) (t : Triangle K) : K :=
  fl (fl (edge - t.pt2.comp component) / fl (t.pt0.comp component - t.pt2.comp component))

/-- The ratio `ratio21` (lines 179 and 181) with rounding. -/
def ratio21Rounded (fl : K → K) (edge : K) (component : Nat) (t : Triangle K) : K :=
  fl (fl (edge - t.pt2.comp component) / fl (t.pt1.comp component - t.pt2.comp component))

/-- The body of the `iTri` loop (lines 109-203) with every arithmetic
operation rounded by `fl`; comparisons and copies are exact.  With `fl` the
identity this is `clipTriangle`. -/
def clipTriangleRounded (fl : K → K) (iFrustumPlane : Nat) (edge : K) (component : Nat)
    (st : ClipState K) (iTri : Nat) : Option (ClipState K × Nat) :=
  if iTri < triangleListSize then
    if (st.triangleList iTri).culled = false then
      let t := st.triangleList iTri
      let c0 := pointPassClip iFrustumPlane edge component t.pt0
      let c1 := pointPassClip iFrustumPlane edge component t.pt1
      let c2 := pointPassClip iFrustumPlane edge component t.pt2
      let insideVertCount := c0 + c1 + c2
      let s := swapNetwork ⟨t.pt0, t.pt1, t.pt2, c0, c1, c2⟩
      let tl := Function.update st.triangleList iTri ⟨s.pt0, s.pt1, s.pt2, t.culled⟩
      if insideVertCount = 0 then
        some (⟨Function.update tl iTri { tl iTri with culled := true }, st.iTriangleCnt⟩, iTri)
      else if insideVertCount = 1 then
        let tl1 := Function.update tl iTri { tl iTri with culled := false }
        let v1 := LerpRounded fl (tl1 iTri).pt0 (tl1 iTri).pt1
          (ratio01Rounded fl edge component (tl1 iTri))
        let v2 := LerpRounded fl (tl1 iTri).pt0 (tl1 iTri).pt2
          (ratio02Rounded fl edge component (tl1 iTri))
        let tl2 := Function.update tl1 iTri { tl1 iTri with pt1 := v2 }
        let tl3 := Function.update tl2 iTri { tl2 iTri with pt2 := v1 }
        some (⟨tl3, st.iTriangleCnt⟩, iTri)
      else if insideVertCount = 2 then
        if st.iTriangleCnt < triangleListSize ∧ iTri + 1 < triangleListSize then
          let tl1 := Function.update tl st.iTriangleCnt (tl (iTri + 1))
          let tl2 := Function.update tl1 iTri { tl1 iTri with culled := false }
          let tl3 := Function.update tl2 (iTri + 1) { tl2 (iTri + 1) with culled := false }
          let v2 := LerpRounded fl (tl3 iTri).pt2 (tl3 iTri).pt0
            (ratio20Rounded fl edge component (tl3 iTri))
          let v1 := LerpRounded fl (tl3 iTri).pt2 (tl3 iTri).pt1
            (ratio21Rounded fl edge component (tl3 iTri))
          let tl4 := Function.update tl3 (iTri + 1)
            { tl3 (iTri + 1) with pt0 := (tl3 iTri).pt0, pt1 := (tl3 iTri).pt1, pt2 := v2 }
          let tl5 := Function.update tl4 iTri
            { tl4 iTri with pt0 := (tl4 (iTri + 1)).pt1, pt1 := (tl4 (iTri + 1)).pt2, pt2 := v1 }
          some (⟨tl5, st.iTriangleCnt + 1⟩, iTri + 1)
        else none
      else
        some (⟨Function.update tl iTri { tl iTri with culled := false }, st.iTriangleCnt⟩, iTri)
    else some (st, iTri)
  else none

/-- The loop over the working list (lines 107-204) with rounding. -/
def clipLoopRounded (fl : K → K) (iFrustumPlane : Nat) (edge : K) (component : Nat) :
    Nat → ClipState K → Nat → Option (ClipState K)
  | 0, st, iTri => if iTri < st.iTriangleCnt then none else some st
  | fuel + 1, st, iTri =>
    if iTri < st.iTriangleCnt then
      match clipTriangleRounded fl iFrustumPlane edge component st iTri with
      | none => none
      | some (st1, iTri1) =>
        clipLoopRounded fl iFrustumPlane edge component fuel st1 (iTri1 + 1)
    else some st

/-- One pass of the `iFrustumPlane` loop body (lines 104-204) with rounding. -/
def clipPlaneRounded (fl : K → K) (lightFrustumBound : BoundingBox K) (st : ClipState K)
    (iFrustumPlane : Nat) : Option (ClipState K) :=
  clipLoopRounded fl iFrustumPlane (ClipPlaneEdge lightFrustumBound iFrustumPlane)
    (iFrustumPlane >>> 1) triangleListSize st 0

/-- The first `n` passes of the loop over the clip planes with rounding. -/
def clipPlanesRounded (fl : K → K) (lightFrustumBound : BoundingBox K) (n : Nat)
    (st : ClipState K) : Option (ClipState K) :=
  (List.range n).foldlM (clipPlaneRounded fl lightFrustumBound) st

/-- The body of the loop over the 12 triangles (lines 94-220) with rounding. -/
def processAABBTriRounded (fl : K → K) (lightFrustumBound : BoundingBox K)
    (sceneAABBPointLightSpace : Nat → float3 K)
    (acc : (Nat → Triangle K) × (K × K)) (iAABBTri : Nat) :
    Option ((Nat → Triangle K) × (K × K)) :=
  match clipPlanesRounded fl lightFrustumBound 4
      (loadTriangle sceneAABBPointLightSpace acc.1 iAABBTri) with
  | none => none
  | some st =>
    match accumTriangles st acc.2 with
    | none => none
    | some nf => some (st.triangleList, nf)

/-- The function `CalculateLightNearFar` (lines 49-225) with every arithmetic
operation rounded by `fl`: with `fl = round32` the computation in `float`,
with `fl` the identity the function `CalculateLightNearFar` above. -/
def CalculateLightNearFarRounded (fl : K → K) (lightFrustumBound : BoundingBox K)
    (sceneAABBPointLightSpace : Nat → float3 K) (uninit : Nat → Triangle K) :
    Option (BoundingBox K) :=
  match (List.range 12).foldlM
      (processAABBTriRounded fl lightFrustumBound sceneAABBPointLightSpace)
      (uninit, ((FLT_MAX : K), -(FLT_MAX : K))) with
  | none => none
  | some r =>
    some ⟨{ lightFrustumBound.Min with z := r.2.1 }, { lightFrustumBound.Max with z := r.2.2 }⟩

/-! ## Auxiliary notions used in the statements -/

/-- The permutations of three points that the swap network can produce. -/
def IsPerm3 (a b c a1 b1 c1 : float3 K) : Prop :=
  (a1 = a ∧ b1 = b ∧ c1 = c) ∨ (a1 = a ∧ b1 = c ∧ c1 = b) ∨ (a1 = b ∧ b1 = a ∧ c1 = c) ∨
  (a1 = b ∧ b1 = c ∧ c1 = a) ∨ (a1 = c ∧ b1 = a ∧ c1 = b) ∨ (a1 = c ∧ b1 = b ∧ c1 = a)

/-- The points of a list entry after classification and the swap network
(lines 116-148). -/
def sortedPts (k : Nat) (edge : K) (component : Nat) (t : Triangle K) : Flagged K :=
  swapNetwork ⟨t.pt0, t.pt1, t.pt2, pointPassClip k edge component t.pt0,
    pointPassClip k edge component t.pt1, pointPassClip k edge component t.pt2⟩

/-- The value of `insideVertCount` for a list entry (lines 112-131). -/
def insideVertCount (k : Nat) (edge : K) (component : Nat) (t : Triangle K) : Nat :=
  pointPassClip k edge component t.pt0 + pointPassClip k edge component t.pt1 +
    pointPassClip k edge component t.pt2

/-- The entry after the swaps, as a non-culled triangle. -/
def sortedTri (k : Nat) (edge : K) (component : Nat) (t : Triangle K) : Triangle K :=
  ⟨(sortedPts k edge component t).pt0, (sortedPts k edge component t).pt1,
    (sortedPts k edge component t).pt2, false⟩

/-- A vertex passes the inside test of plane `k`. -/
def Passes (k : Nat) (edge : K) (component : Nat) (p : float3 K) : Prop :=
  if k % 2 = 0 then p.comp component > edge else p.comp component < edge

/-- The closed version of the inside test: on the plane counts as inside. -/
def PassesClosed (k : Nat) (edge : K) (component : Nat) (p : float3 K) : Prop :=
  if k % 2 = 0 then p.comp component ≥ edge else p.comp component ≤ edge

/-- All three corners of a list entry satisfy `Q`. -/
def TriAll (Q : float3 K → Prop) (t : Triangle K) : Prop :=
  Q t.pt0 ∧ Q t.pt1 ∧ Q t.pt2

/-- The entries that one clip step writes for a non-culled entry `t`: the
entry itself marked culled (0 inside), one triangle (1 or 3 inside), or the
two triangles of the split (2 inside), in list order. -/
def clipOutputs (k : Nat) (edge : K) (component : Nat) (t : Triangle K) : List (Triangle K) :=
  let T := sortedTri k edge component t
  if insideVertCount k edge component t = 0 then [⟨T.pt0, T.pt1, T.pt2, true⟩]
  else if insideVertCount k edge component t = 1 then
    [⟨T.pt0, Lerp T.pt0 T.pt2 (ratio02 edge component T),
      Lerp T.pt0 T.pt1 (ratio01 edge component T), false⟩]
  else if insideVertCount k edge component t = 2 then
    [⟨T.pt1, Lerp T.pt2 T.pt0 (ratio20 edge component T),
      Lerp T.pt2 T.pt1 (ratio21 edge component T), false⟩,
     ⟨T.pt0, T.pt1, Lerp T.pt2 T.pt0 (ratio20 edge component T), false⟩]
  else [T]

/-- The point `p` lies on the triangle with corners `a`, `b`, `c`: it is a
convex combination of the three corners. -/
def OnTriangle (a b c p : float3 K) : Prop :=
  ∃ α β γ : K, 0 ≤ α ∧ 0 ≤ β ∧ 0 ≤ γ ∧ α + β + γ = 1 ∧
    p.x = α * a.x + β * b.x + γ * c.x ∧
    p.y = α * a.y + β * b.y + γ * c.y ∧
    p.z = α * a.z + β * b.z + γ * c.z

/-- Signed distance of a vertex to the plane, positive on the inside. -/
def signedDist (k : Nat) (edge : K) (component : Nat) (p : float3 K) : K :=
  if k % 2 = 0 then p.comp component - edge else edge - p.comp component

/-- A predicate on points that is closed under `Lerp` with a ratio in [0,1]. -/
def ConvexPred (Q : float3 K → Prop) : Prop :=
  ∀ a b t, Q a → Q b → 0 ≤ t → t ≤ 1 → Q (Lerp a b t)

/-- The point `p` lies on a non-culled entry of the working list. -/
def Covered (st : ClipState K) (p : float3 K) : Prop :=
  ∃ i, i < st.iTriangleCnt ∧ (st.triangleList i).culled = false ∧
    OnTriangle (st.triangleList i).pt0 (st.triangleList i).pt1 (st.triangleList i).pt2 p

/-- Every non-culled entry of the working list has its corners in `Q`. -/
def Live (Q : float3 K → Prop) (st : ClipState K) : Prop :=
  ∀ i, i < st.iTriangleCnt → (st.triangleList i).culled = false → TriAll Q (st.triangleList i)

/-- The inside test of clip plane `n` of the box: `x > Min.X`, `x < Max.X`,
`y > Min.Y`, `y < Max.Y` for `n = 0, 1, 2, 3`. -/
def PlanePass (b : BoundingBox K) (n : Nat) (p : float3 K) : Prop :=
  Passes n (ClipPlaneEdge b n) (n >>> 1) p

/-- The closed inside test of clip plane `n` of the box. -/
def PlanePassClosed (b : BoundingBox K) (n : Nat) (p : float3 K) : Prop :=
  PassesClosed n (ClipPlaneEdge b n) (n >>> 1) p

/-- The value `z` is the Z coordinate of a corner of a non-culled entry among
the first `m` entries of the working list. -/
def VertZ (st : ClipState K) (m : Nat) (z : K) : Prop :=
  ∃ i, i < m ∧ (st.triangleList i).culled = false ∧
    (z = (st.triangleList i).pt0.z ∨ z = (st.triangleList i).pt1.z ∨
      z = (st.triangleList i).pt2.z)

/-- The point `p` lies on the `iAABBTri`-th tessellation triangle of the scene box. -/
def OnSceneTriangle (scene : Nat → float3 K) (iAABBTri : Nat) (p : float3 K) : Prop :=
  OnTriangle (scene (AABBTriIndexes.getD (iAABBTri * 3 + 0) 0))
    (scene (AABBTriIndexes.getD (iAABBTri * 3 + 1) 0))
    (scene (AABBTriIndexes.getD (iAABBTri * 3 + 2) 0)) p

/-- Strictly inside the four side planes of the box. -/
def InSlab (b : BoundingBox K) (p : float3 K) : Prop :=
  b.Min.x < p.x ∧ p.x < b.Max.x ∧ b.Min.y < p.y ∧ p.y < b.Max.y

/-- Inside the closed slab `[Min.X, Max.X] x [Min.Y, Max.Y]`. -/
def InSlabClosed (b : BoundingBox K) (p : float3 K) : Prop :=
  b.Min.x ≤ p.x ∧ p.x ≤ b.Max.x ∧ b.Min.y ≤ p.y ∧ p.y ≤ b.Max.y

/-- The state of the loop over the 12 triangles after `m` iterations: the
array contents and the running near/far pair. -/
def foldTri (b : BoundingBox K) (scene : Nat → float3 K) (uninit : Nat → Triangle K)
    (m : Nat) : Option ((Nat → Triangle K) × (K × K)) :=
  (List.range m).foldlM (processAABBTri b scene) (uninit, ((FLT_MAX : K), -(FLT_MAX : K)))

/-- The working list after the `i`-th triangle of the run has been clipped
against the four planes. -/
def clippedAt (b : BoundingBox K) (scene : Nat → float3 K) (uninit : Nat → Triangle K)
    (i : Nat) : Option (ClipState K) :=
  (foldTri b scene uninit i).bind (fun acc => clipPlanes b 4 (loadTriangle scene acc.1 i))

/-- A value that is the Z coordinate of a point of one of the first `m`
tessellation triangles inside the closed slab. -/
def GoodZ (b : BoundingBox K) (scene : Nat → float3 K) (m : Nat) (z : K) : Prop :=
  ∃ i p, i < m ∧ OnSceneTriangle scene i p ∧ InSlabClosed b p ∧ p.z = z

/-- The event is a call of the shadow renderer. -/
def RenderEvent.isShadowRendererCall : RenderEvent K → Bool
  | RenderEvent.MakeCascadedShadowMap _ => true
  | RenderEvent.MakeSpotShadowMap _ => true
  | _ => false

/-- The parameter is a shadow texture or a cascade parameter: one of those
bound under `if (bCastShadow)` in `ForwardPath::RenderScene`. -/
def EffectParam.isShadowParam : EffectParam → Bool
  | EffectParam.cbPossionDiskSamples => true
  | EffectParam.CascadeShadowMap => true
  | EffectParam.LightView => true
  | EffectParam.NumCascades => true
  | EffectParam.BorderPaddingMinMax => true
  | EffectParam.CascadeScale => true
  | EffectParam.CascadeOffset => true
  | EffectParam.InvShadowMapSize => true
  | _ => false

/-- The event binds a shadow texture or a cascade parameter. -/
def RenderEvent.isShadowBinding : RenderEvent K → Bool
  | RenderEvent.SetValue _ param => param.isShadowParam
  | RenderEvent.SetDeferredValue param => param.isShadowParam
  | _ => false

/-- The value an event passes for `ShadowEnabled`, if it sets that parameter. -/
def RenderEvent.shadowEnabledValue : RenderEvent K → Option Bool
  | RenderEvent.SetShadowEnabled _ value => some value
  | _ => none

/-- The event is the draw submission of an opaque item. -/
def RenderEvent.isRender : RenderEvent K → Bool
  | RenderEvent.Render _ => true
  | _ => false

/-- The event rebinds the light colour of an item's effect. -/
def RenderEvent.isLightColorBinding : RenderEvent K → Bool
  | RenderEvent.SetValue _ EffectParam.Light_Color => true
  | _ => false

/-- The event clears the light-pass stencil. -/
def RenderEvent.isClearStencil : RenderEvent K → Bool
  | RenderEvent.ClearStencil => true
  | _ => false

/-- The event draws the volume of a spot or point light. -/
def RenderEvent.isLightVolumeDraw : RenderEvent K → Bool
  | RenderEvent.Draw _ LightShape.mSpotLightShape => true
  | RenderEvent.Draw _ LightShape.mPointLightShape => true
  | _ => false

/-- The event is the draw of a lighting technique of the deferred pass. -/
def RenderEvent.isDraw : RenderEvent K → Bool
  | RenderEvent.Draw _ _ => true
  | _ => false

/-- Every draw of a light volume in the trace comes after a stencil clear. -/
def ClearGuarded (tr : List (RenderEvent K)) : Prop :=
  ∀ pre post e, tr = pre ++ e :: post → e.isLightVolumeDraw = true →
    ∃ c ∈ pre, c.isClearStencil = true

/-- Every draw submission of an item in the trace comes after that item's
effect got `ShadowEnabled = false`. -/
def ShadowOffGuarded (tr : List (RenderEvent K)) : Prop :=
  ∀ pre post item, tr = pre ++ RenderEvent.Render item :: post →
    RenderEvent.SetShadowEnabled item false ∈ pre

/-- The event is the draw submission of the given item. -/
def RenderEvent.isRenderOf (n : Nat) : RenderEvent K → Bool
  | RenderEvent.Render item => decide (item = n)
  | _ => false

/-- The light is a directional light. -/
def Light.isDirectional (light : Light K) : Bool :=
  decide (light.LightType = LightType.LT_DirectionalLight)

/-- The creation call `r` made in state `sm`
fails with `ERR_ITEM_NOT_FOUND` and changes nothing. -/
def FailsUnchanged {S O : Type} (sm : SceneManager S O)
    (r : SceneManager S O × Except ExceptionCode O) : Prop :=
  r.2 = Except.error ExceptionCode.ERR_ITEM_NOT_FOUND ∧
    r.1.mSceneObjectCollections = sm.mSceneObjectCollections ∧
    r.1.mAllSceneLights = sm.mAllSceneLights ∧ r.1.mRegistry = sm.mRegistry

/-- The creation call `r` made in state `sm` returns an object and appends
exactly that object to the collection of `type`, leaving the other
collections as they were. -/
def AppendsOne {S O : Type} (sm : SceneManager S O) (type : SceneObjectType)
    (r : SceneManager S O × Except ExceptionCode O) : Prop :=
  ∃ obj, r.2 = Except.ok obj ∧
    r.1.mSceneObjectCollections type = sm.mSceneObjectCollections type ++ [obj] ∧
    (∀ t, t ≠ type → r.1.mSceneObjectCollections t = sm.mSceneObjectCollections t) ∧
    r.1.mRegistry = sm.mRegistry

/-- The factory call creates the shadow array texture. -/
def FactoryCall.isArrayTextureCreate : FactoryCall → Bool
  | FactoryCall.CreateTexture2D ShadowResource.mShadowTexture _ => true
  | _ => false

/-- The factory calls of `k` successive calls of `UpdateShadowMapStorage`
for the same light, and the state after them. -/
def storageCalls (light : Light K) :
    Nat → CascadedShadowMap K → CascadedShadowMap K × List FactoryCall
  | 0, csm => (csm, [])
  | k + 1, csm =>
    ((storageCalls light k (csm.UpdateShadowMapStorage light).1).1,
      (csm.UpdateShadowMapStorage light).2 ++
        (storageCalls light k (csm.UpdateShadowMapStorage light).1).2)

/-- The component-wise map `p * CascadeScale.xyz + CascadeOffset.xyz` applied
by the shading techniques. -/
def applyScaleOffset (p : float3 K) (scale offset : float4 K) : float3 K :=
  ⟨p.x * scale.x + offset.x, p.y * scale.y + offset.y, p.z * scale.z + offset.z⟩

/-- Following the spec's words: the bounding box of a non-empty list of
points, the component-wise minimum and maximum. -/
def boundingBoxOfPoints (p : float3 K) (ps : List (float3 K)) : BoundingBox K :=
  ⟨⟨(ps.map float3.x).foldl min p.x, (ps.map float3.y).foldl min p.y,
      (ps.map float3.z).foldl min p.z⟩,
    ⟨(ps.map float3.x).foldl max p.x, (ps.map float3.y).foldl max p.y,
      (ps.map float3.z).foldl max p.z⟩⟩

/-- Following the spec's words: the four corners extracted afresh at depth
`camZ`, transformed to light view space. -/
def freshCorners (tanf : K → K) (camera : Camera K) (mShadowView : float4x4 K) (camZ : K) :
    List (float3 K) :=
  (List.range 4).map (fun j =>
    Transform (FrustumPlaneExtraction tanf camera camZ (fun _ => ⟨0, 0, 0⟩) j) mShadowView)

/-- Following the spec's words: the box of cascade `i` when both cross-sections
are extracted afresh, the bounding box of the 8 light-space-transformed
corners at `split[i]` and `split[i+1]`. -/
def freshCascadeBox (tanf : K → K) (camera : Camera K) (mShadowView : float4x4 K)
    (mSplitPlanes : Nat → K) (i : Nat) : BoundingBox K :=
  boundingBoxOfPoints
    (Transform (FrustumPlaneExtraction tanf camera (mSplitPlanes i) (fun _ => ⟨0, 0, 0⟩) 0)
      mShadowView)
    ((freshCorners tanf camera mShadowView (mSplitPlanes i)).tail ++
      freshCorners tanf camera mShadowView (mSplitPlanes (i + 1)))

/-- What holds of the loop variables at the start of iteration `k`: the shared
view and the split depths are those of the loop entry, the arrays keep their
lengths, the two indices are 0 and 1 in some order, `Corners[nearSplitIdx]`
holds the transformed cross-section at `split[k]`, and
`FrustumPlaneExtraction` has been called at `split[0], ..., split[k]`. -/
def CascadeInv (tanf : K → K) (camera : Camera K) (view : float4x4 K) (splits : Nat → K)
    (L1 L2 L3 : Nat) (k : Nat) (s : CascadeLoopState K) : Prop :=
  s.csm.mShadowView = view ∧ s.csm.mSplitPlanes = splits ∧
  s.csm.mLightCamera.length = L1 ∧ s.csm.mShadowCascadeScale.length = L2 ∧
  s.csm.mShadowCascadeOffset.length = L3 ∧
  ((s.nearSplitIdx = 0 ∧ s.farSplitIdx = 1) ∨ (s.nearSplitIdx = 1 ∧ s.farSplitIdx = 0)) ∧
  (∀ j, j < 4 → s.Corners s.nearSplitIdx j =
    Transform (FrustumPlaneExtraction tanf camera (splits k) (fun _ => ⟨0, 0, 0⟩) j) view) ∧
  s.extractionCalls = (List.range (k + 1)).map splits

/-- What holds of the members at the start of iteration `k`, for every cascade
`i < k` already fitted: its light camera has the orthographic projection of
the box `r` that the clipper returns for the padded and snapped box
`boxes i`, and its scale and offset are read off that projection composed
with the texture normalisation. -/
def CascadeFitted [FloorRing K] (env : ShadowEnv K) (flag : Bool) (norm : float4x4 K)
    (scene : Nat → float3 K) (uninit : Nat → Nat → Triangle K) (boxes : Nat → BoundingBox K)
    (k : Nat) (csm : CascadedShadowMap K) : Prop :=
  ∀ i, i < k → ∃ (r : BoundingBox K) (cam : Camera K),
    CalculateLightNearFar
      (snapToTexel flag (padBound env (boxes i)).2 (padBound env (boxes i)).1) scene
      (uninit i) = some r ∧
    csm.mLightCamera[i]? = some cam ∧
    cam.ProjMatrix = CreateOrthographic r.Min.x r.Max.x r.Min.y r.Max.y r.Min.z r.Max.z ∧
    csm.mShadowCascadeScale[i]? = some (cascadeScale (cam.ProjMatrix.mul norm)) ∧
    csm.mShadowCascadeOffset[i]? = some (cascadeOffset (cam.ProjMatrix.mul norm))

/-! ## Example inputs -/

/-- Example clip box: X and Y in [-10, 10]. -/
def exBox : BoundingBox ℚ := ⟨⟨-10, -10, 0⟩, ⟨10, 10, 0⟩⟩

/-- Example scene box: X in [-5, 20], Y in [-3, 4], Z in [1, 7]; it sticks
out of `exBox` on the Max.X side. -/
def exScene : Nat → float3 ℚ
  | 0 => ⟨-5, -3, 1⟩
  | 1 => ⟨20, -3, 1⟩
  | 2 => ⟨-5, 4, 1⟩
  | 3 => ⟨20, 4, 1⟩
  | 4 => ⟨-5, -3, 7⟩
  | 5 => ⟨20, -3, 7⟩
  | 6 => ⟨-5, 4, 7⟩
  | _ => ⟨20, 4, 7⟩

/-- Example initial content of the local array. -/
def exUninit : Nat → Triangle ℚ := fun _ => ⟨⟨0, 0, 0⟩, ⟨0, 0, 0⟩, ⟨0, 0, 0⟩, false⟩

/-- Example scene box inside `exBox`: X in [-5, 6], Y in [-3, 4], Z in [1, 7]. -/
def exSceneInside : Nat → float3 ℚ
  | 0 => ⟨-5, -3, 1⟩
  | 1 => ⟨6, -3, 1⟩
  | 2 => ⟨-5, 4, 1⟩
  | 3 => ⟨6, 4, 1⟩
  | 4 => ⟨-5, -3, 7⟩
  | 5 => ⟨6, -3, 7⟩
  | 6 => ⟨-5, 4, 7⟩
  | _ => ⟨6, 4, 7⟩

/-- Example scene box far outside `exBox` on X: X in [100, 200]. -/
def exSceneFar : Nat → float3 ℚ
  | 0 => ⟨100, -3, 1⟩
  | 1 => ⟨200, -3, 1⟩
  | 2 => ⟨100, 4, 1⟩
  | 3 => ⟨200, 4, 1⟩
  | 4 => ⟨100, -3, 7⟩
  | 5 => ⟨200, -3, 7⟩
  | 6 => ⟨100, 4, 7⟩
  | _ => ⟨200, 4, 7⟩

/-- Example list entry with one corner on the inside of the plane `x > 0`. -/
def exTriangle : Triangle ℚ := ⟨⟨-1, 0, 0⟩, ⟨3, 0, 5⟩, ⟨-2, 1, 0⟩, false⟩

/-- Example texel size. -/
def exTexel : float3 ℚ := ⟨1 / 2, 1 / 4, 0⟩

/-- Example cascade box. -/
def exCascade : BoundingBox ℚ := ⟨⟨3 / 10, 7 / 10, 0⟩, ⟨19 / 10, 11 / 5, 5⟩⟩

/-- Example camera: at (0, 150, -250), looking along +Z, with `tan(fov/2) = 1/2`
supplied by `exTan`. -/
def exCamera : Camera ℚ :=
  { Position := ⟨0, 150, -250⟩, Forward := ⟨0, 0, 1⟩, Up := ⟨0, 1, 0⟩, Right := ⟨1, 0, 0⟩,
    Fov := 1, Aspect := 4 / 3, NearPlane := 1, FarPlane := 500,
    ViewMatrix := ⟨1, 0, 0, 0, 0, 1, 0, 0, 0, 0, 1, 0, 0, 0, 0, 1⟩,
    ProjMatrix := ⟨1, 0, 0, 0, 0, 1, 0, 0, 0, 0, 1, 0, 0, 0, 0, 1⟩ }

/-- Example stand-in for `tanf`: the constant 1/2. -/
def exTan : ℚ → ℚ := fun _ => 1 / 2

/-- A light of the given type and cast-shadow flag. -/
def exLight (t : LightType) (castShadow : Bool) : Light ℚ :=
  { LightType := t, CastShadow := castShadow, ShadowCascades := 3, SplitLambda := 1 / 2,
    DerivedDirection := ⟨0, -1, 0⟩, DerivedPosition := ⟨0, 10, 0⟩, Position := ⟨0, 10, 0⟩,
    LightColor := ⟨1, 1, 1⟩, LightIntensity := 1, Range := 5, Attenuation := ⟨1, 0, 0⟩,
    SpotInnerAngle := 1 / 4, SpotOuterAngle := 1 / 2, SpotlightNearClip := 1 }

/-- An arbitrary content of the mapped light buffer. -/
def exMapped : Nat → PointLight ℚ :=
  fun _ => ⟨⟨0, 0, 0⟩, ⟨0, 0, 0⟩, 0, ⟨0, 0, 0⟩⟩

/-- A scene manager without registered types and without objects. -/
def exEmptyManager : SceneManager Nat (Nat × List (ParamKey × ParamValue Nat)) :=
  ⟨fun _ => none, fun _ => [], []⟩

/-- The scene manager after the three registrations of the constructor, with
a factory that records its arguments. -/
def exManager : SceneManager Nat (Nat × List (ParamKey × ParamValue Nat)) :=
  ((exEmptyManager.RegisterType SceneObjectType.SOT_Entity (fun n p => (n, p))).RegisterType
    SceneObjectType.SOT_Light (fun n p => (n, p))).RegisterType
    SceneObjectType.SOT_Sky (fun n p => (n, p))

/-- A light with three cascades. -/
def exSun : Light ℚ := exLight LightType.LT_DirectionalLight true

/-- The constants of a small configuration. -/
def exEnv : ShadowEnv ℚ :=
  { MAX_CASCADES := 4, SHADOW_MAP_SIZE := 1024, SHADOW_MAP_BLUR_KERNEL_SIZE := 3,
    isDirect3D11 := true, tanf := exTan, powf := fun x _ => x,
    lookAt := fun _ _ _ => CreateTranslation 0 0 0 }

/-- The shadow manager right after construction. -/
def exShadowMap : CascadedShadowMap ℚ :=
  CascadedShadowMap.ctor exEnv ⟨0, 0, 0, 0⟩ exCamera (fun _ => 0) (CreateTranslation 0 0 0)

/-- A working list holding the example triangle as its only entry. -/
def exClipState : ClipState ℚ := ⟨fun _ => exTriangle, 1⟩

/-- A scene box whose eight corners all have X equal to `Min.X` of `exBox`. -/
def exSceneOnPlane : Nat → float3 ℚ
  | 0 => ⟨-10, -5, 1⟩
  | 1 => ⟨-10, 5, 1⟩
  | 2 => ⟨-10, -5, 2⟩
  | 3 => ⟨-10, 5, 2⟩
  | 4 => ⟨-10, -5, 3⟩
  | 5 => ⟨-10, 5, 3⟩
  | 6 => ⟨-10, -5, 4⟩
  | _ => ⟨-10, 5, 4⟩

/-- The example camera with the given near and far plane. -/
def exCameraWith (nearPlane farPlane : K) : Camera K :=
  { Position := ⟨0, 150, -250⟩, Forward := ⟨0, 0, 1⟩, Up := ⟨0, 1, 0⟩, Right := ⟨1, 0, 0⟩,
    Fov := 1, Aspect := 4 / 3, NearPlane := nearPlane, FarPlane := farPlane,
    ViewMatrix := CreateTranslation 0 0 0, ProjMatrix := CreateTranslation 0 0 0 }

/-- A directional light shining straight down, with the given cascade count
and split-lambda. -/
def exSunWith (numSplits : Nat) (splitLambda : K) : Light K :=
  { LightType := LightType.LT_DirectionalLight, CastShadow := true,
    ShadowCascades := numSplits, SplitLambda := splitLambda,
    DerivedDirection := ⟨0, -1, 0⟩, DerivedPosition := ⟨0, 10, 0⟩, Position := ⟨0, 10, 0⟩,
    LightColor := ⟨1, 1, 1⟩, LightIntensity := 1, Range := 5, Attenuation := ⟨1, 0, 0⟩,
    SpotInnerAngle := 1 / 4, SpotOuterAngle := 1 / 2, SpotlightNearClip := 1 }

/-- The constants of a small configuration, with the given `powf` and the
given matrix as the result of the look-at construction. -/
def exEnvWith (powf : K → K → K) (view : float4x4 K) : ShadowEnv K :=
  { MAX_CASCADES := 4, SHADOW_MAP_SIZE := 1024, SHADOW_MAP_BLUR_KERNEL_SIZE := 3,
    isDirect3D11 := true, tanf := fun _ => 1 / 2, powf := powf,
    lookAt := fun _ _ _ => view }

/-- The shadow manager right after construction in the configuration `env`,
with light cameras that have the identity as view, and with `prior` as the
content of the split-depth array. -/
def exShadowMapWith (env : ShadowEnv K) (prior : Nat → K) : CascadedShadowMap K :=
  CascadedShadowMap.ctor env ⟨0, 0, 0, 0⟩ (exCameraWith 1 500) prior (CreateTranslation 0 0 0)

/-- A scene box: X in [-5, 20], Y in [-3, 4], Z in [1, 7]. -/
def exSceneWith : Nat → float3 K
  | 0 => ⟨-5, -3, 1⟩
  | 1 => ⟨20, -3, 1⟩
  | 2 => ⟨-5, 4, 1⟩
  | 3 => ⟨20, 4, 1⟩
  | 4 => ⟨-5, -3, 7⟩
  | 5 => ⟨20, -3, 7⟩
  | 6 => ⟨-5, 4, 7⟩
  | _ => ⟨20, 4, 7⟩

/-- A clip box with X in [0, 3] and Y in [-2, -1]. -/
def exBoxBelow : BoundingBox ℚ := ⟨⟨0, -2, 0⟩, ⟨3, -1, 0⟩⟩

/-- Eight scene points with integer coordinates, all with `Y ≥ -1`: copies of
(0, 0, 1), (3, -1, -1) and (-2, 3, 0). -/
def exSceneAbove : Nat → float3 ℚ
  | 0 => ⟨0, 0, 1⟩
  | 1 => ⟨3, -1, -1⟩
  | 2 => ⟨-2, 3, 0⟩
  | 3 => ⟨-2, 3, 0⟩
  | 4 => ⟨3, -1, -1⟩
  | 5 => ⟨-2, 3, 0⟩
  | 6 => ⟨0, 0, 1⟩
  | _ => ⟨3, -1, -1⟩

/-- A clip box with X in [-2, 4] and Y in [-3, 1]. -/
def exBoxWide : BoundingBox ℚ := ⟨⟨-2, -3, 0⟩, ⟨4, 1, 0⟩⟩

/-- Eight scene points with integer coordinates and `Z ≥ -1`: copies of
(6, 0, 0), (0, 1, 4) and (-1, 1, -1). -/
def exSceneSlanted : Nat → float3 ℚ
  | 0 => ⟨6, 0, 0⟩
  | 1 => ⟨0, 1, 4⟩
  | 2 => ⟨-1, 1, -1⟩
  | 3 => ⟨6, 0, 0⟩
  | 4 => ⟨-1, 1, -1⟩
  | 5 => ⟨-1, 1, -1⟩
  | 6 => ⟨-1, 1, -1⟩
  | _ => ⟨6, 0, 0⟩

/-- A working list whose only entry has one vertex at X = 0 and two at X = 13. -/
def exClipStateThirteen : ClipState ℚ :=
  ⟨fun _ => ⟨⟨0, 0, 0⟩, ⟨13, 0, 0⟩, ⟨13, 13, 13⟩, false⟩, 1⟩

/-- A texel size that is a `float`: the one nearest to 5/3, on X and Y. -/
def exTexelThirds : float3 ℚ := ⟨13981013 / 8388608, 13981013 / 8388608, 0⟩

/-- A box with integer bounds. -/
def exBoxIntegers : BoundingBox ℚ := ⟨⟨19, 19, 0⟩, ⟨37, 38, 1⟩⟩

/-! ## Theorems -/

/-! ### The swap network and the cases of one clip step -/

theorem pointPassClip_le_one (k : Nat) (edge : K) (component : Nat) (p : float3 K) :
    pointPassClip k edge component p ≤ 1 := by
  unfold pointPassClip
  split_ifs <;> omega

theorem swapNetwork_spec (f : float3 K → Nat) (hf : ∀ p, f p ≤ 1) (a b c : float3 K) :
    let s := swapNetwork ⟨a, b, c, f a, f b, f c⟩
    IsPerm3 a b c s.pt0 s.pt1 s.pt2 ∧ s.c0 = f s.pt0 ∧ s.c1 = f s.pt1 ∧ s.c2 = f s.pt2 ∧
      s.c1 ≤ s.c0 ∧ s.c2 ≤ s.c1 ∧ s.c0 + s.c1 + s.c2 = f a + f b + f c := by
  intro s
  have ha := hf a
  have hb := hf b
  have hc := hf c
  have h0 : f a = 0 ∨ f a = 1 := by omega
  have h1 : f b = 0 ∨ f b = 1 := by omega
  have h2 : f c = 0 ∨ f c = 1 := by omega
  rcases h0 with h0 | h0 <;> rcases h1 with h1 | h1 <;> rcases h2 with h2 | h2 <;>
    simp [s, swapNetwork, swap01, swap12, h0, h1, h2, IsPerm3]

theorem clipTriangle_culled (k : Nat) (edge : K) (component : Nat) (st : ClipState K)
    (iTri : Nat) (h16 : iTri < triangleListSize) (hc : (st.triangleList iTri).culled = true) :
    clipTriangle k edge component st iTri = some (st, iTri) := by
  simp [clipTriangle, h16, hc]

theorem clipTriangle_zero {k : Nat} {edge : K} {component : Nat} {st st1 : ClipState K}
    {iTri i1 : Nat} (hres : clipTriangle k edge component st iTri = some (st1, i1))
    (hc : (st.triangleList iTri).culled = false)
    (hn : insideVertCount k edge component (st.triangleList iTri) = 0) :
    i1 = iTri ∧ st1.iTriangleCnt = st.iTriangleCnt ∧
      st1.triangleList iTri =
        ⟨(sortedTri k edge component (st.triangleList iTri)).pt0,
          (sortedTri k edge component (st.triangleList iTri)).pt1,
          (sortedTri k edge component (st.triangleList iTri)).pt2, true⟩ ∧
      ∀ j, j ≠ iTri → st1.triangleList j = st.triangleList j := by
  unfold insideVertCount at hn
  by_cases h16 : iTri < triangleListSize
  swap
  · simp [clipTriangle, h16] at hres
  rw [clipTriangle, if_pos h16, if_pos hc] at hres
  simp only [hn, if_true, Option.some.injEq, Prod.mk.injEq] at hres
  obtain ⟨rfl, rfl⟩ := hres
  refine ⟨rfl, rfl, by simp [sortedTri, sortedPts], fun j hj => by simp [Function.update_noteq hj]⟩

theorem clipTriangle_three {k : Nat} {edge : K} {component : Nat} {st st1 : ClipState K}
    {iTri i1 : Nat} (hres : clipTriangle k edge component st iTri = some (st1, i1))
    (hc : (st.triangleList iTri).culled = false)
    (hn : insideVertCount k edge component (st.triangleList iTri) = 3) :
    i1 = iTri ∧ st1.iTriangleCnt = st.iTriangleCnt ∧
      st1.triangleList iTri = sortedTri k edge component (st.triangleList iTri) ∧
      ∀ j, j ≠ iTri → st1.triangleList j = st.triangleList j := by
  unfold insideVertCount at hn
  by_cases h16 : iTri < triangleListSize
  swap
  · simp [clipTriangle, h16] at hres
  rw [clipTriangle, if_pos h16, if_pos hc] at hres
  simp only [hn, if_true, Option.some.injEq, Prod.mk.injEq] at hres
  simp at hres
  obtain ⟨rfl, rfl⟩ := hres
  refine ⟨rfl, rfl, by simp [sortedTri, sortedPts], fun j hj => by simp [Function.update_noteq hj]⟩

theorem clipTriangle_one {k : Nat} {edge : K} {component : Nat} {st st1 : ClipState K}
    {iTri i1 : Nat} (hres : clipTriangle k edge component st iTri = some (st1, i1))
    (hc : (st.triangleList iTri).culled = false)
    (hn : insideVertCount k edge component (st.triangleList iTri) = 1) :
    i1 = iTri ∧ st1.iTriangleCnt = st.iTriangleCnt ∧
      st1.triangleList iTri =
        ⟨(sortedTri k edge component (st.triangleList iTri)).pt0,
          Lerp (sortedTri k edge component (st.triangleList iTri)).pt0
            (sortedTri k edge component (st.triangleList iTri)).pt2
            (ratio02 edge component (sortedTri k edge component (st.triangleList iTri))),
          Lerp (sortedTri k edge component (st.triangleList iTri)).pt0
            (sortedTri k edge component (st.triangleList iTri)).pt1
            (ratio01 edge component (sortedTri k edge component (st.triangleList iTri))),
          false⟩ ∧
      ∀ j, j ≠ iTri → st1.triangleList j = st.triangleList j := by
  unfold insideVertCount at hn
  by_cases h16 : iTri < triangleListSize
  swap
  · simp [clipTriangle, h16] at hres
  rw [clipTriangle, if_pos h16, if_pos hc] at hres
  simp only [hn, if_true, Option.some.injEq, Prod.mk.injEq] at hres
  simp at hres
  obtain ⟨rfl, rfl⟩ := hres
  refine ⟨rfl, rfl, by simp [sortedTri, sortedPts, ratio01, ratio02],
    fun j hj => by simp [Function.update_noteq hj]⟩

theorem clipTriangle_two {k : Nat} {edge : K} {component : Nat} {st st1 : ClipState K}
    {iTri i1 : Nat} (hres : clipTriangle k edge component st iTri = some (st1, i1))
    (hlt : iTri < st.iTriangleCnt)
    (hc : (st.triangleList iTri).culled = false)
    (hn : insideVertCount k edge component (st.triangleList iTri) = 2) :
    i1 = iTri + 1 ∧ st1.iTriangleCnt = st.iTriangleCnt + 1 ∧
      st.iTriangleCnt < triangleListSize ∧
      st1.triangleList iTri =
        ⟨(sortedTri k edge component (st.triangleList iTri)).pt1,
          Lerp (sortedTri k edge component (st.triangleList iTri)).pt2
            (sortedTri k edge component (st.triangleList iTri)).pt0
            (ratio20 edge component (sortedTri k edge component (st.triangleList iTri))),
          Lerp (sortedTri k edge component (st.triangleList iTri)).pt2
            (sortedTri k edge component (st.triangleList iTri)).pt1
            (ratio21 edge component (sortedTri k edge component (st.triangleList iTri))),
          false⟩ ∧
      st1.triangleList (iTri + 1) =
        ⟨(sortedTri k edge component (st.triangleList iTri)).pt0,
          (sortedTri k edge component (st.triangleList iTri)).pt1,
          Lerp (sortedTri k edge component (st.triangleList iTri)).pt2
            (sortedTri k edge component (st.triangleList iTri)).pt0
            (ratio20 edge component (sortedTri k edge component (st.triangleList iTri))),
          false⟩ ∧
      (iTri + 1 < st.iTriangleCnt →
        st1.triangleList st.iTriangleCnt = st.triangleList (iTri + 1)) ∧
      ∀ j, j ≠ iTri → j ≠ iTri + 1 → j ≠ st.iTriangleCnt →
        st1.triangleList j = st.triangleList j := by
  unfold insideVertCount at hn
  have hne : st.iTriangleCnt ≠ iTri := by omega
  by_cases h16 : iTri < triangleListSize
  swap
  · simp [clipTriangle, h16] at hres
  rw [clipTriangle, if_pos h16, if_pos hc] at hres
  simp only [hn, if_true] at hres
  simp at hres
  obtain ⟨hcap, hres⟩ := hres
  obtain ⟨rfl, rfl⟩ := hres
  refine ⟨rfl, rfl, hcap.1, ?_, ?_, ?_, ?_⟩
  · simp [sortedTri, sortedPts, ratio20, ratio21, Function.update_apply, hne.symm, hc]
  · simp [sortedTri, sortedPts, ratio20, ratio21, Function.update_apply, hne.symm, hc]
  · intro h
    have h1 : st.iTriangleCnt ≠ iTri + 1 := by omega
    simp [Function.update_apply, hne, h1]
  · intro j h1 h2 h3
    simp [Function.update_apply, h1, h2, h3]

theorem clipTriangle_isSome (k : Nat) (edge : K) (component : Nat) (st : ClipState K)
    (iTri : Nat) (hlt : iTri < st.iTriangleCnt) (hcap : st.iTriangleCnt < triangleListSize) :
    ∃ r, clipTriangle k edge component st iTri = some r := by
  have h16 : iTri < triangleListSize := by omega
  have h17 : iTri + 1 < triangleListSize := by omega
  rw [clipTriangle, if_pos h16]
  simp only [h17, hcap, if_true, and_self]
  split_ifs <;> exact ⟨_, rfl⟩


theorem pointPassClip_eq_one_iff (k : Nat) (edge : K) (component : Nat) (p : float3 K) :
    pointPassClip k edge component p = 1 ↔ Passes k edge component p := by
  unfold pointPassClip Passes
  split_ifs <;> simp_all

theorem pointPassClip_eq_zero_iff (k : Nat) (edge : K) (component : Nat) (p : float3 K) :
    pointPassClip k edge component p = 0 ↔ ¬ Passes k edge component p := by
  unfold pointPassClip Passes
  split_ifs <;> simp_all

theorem insideVertCount_le (k : Nat) (edge : K) (component : Nat) (t : Triangle K) :
    insideVertCount k edge component t ≤ 3 := by
  have h0 := pointPassClip_le_one k edge component t.pt0
  have h1 := pointPassClip_le_one k edge component t.pt1
  have h2 := pointPassClip_le_one k edge component t.pt2
  unfold insideVertCount
  omega

/-- What the swap network achieves: a permutation with the inside corners first. -/
theorem sortedTri_spec (k : Nat) (edge : K) (component : Nat) (t : Triangle K) :
    IsPerm3 t.pt0 t.pt1 t.pt2 (sortedTri k edge component t).pt0
      (sortedTri k edge component t).pt1 (sortedTri k edge component t).pt2 ∧
    (insideVertCount k edge component t = 0 →
      ¬ Passes k edge component (sortedTri k edge component t).pt0 ∧
      ¬ Passes k edge component (sortedTri k edge component t).pt1 ∧
      ¬ Passes k edge component (sortedTri k edge component t).pt2) ∧
    (insideVertCount k edge component t = 1 →
      Passes k edge component (sortedTri k edge component t).pt0 ∧
      ¬ Passes k edge component (sortedTri k edge component t).pt1 ∧
      ¬ Passes k edge component (sortedTri k edge component t).pt2) ∧
    (insideVertCount k edge component t = 2 →
      Passes k edge component (sortedTri k edge component t).pt0 ∧
      Passes k edge component (sortedTri k edge component t).pt1 ∧
      ¬ Passes k edge component (sortedTri k edge component t).pt2) ∧
    (insideVertCount k edge component t = 3 →
      Passes k edge component (sortedTri k edge component t).pt0 ∧
      Passes k edge component (sortedTri k edge component t).pt1 ∧
      Passes k edge component (sortedTri k edge component t).pt2) := by
  have h := swapNetwork_spec (pointPassClip k edge component)
    (pointPassClip_le_one k edge component) t.pt0 t.pt1 t.pt2
  simp only at h
  obtain ⟨hp, h0, h1, h2, h10, h21, hs⟩ := h
  have l0 := pointPassClip_le_one k edge component (sortedTri k edge component t).pt0
  have l1 := pointPassClip_le_one k edge component (sortedTri k edge component t).pt1
  have l2 := pointPassClip_le_one k edge component (sortedTri k edge component t).pt2
  simp only [← pointPassClip_eq_one_iff, ← pointPassClip_eq_zero_iff]
  simp only [sortedTri, sortedPts, insideVertCount] at *
  rw [h0, h1] at h10
  rw [h1, h2] at h21
  rw [h0, h1, h2] at hs
  refine ⟨hp, ?_, ?_, ?_, ?_⟩ <;> intro hn <;> omega

/-- The effect of one clip step on a non-culled entry, in terms of `clipOutputs`. -/
theorem clipTriangle_step {k : Nat} {edge : K} {component : Nat} {st st1 : ClipState K}
    {iTri i1 : Nat} (hres : clipTriangle k edge component st iTri = some (st1, i1))
    (hlt : iTri < st.iTriangleCnt) (hc : (st.triangleList iTri).culled = false) :
    (∃ u, clipOutputs k edge component (st.triangleList iTri) = [u] ∧ i1 = iTri ∧
      st1.iTriangleCnt = st.iTriangleCnt ∧ st1.triangleList iTri = u ∧
      ∀ j, j ≠ iTri → st1.triangleList j = st.triangleList j) ∨
    (∃ u v, clipOutputs k edge component (st.triangleList iTri) = [u, v] ∧ i1 = iTri + 1 ∧
      st1.iTriangleCnt = st.iTriangleCnt + 1 ∧ st.iTriangleCnt < triangleListSize ∧
      st1.triangleList iTri = u ∧ st1.triangleList (iTri + 1) = v ∧
      (iTri + 1 < st.iTriangleCnt →
        st1.triangleList st.iTriangleCnt = st.triangleList (iTri + 1)) ∧
      ∀ j, j ≠ iTri → j ≠ iTri + 1 → j ≠ st.iTriangleCnt →
        st1.triangleList j = st.triangleList j) := by
  have hle := insideVertCount_le k edge component (st.triangleList iTri)
  have hcases : insideVertCount k edge component (st.triangleList iTri) = 0 ∨
      insideVertCount k edge component (st.triangleList iTri) = 1 ∨
      insideVertCount k edge component (st.triangleList iTri) = 2 ∨
      insideVertCount k edge component (st.triangleList iTri) = 3 := by omega
  rcases hcases with hn | hn | hn | hn
  · obtain ⟨h1, h2, h3, h4⟩ := clipTriangle_zero hres hc hn
    left
    exact ⟨_, by simp [clipOutputs, hn], h1, h2, h3, h4⟩
  · obtain ⟨h1, h2, h3, h4⟩ := clipTriangle_one hres hc hn
    left
    exact ⟨_, by simp [clipOutputs, hn], h1, h2, h3, h4⟩
  · obtain ⟨h1, h2, h3, h4, h5, h6, h7⟩ := clipTriangle_two hres hlt hc hn
    right
    exact ⟨_, _, by simp [clipOutputs, hn], h1, h2, h3, h4, h5, h6, h7⟩
  · obtain ⟨h1, h2, h3, h4⟩ := clipTriangle_three hres hc hn
    left
    exact ⟨_, by simp [clipOutputs, hn], h1, h2, h3, h4⟩

/-! ### The loop over the working list -/

theorem clipTriangle_count {k : Nat} {edge : K} {component : Nat} {st st1 : ClipState K}
    {iTri i1 : Nat} (hres : clipTriangle k edge component st iTri = some (st1, i1))
    (hlt : iTri < st.iTriangleCnt) :
    (i1 = iTri ∧ st1.iTriangleCnt = st.iTriangleCnt) ∨
    (i1 = iTri + 1 ∧ st1.iTriangleCnt = st.iTriangleCnt + 1 ∧
      st.iTriangleCnt < triangleListSize) := by
  by_cases hc : (st.triangleList iTri).culled = false
  · rcases clipTriangle_step hres hlt hc with ⟨u, -, h1, h2, -⟩ | ⟨u, v, -, h1, h2, h3, -⟩
    · exact Or.inl ⟨h1, h2⟩
    · exact Or.inr ⟨h1, h2, h3⟩
  · have h16 : iTri < triangleListSize := by
      by_contra h
      simp [clipTriangle, h] at hres
    rw [clipTriangle_culled k edge component st iTri h16 (by simpa using hc)] at hres
    simp only [Option.some.injEq, Prod.mk.injEq] at hres
    exact Or.inl ⟨hres.2.symm, by rw [hres.1]⟩

/-- Invariant rule for the loop over the working list. -/
theorem clipLoop_induct {k : Nat} {edge : K} {component : Nat} (I : ClipState K → Nat → Prop)
    (hstep : ∀ st iTri st1 i1, I st iTri → iTri < st.iTriangleCnt →
      clipTriangle k edge component st iTri = some (st1, i1) → I st1 (i1 + 1)) :
    ∀ (fuel : Nat) (st : ClipState K) (iTri : Nat) (st2 : ClipState K), I st iTri →
      clipLoop k edge component fuel st iTri = some st2 →
      ∃ j, st2.iTriangleCnt ≤ j ∧ I st2 j := by
  intro fuel
  induction fuel with
  | zero =>
    intro st iTri st2 hI h
    simp only [clipLoop] at h
    split_ifs at h with hlt
    simp only [Option.some.injEq] at h
    subst h
    exact ⟨iTri, by omega, hI⟩
  | succ n ih =>
    intro st iTri st2 hI h
    simp only [clipLoop] at h
    split_ifs at h with hlt
    · cases hr : clipTriangle k edge component st iTri with
      | none => simp [hr] at h
      | some r =>
        obtain ⟨st1, i1⟩ := r
        simp only [hr] at h
        exact ih st1 (i1 + 1) st2 (hstep st iTri st1 i1 hI hlt hr) h
    · simp only [Option.some.injEq] at h
      subst h
      exact ⟨iTri, by omega, hI⟩

/-- The loop terminates within its bound and never leaves the array when the
count on entry is at most half the capacity. -/
theorem clipLoop_isSome (k : Nat) (edge : K) (component : Nat) :
    ∀ (fuel : Nat) (st : ClipState K) (iTri : Nat), iTri ≤ st.iTriangleCnt →
      2 * st.iTriangleCnt ≤ triangleListSize + iTri → st.iTriangleCnt ≤ fuel + iTri →
      ∃ st2, clipLoop k edge component fuel st iTri = some st2 := by
  intro fuel
  induction fuel with
  | zero =>
    intro st iTri h1 h2 h3
    refine ⟨st, ?_⟩
    simp only [clipLoop]
    rw [if_neg (by omega)]
  | succ n ih =>
    intro st iTri h1 h2 h3
    simp only [clipLoop]
    split_ifs with hlt
    · obtain ⟨r, hr⟩ := clipTriangle_isSome k edge component st iTri hlt (by omega)
      obtain ⟨st1, i1⟩ := r
      simp only [hr]
      rcases clipTriangle_count hr hlt with ⟨e1, e2⟩ | ⟨e1, e2, e3⟩
      · exact ih st1 (i1 + 1) (by omega) (by omega) (by omega)
      · exact ih st1 (i1 + 1) (by omega) (by omega) (by omega)
    · exact ⟨st, rfl⟩

/-- One pass over the list at most doubles the count. -/
theorem clipLoop_count {k : Nat} {edge : K} {component : Nat} {fuel : Nat}
    {st st2 : ClipState K} (h : clipLoop k edge component fuel st 0 = some st2) :
    st.iTriangleCnt ≤ st2.iTriangleCnt ∧ st2.iTriangleCnt ≤ 2 * st.iTriangleCnt := by
  obtain ⟨j, hj, h1, h2, h3⟩ := clipLoop_induct
    (fun s i => i ≤ s.iTriangleCnt ∧ 2 * s.iTriangleCnt ≤ 2 * st.iTriangleCnt + i ∧
      st.iTriangleCnt ≤ s.iTriangleCnt)
    (by
      intro s i s1 i1 hI hlt hr
      rcases clipTriangle_count hr hlt with ⟨e1, e2⟩ | ⟨e1, e2, e3⟩ <;> omega)
    fuel st 0 st2 (by omega) h
  omega

/-! ### The loop over the clip planes -/

theorem clipPlanes_zero (b : BoundingBox K) (st : ClipState K) :
    clipPlanes b 0 st = some st := by
  simp [clipPlanes]

theorem clipPlanes_succ (b : BoundingBox K) (n : Nat) (st : ClipState K) :
    clipPlanes b (n + 1) st = (clipPlanes b n st).bind (fun s => clipPlane b s n) := by
  simp [clipPlanes, List.range_succ, List.foldlM_append]

theorem clipPlanes_succ_eq_some {b : BoundingBox K} {n : Nat} {st st2 : ClipState K}
    (h : clipPlanes b (n + 1) st = some st2) :
    ∃ st1, clipPlanes b n st = some st1 ∧ clipPlane b st1 n = some st2 := by
  rw [clipPlanes_succ] at h
  exact Option.bind_eq_some.1 h

theorem clipPlanes_count {b : BoundingBox K} :
    ∀ (n : Nat) {st st2 : ClipState K}, clipPlanes b n st = some st2 →
      st.iTriangleCnt ≤ st2.iTriangleCnt ∧ st2.iTriangleCnt ≤ 2 ^ n * st.iTriangleCnt := by
  intro n
  induction n with
  | zero =>
    intro st st2 h
    rw [clipPlanes_zero] at h
    simp only [Option.some.injEq] at h
    subst h
    simp
  | succ n ih =>
    intro st st2 h
    obtain ⟨st1, h1, h2⟩ := clipPlanes_succ_eq_some h
    have := ih h1
    have := clipLoop_count h2
    rw [pow_succ]
    constructor
    · omega
    · calc st2.iTriangleCnt ≤ 2 * st1.iTriangleCnt := by omega
        _ ≤ 2 * (2 ^ n * st.iTriangleCnt) := by omega
        _ = 2 ^ n * 2 * st.iTriangleCnt := by ring

/-- Clipping one loaded triangle against the first `n ≤ 4` planes succeeds. -/
theorem clipPlanes_isSome (b : BoundingBox K) :
    ∀ (n : Nat) (st : ClipState K), n ≤ 4 → st.iTriangleCnt = 1 →
      ∃ st2, clipPlanes b n st = some st2 := by
  intro n
  induction n with
  | zero => exact fun st _ _ => ⟨st, clipPlanes_zero b st⟩
  | succ n ih =>
    intro st hn h1
    obtain ⟨st1, hst1⟩ := ih st (by omega) h1
    have hc := (clipPlanes_count n hst1).2
    rw [h1, mul_one] at hc
    have h8 : (2 : Nat) ^ n ≤ 2 ^ 3 := Nat.pow_le_pow_right (by omega) (by omega)
    have h16 : st1.iTriangleCnt ≤ 8 := by omega
    obtain ⟨st2, hst2⟩ := clipLoop_isSome n (ClipPlaneEdge b n) (n >>> 1) triangleListSize st1 0
      (by omega) (by simp only [triangleListSize]; omega) (by simp only [triangleListSize]; omega)
    exact ⟨st2, by rw [clipPlanes_succ, hst1]; exact hst2⟩

/-! ### Geometry of one clip step -/

theorem passes_iff (k : Nat) (edge : K) (component : Nat) (p : float3 K) :
    Passes k edge component p ↔ 0 < signedDist k edge component p := by
  unfold Passes signedDist
  split_ifs <;> simp

theorem passesClosed_iff (k : Nat) (edge : K) (component : Nat) (p : float3 K) :
    PassesClosed k edge component p ↔ 0 ≤ signedDist k edge component p := by
  unfold PassesClosed signedDist
  split_ifs <;> simp

theorem Lerp_comp (a b : float3 K) (t : K) (i : Nat) :
    (Lerp a b t).comp i = a.comp i + (b.comp i - a.comp i) * t := by
  unfold Lerp float3.comp
  split_ifs <;> rfl

theorem signedDist_Lerp (k : Nat) (edge : K) (component : Nat) (a b : float3 K) (t : K) :
    signedDist k edge component (Lerp a b t) =
      signedDist k edge component a +
        (signedDist k edge component b - signedDist k edge component a) * t := by
  unfold signedDist
  rw [Lerp_comp]
  split_ifs <;> ring

theorem OnTriangle.comp_eq {a b c p : float3 K} {α β γ : K}
    (hx : p.x = α * a.x + β * b.x + γ * c.x) (hy : p.y = α * a.y + β * b.y + γ * c.y)
    (hz : p.z = α * a.z + β * b.z + γ * c.z) (i : Nat) :
    p.comp i = α * a.comp i + β * b.comp i + γ * c.comp i := by
  unfold float3.comp
  split_ifs <;> assumption

theorem signedDist_combo (k : Nat) (edge : K) (component : Nat) {a b c p : float3 K}
    {α β γ : K} (hs : α + β + γ = 1)
    (hx : p.x = α * a.x + β * b.x + γ * c.x) (hy : p.y = α * a.y + β * b.y + γ * c.y)
    (hz : p.z = α * a.z + β * b.z + γ * c.z) :
    signedDist k edge component p = α * signedDist k edge component a +
      β * signedDist k edge component b + γ * signedDist k edge component c := by
  have hα : α = 1 - β - γ := by linarith
  unfold signedDist
  rw [OnTriangle.comp_eq hx hy hz component]
  split_ifs <;> (subst hα; ring)

/-- The ratios of the clip step in terms of signed distances. -/
theorem ratio_eq (k : Nat) (edge : K) (component : Nat) (p q : float3 K) :
    (edge - p.comp component) / (q.comp component - p.comp component) =
      signedDist k edge component p /
        (signedDist k edge component p - signedDist k edge component q) := by
  unfold signedDist
  split_ifs
  · rw [← neg_div_neg_eq]
    congr 1 <;> ring
  · congr 1; ring

theorem OnTriangle.perm {a b c a1 b1 c1 p : float3 K} (h : IsPerm3 a b c a1 b1 c1)
    (hp : OnTriangle a b c p) : OnTriangle a1 b1 c1 p := by
  obtain ⟨α, β, γ, h0, h1, h2, hs, hx, hy, hz⟩ := hp
  unfold IsPerm3 at h
  rcases h with h | h | h | h | h | h
  · rw [h.1, h.2.1, h.2.2]
    exact ⟨α, β, γ, h0, h1, h2, hs, hx, hy, hz⟩
  · rw [h.1, h.2.1, h.2.2]
    exact ⟨α, γ, β, h0, h2, h1, by linarith, by linarith, by linarith, by linarith⟩
  · rw [h.1, h.2.1, h.2.2]
    exact ⟨β, α, γ, h1, h0, h2, by linarith, by linarith, by linarith, by linarith⟩
  · rw [h.1, h.2.1, h.2.2]
    exact ⟨β, γ, α, h1, h2, h0, by linarith, by linarith, by linarith, by linarith⟩
  · rw [h.1, h.2.1, h.2.2]
    exact ⟨γ, α, β, h2, h0, h1, by linarith, by linarith, by linarith, by linarith⟩
  · rw [h.1, h.2.1, h.2.2]
    exact ⟨γ, β, α, h2, h1, h0, by linarith, by linarith, by linarith, by linarith⟩

theorem IsPerm3.all {a b c a1 b1 c1 : float3 K} (h : IsPerm3 a b c a1 b1 c1)
    {Q : float3 K → Prop} (ha : Q a) (hb : Q b) (hc : Q c) : Q a1 ∧ Q b1 ∧ Q c1 := by
  unfold IsPerm3 at h
  rcases h with h | h | h | h | h | h <;> rw [h.1, h.2.1, h.2.2]
  · exact ⟨ha, hb, hc⟩
  · exact ⟨ha, hc, hb⟩
  · exact ⟨hb, ha, hc⟩
  · exact ⟨hb, hc, ha⟩
  · exact ⟨hc, ha, hb⟩
  · exact ⟨hc, hb, ha⟩

theorem cover_one_scalar (dA dB dC α β γ a b c : K) (hA : dA ≠ 0) (hAB : dA - dB ≠ 0)
    (hAC : dA - dC ≠ 0) (hs : α + β + γ = 1) :
    α * a + β * b + γ * c =
      (α * dA + β * dB + γ * dC) / dA * a +
      γ * (dA - dC) / dA * (a + (c - a) * (dA / (dA - dC))) +
      β * (dA - dB) / dA * (a + (b - a) * (dA / (dA - dB))) := by
  have hα : α = 1 - β - γ := by linarith
  subst hα
  field_simp
  ring

theorem cover_two_scalar_far (dA dC α β γ a b c : K) (hA : dA ≠ 0)
    (hCA : dC - dA ≠ 0) :
    α * a + β * b + γ * c =
      (α * dA + γ * dC) / dA * a + β * b +
      γ * (dA - dC) / dA * (c + (a - c) * (dC / (dC - dA))) := by
  field_simp
  ring

theorem cover_two_scalar_near (dA dB dC α β γ a b c : K) (hB : dB ≠ 0) (hC : dC ≠ 0)
    (hCA : dC - dA ≠ 0) (hCB : dC - dB ≠ 0) :
    α * a + β * b + γ * c =
      (α * dA + β * dB + γ * dC) / dB * b +
      α * (dC - dA) / dC * (c + (a - c) * (dC / (dC - dA))) +
      (γ * dC + α * dA) * (dB - dC) / (dC * dB) * (c + (b - c) * (dC / (dC - dB))) := by
  field_simp
  ring


/-- One inside corner: the clipped triangle covers the inside part. -/
theorem cover_one (k : Nat) (edge : K) (component : Nat) (T : Triangle K) {p : float3 K}
    (hA : Passes k edge component T.pt0) (hB : ¬ Passes k edge component T.pt1)
    (hC : ¬ Passes k edge component T.pt2) (hp : OnTriangle T.pt0 T.pt1 T.pt2 p)
    (hpass : Passes k edge component p) :
    OnTriangle T.pt0 (Lerp T.pt0 T.pt2 (ratio02 edge component T))
      (Lerp T.pt0 T.pt1 (ratio01 edge component T)) p := by
  obtain ⟨A, B, C, f⟩ := T
  simp only at hA hB hC hp ⊢
  obtain ⟨α, β, γ, h0, h1, h2, hs, hx, hy, hz⟩ := hp
  rw [passes_iff] at hA hB hC hpass
  rw [signedDist_combo k edge component hs hx hy hz] at hpass
  simp only [ratio01, ratio02, ratio_eq k]
  set dA := signedDist k edge component A
  set dB := signedDist k edge component B
  set dC := signedDist k edge component C
  push_neg at hB hC
  have hA0 : dA ≠ 0 := ne_of_gt hA
  have hAB : dA - dB ≠ 0 := by
    have : 0 < dA - dB := by linarith
    exact ne_of_gt this
  have hAC : dA - dC ≠ 0 := by
    have : 0 < dA - dC := by linarith
    exact ne_of_gt this
  refine ⟨(α * dA + β * dB + γ * dC) / dA, γ * (dA - dC) / dA, β * (dA - dB) / dA,
    ?_, ?_, ?_, ?_, ?_, ?_, ?_⟩
  · exact div_nonneg hpass.le hA.le
  · exact div_nonneg (mul_nonneg h2 (by linarith)) hA.le
  · exact div_nonneg (mul_nonneg h1 (by linarith)) hA.le
  · have hα : α = 1 - β - γ := by linarith
    subst hα
    field_simp
    ring
  · rw [hx]; exact cover_one_scalar dA dB dC α β γ A.x B.x C.x hA0 hAB hAC hs
  · rw [hy]; exact cover_one_scalar dA dB dC α β γ A.y B.y C.y hA0 hAB hAC hs
  · rw [hz]; exact cover_one_scalar dA dB dC α β γ A.z B.z C.z hA0 hAB hAC hs

/-- Two inside corners: the two triangles of the split cover the inside part. -/
theorem cover_two (k : Nat) (edge : K) (component : Nat) (T : Triangle K) {p : float3 K}
    (hA : Passes k edge component T.pt0) (hB : Passes k edge component T.pt1)
    (hC : ¬ Passes k edge component T.pt2) (hp : OnTriangle T.pt0 T.pt1 T.pt2 p)
    (hpass : Passes k edge component p) :
    OnTriangle T.pt1 (Lerp T.pt2 T.pt0 (ratio20 edge component T))
      (Lerp T.pt2 T.pt1 (ratio21 edge component T)) p ∨
    OnTriangle T.pt0 T.pt1 (Lerp T.pt2 T.pt0 (ratio20 edge component T)) p := by
  obtain ⟨A, B, C, f⟩ := T
  simp only at hA hB hC hp ⊢
  obtain ⟨α, β, γ, h0, h1, h2, hs, hx, hy, hz⟩ := hp
  rw [passes_iff] at hA hB hC hpass
  rw [signedDist_combo k edge component hs hx hy hz] at hpass
  simp only [ratio20, ratio21, ratio_eq k]
  set dA := signedDist k edge component A
  set dB := signedDist k edge component B
  set dC := signedDist k edge component C
  push_neg at hC
  have hA0 : dA ≠ 0 := ne_of_gt hA
  have hB0 : dB ≠ 0 := ne_of_gt hB
  have hCA : dC - dA ≠ 0 := by
    have : dC - dA < 0 := by linarith
    exact ne_of_lt this
  have hCB : dC - dB ≠ 0 := by
    have : dC - dB < 0 := by linarith
    exact ne_of_lt this
  by_cases hcase : 0 ≤ α * dA + γ * dC
  · right
    refine ⟨(α * dA + γ * dC) / dA, β, γ * (dA - dC) / dA, ?_, h1, ?_, ?_, ?_, ?_, ?_⟩
    · exact div_nonneg hcase hA.le
    · exact div_nonneg (mul_nonneg h2 (by linarith)) hA.le
    · have hα : α = 1 - β - γ := by linarith
      subst hα
      field_simp
      ring
    · rw [hx]; exact cover_two_scalar_far dA dC α β γ A.x B.x C.x hA0 hCA
    · rw [hy]; exact cover_two_scalar_far dA dC α β γ A.y B.y C.y hA0 hCA
    · rw [hz]; exact cover_two_scalar_far dA dC α β γ A.z B.z C.z hA0 hCA
  · left
    push_neg at hcase
    have hC0 : dC < 0 := by
      by_contra h
      push_neg at h
      have hz0 : dC = 0 := le_antisymm hC h
      rw [hz0] at hcase
      have : 0 ≤ α * dA := mul_nonneg h0 hA.le
      linarith
    have hC0n : dC ≠ 0 := ne_of_lt hC0
    refine ⟨(α * dA + β * dB + γ * dC) / dB, α * (dC - dA) / dC,
      (γ * dC + α * dA) * (dB - dC) / (dC * dB), ?_, ?_, ?_, ?_, ?_, ?_, ?_⟩
    · exact div_nonneg hpass.le hB.le
    · exact div_nonneg_of_nonpos (mul_nonpos_of_nonneg_of_nonpos h0 (by linarith)) hC0.le
    · refine div_nonneg_of_nonpos (mul_nonpos_of_nonpos_of_nonneg (by linarith) (by linarith)) ?_
      exact mul_nonpos_of_nonpos_of_nonneg hC0.le hB.le
    · have hα : α = 1 - β - γ := by linarith
      subst hα
      field_simp
      ring
    · rw [hx]; exact cover_two_scalar_near dA dB dC α β γ A.x B.x C.x hB0 hC0n hCA hCB
    · rw [hy]; exact cover_two_scalar_near dA dB dC α β γ A.y B.y C.y hB0 hC0n hCA hCB
    · rw [hz]; exact cover_two_scalar_near dA dB dC α β γ A.z B.z C.z hB0 hC0n hCA hCB

/-- A convex combination of corners that all fail the inside test fails it. -/
theorem not_passes_of_onTriangle (k : Nat) (edge : K) (component : Nat) {A B C p : float3 K}
    (hA : ¬ Passes k edge component A) (hB : ¬ Passes k edge component B)
    (hC : ¬ Passes k edge component C) (hp : OnTriangle A B C p) :
    ¬ Passes k edge component p := by
  obtain ⟨α, β, γ, h0, h1, h2, hs, hx, hy, hz⟩ := hp
  rw [passes_iff] at hA hB hC ⊢
  rw [signedDist_combo k edge component hs hx hy hz]
  push_neg at hA hB hC ⊢
  have := mul_nonpos_of_nonneg_of_nonpos h0 hA
  have := mul_nonpos_of_nonneg_of_nonpos h1 hB
  have := mul_nonpos_of_nonneg_of_nonpos h2 hC
  linarith

theorem clipOutputs_zero {k : Nat} {edge : K} {component : Nat} {t : Triangle K}
    (hn : insideVertCount k edge component t = 0) :
    clipOutputs k edge component t =
      [⟨(sortedTri k edge component t).pt0, (sortedTri k edge component t).pt1,
        (sortedTri k edge component t).pt2, true⟩] := by
  simp [clipOutputs, hn]

theorem clipOutputs_one {k : Nat} {edge : K} {component : Nat} {t : Triangle K}
    (hn : insideVertCount k edge component t = 1) :
    clipOutputs k edge component t =
      [⟨(sortedTri k edge component t).pt0,
        Lerp (sortedTri k edge component t).pt0 (sortedTri k edge component t).pt2
          (ratio02 edge component (sortedTri k edge component t)),
        Lerp (sortedTri k edge component t).pt0 (sortedTri k edge component t).pt1
          (ratio01 edge component (sortedTri k edge component t)), false⟩] := by
  simp [clipOutputs, hn]

theorem clipOutputs_two {k : Nat} {edge : K} {component : Nat} {t : Triangle K}
    (hn : insideVertCount k edge component t = 2) :
    clipOutputs k edge component t =
      [⟨(sortedTri k edge component t).pt1,
        Lerp (sortedTri k edge component t).pt2 (sortedTri k edge component t).pt0
          (ratio20 edge component (sortedTri k edge component t)),
        Lerp (sortedTri k edge component t).pt2 (sortedTri k edge component t).pt1
          (ratio21 edge component (sortedTri k edge component t)), false⟩,
       ⟨(sortedTri k edge component t).pt0, (sortedTri k edge component t).pt1,
        Lerp (sortedTri k edge component t).pt2 (sortedTri k edge component t).pt0
          (ratio20 edge component (sortedTri k edge component t)), false⟩] := by
  simp [clipOutputs, hn]

theorem clipOutputs_three {k : Nat} {edge : K} {component : Nat} {t : Triangle K}
    (hn : insideVertCount k edge component t = 3) :
    clipOutputs k edge component t = [sortedTri k edge component t] := by
  simp [clipOutputs, hn]

theorem insideVertCount_cases (k : Nat) (edge : K) (component : Nat) (t : Triangle K) :
    insideVertCount k edge component t = 0 ∨ insideVertCount k edge component t = 1 ∨
      insideVertCount k edge component t = 2 ∨ insideVertCount k edge component t = 3 := by
  have hle := insideVertCount_le k edge component t
  omega

/-- Coverage by one clip step: a point of a non-culled entry that passes the
inside test lies on one of the non-culled entries written by the step. -/
theorem clipOutputs_cover (k : Nat) (edge : K) (component : Nat) (t : Triangle K)
    {p : float3 K} (hp : OnTriangle t.pt0 t.pt1 t.pt2 p) (hpass : Passes k edge component p) :
    ∃ u ∈ clipOutputs k edge component t, u.culled = false ∧ OnTriangle u.pt0 u.pt1 u.pt2 p := by
  obtain ⟨hperm, c0, c1, c2, c3⟩ := sortedTri_spec k edge component t
  have hpT := OnTriangle.perm hperm hp
  rcases insideVertCount_cases k edge component t with hn | hn | hn | hn
  · obtain ⟨hA, hB, hC⟩ := c0 hn
    exact absurd hpass (not_passes_of_onTriangle k edge component hA hB hC hpT)
  · obtain ⟨hA, hB, hC⟩ := c1 hn
    rw [clipOutputs_one hn]
    exact ⟨_, List.mem_singleton_self _, rfl,
      cover_one k edge component (sortedTri k edge component t) hA hB hC hpT hpass⟩
  · obtain ⟨hA, hB, hC⟩ := c2 hn
    rw [clipOutputs_two hn]
    rcases cover_two k edge component (sortedTri k edge component t) hA hB hC hpT hpass
      with h | h
    · exact ⟨_, List.mem_cons_self _ _, rfl, h⟩
    · exact ⟨_, List.mem_cons_of_mem _ (List.mem_singleton_self _), rfl, h⟩
  · rw [clipOutputs_three hn]
    exact ⟨_, List.mem_singleton_self _, rfl, hpT⟩

/-! ### Division safety of the edge ratios -/

/-- Ratio from an inside vertex `p` to an outside vertex `q`. -/
theorem ratio_pass_fail (k : Nat) (edge : K) (component : Nat) {p q : float3 K}
    (hp : Passes k edge component p) (hq : ¬ Passes k edge component q) :
    q.comp component - p.comp component ≠ 0 ∧
    0 < (edge - p.comp component) / (q.comp component - p.comp component) ∧
    (edge - p.comp component) / (q.comp component - p.comp component) ≤ 1 := by
  unfold Passes at hp hq
  split_ifs at hp hq with hk
  · push_neg at hq
    have h1 : q.comp component - p.comp component < 0 := by linarith
    refine ⟨ne_of_lt h1, div_pos_of_neg_of_neg (by linarith) h1, ?_⟩
    rw [div_le_one_of_neg h1]
    linarith
  · push_neg at hq
    have h1 : 0 < q.comp component - p.comp component := by linarith
    refine ⟨ne_of_gt h1, div_pos (by linarith) h1, ?_⟩
    rw [div_le_one h1]
    linarith

/-- Ratio from an outside vertex `p` to an inside vertex `q`. -/
theorem ratio_fail_pass (k : Nat) (edge : K) (component : Nat) {p q : float3 K}
    (hp : ¬ Passes k edge component p) (hq : Passes k edge component q) :
    q.comp component - p.comp component ≠ 0 ∧
    0 ≤ (edge - p.comp component) / (q.comp component - p.comp component) ∧
    (edge - p.comp component) / (q.comp component - p.comp component) < 1 := by
  unfold Passes at hp hq
  split_ifs at hp hq with hk
  · push_neg at hp
    have h1 : 0 < q.comp component - p.comp component := by linarith
    refine ⟨ne_of_gt h1, div_nonneg (by linarith) h1.le, ?_⟩
    rw [div_lt_one h1]
    linarith
  · push_neg at hp
    have h1 : q.comp component - p.comp component < 0 := by linarith
    refine ⟨ne_of_lt h1, div_nonneg_of_nonpos (by linarith) h1.le, ?_⟩
    rw [div_lt_one_of_neg h1]
    linarith

/-- A point created by a clip step lies exactly on the plane. -/
theorem Lerp_on_plane (edge : K) (component : Nat) (p q : float3 K)
    (h : q.comp component - p.comp component ≠ 0) :
    (Lerp p q ((edge - p.comp component) / (q.comp component - p.comp component))).comp
      component = edge := by
  rw [Lerp_comp, mul_div_cancel₀ _ h]
  ring

theorem passesClosed_of_comp_eq (k : Nat) (edge : K) (component : Nat) {p : float3 K}
    (h : p.comp component = edge) : PassesClosed k edge component p := by
  unfold PassesClosed
  split_ifs <;> simp [h]

theorem passesClosed_of_passes (k : Nat) (edge : K) (component : Nat) {p : float3 K}
    (h : Passes k edge component p) : PassesClosed k edge component p := by
  unfold Passes at h
  unfold PassesClosed
  split_ifs at h ⊢ <;> exact le_of_lt h

/-! ### What one clip step writes -/

/-- Every entry written by a clip step has its corners in any convex set
that contains the corners of the clipped entry. -/
theorem clipOutputs_convex (k : Nat) (edge : K) (component : Nat) (t : Triangle K)
    {Q : float3 K → Prop} (hQ : ConvexPred Q) (ht : TriAll Q t) :
    ∀ u ∈ clipOutputs k edge component t, TriAll Q u := by
  obtain ⟨hperm, c0, c1, c2, c3⟩ := sortedTri_spec k edge component t
  obtain ⟨qA, qB, qC⟩ := hperm.all ht.1 ht.2.1 ht.2.2
  intro u hu
  rcases insideVertCount_cases k edge component t with hn | hn | hn | hn
  · rw [clipOutputs_zero hn, List.mem_singleton] at hu
    subst hu
    exact ⟨qA, qB, qC⟩
  · obtain ⟨hA, hB, hC⟩ := c1 hn
    rw [clipOutputs_one hn, List.mem_singleton] at hu
    subst hu
    obtain ⟨-, r1, r2⟩ := ratio_pass_fail k edge component hA hB
    obtain ⟨-, r3, r4⟩ := ratio_pass_fail k edge component hA hC
    exact ⟨qA, hQ _ _ _ qA qC r3.le r4, hQ _ _ _ qA qB r1.le r2⟩
  · obtain ⟨hA, hB, hC⟩ := c2 hn
    obtain ⟨-, r1, r2⟩ := ratio_fail_pass k edge component hC hA
    obtain ⟨-, r3, r4⟩ := ratio_fail_pass k edge component hC hB
    rw [clipOutputs_two hn, List.mem_cons, List.mem_singleton] at hu
    rcases hu with hu | hu <;> subst hu
    · exact ⟨qB, hQ _ _ _ qC qA r1 r2.le, hQ _ _ _ qC qB r3 r4.le⟩
    · exact ⟨qA, qB, hQ _ _ _ qC qA r1 r2.le⟩
  · rw [clipOutputs_three hn, List.mem_singleton] at hu
    subst hu
    exact ⟨qA, qB, qC⟩

/-- Every non-culled entry written by a clip step lies in the closed half-space. -/
theorem clipOutputs_closed (k : Nat) (edge : K) (component : Nat) (t : Triangle K) :
    ∀ u ∈ clipOutputs k edge component t, u.culled = false →
      TriAll (PassesClosed k edge component) u := by
  obtain ⟨hperm, c0, c1, c2, c3⟩ := sortedTri_spec k edge component t
  intro u hu hcu
  rcases insideVertCount_cases k edge component t with hn | hn | hn | hn
  · rw [clipOutputs_zero hn, List.mem_singleton] at hu
    subst hu
    simp at hcu
  · obtain ⟨hA, hB, hC⟩ := c1 hn
    rw [clipOutputs_one hn, List.mem_singleton] at hu
    subst hu
    obtain ⟨d1, -, -⟩ := ratio_pass_fail k edge component hA hB
    obtain ⟨d2, -, -⟩ := ratio_pass_fail k edge component hA hC
    exact ⟨passesClosed_of_passes k edge component hA,
      passesClosed_of_comp_eq k edge component (Lerp_on_plane edge component _ _ d2),
      passesClosed_of_comp_eq k edge component (Lerp_on_plane edge component _ _ d1)⟩
  · obtain ⟨hA, hB, hC⟩ := c2 hn
    obtain ⟨d1, -, -⟩ := ratio_fail_pass k edge component hC hA
    obtain ⟨d2, -, -⟩ := ratio_fail_pass k edge component hC hB
    rw [clipOutputs_two hn, List.mem_cons, List.mem_singleton] at hu
    rcases hu with hu | hu <;> subst hu
    · exact ⟨passesClosed_of_passes k edge component hB,
        passesClosed_of_comp_eq k edge component (Lerp_on_plane edge component _ _ d1),
        passesClosed_of_comp_eq k edge component (Lerp_on_plane edge component _ _ d2)⟩
    · exact ⟨passesClosed_of_passes k edge component hA,
        passesClosed_of_passes k edge component hB,
        passesClosed_of_comp_eq k edge component (Lerp_on_plane edge component _ _ d1)⟩
  · obtain ⟨hA, hB, hC⟩ := c3 hn
    rw [clipOutputs_three hn, List.mem_singleton] at hu
    subst hu
    exact ⟨passesClosed_of_passes k edge component hA,
      passesClosed_of_passes k edge component hB, passesClosed_of_passes k edge component hC⟩

theorem insideVertCount_eq_zero_iff (k : Nat) (edge : K) (component : Nat) (t : Triangle K) :
    insideVertCount k edge component t = 0 ↔
      TriAll (fun p => ¬ Passes k edge component p) t := by
  unfold insideVertCount TriAll
  simp only [← pointPassClip_eq_zero_iff]
  omega

theorem insideVertCount_eq_three_iff (k : Nat) (edge : K) (component : Nat) (t : Triangle K) :
    insideVertCount k edge component t = 3 ↔ TriAll (Passes k edge component) t := by
  have h0 := pointPassClip_le_one k edge component t.pt0
  have h1 := pointPassClip_le_one k edge component t.pt1
  have h2 := pointPassClip_le_one k edge component t.pt2
  unfold insideVertCount TriAll
  simp only [← pointPassClip_eq_one_iff]
  omega

/-- An entry whose corners all fail the inside test is culled by the step. -/
theorem clipOutputs_all_fail (k : Nat) (edge : K) (component : Nat) (t : Triangle K)
    (ht : TriAll (fun p => ¬ Passes k edge component p) t) :
    ∀ u ∈ clipOutputs k edge component t, u.culled = true := by
  intro u hu
  rw [clipOutputs_zero ((insideVertCount_eq_zero_iff k edge component t).2 ht),
    List.mem_singleton] at hu
  subst hu
  rfl

/-- An entry whose corners all pass the inside test is kept as it is. -/
theorem clipOutputs_all_pass (k : Nat) (edge : K) (component : Nat) (t : Triangle K)
    (ht : TriAll (Passes k edge component) t) (hc : t.culled = false) :
    clipOutputs k edge component t = [t] := by
  have hn := (insideVertCount_eq_three_iff k edge component t).2 ht
  rw [clipOutputs_three hn]
  obtain ⟨h0, h1, h2⟩ := ht
  rw [← pointPassClip_eq_one_iff] at h0 h1 h2
  obtain ⟨a, b, c, f⟩ := t
  simp only at hc h0 h1 h2
  subst hc
  simp [sortedTri, sortedPts, swapNetwork, swap01, swap12, h0, h1, h2]

/-! ### Invariants of one pass over the working list -/

/-- Entry-wise invariant rule: `Rall` holds of every entry throughout the
pass, `Rdone` of every entry the pass has handled. -/
theorem clipLoop_entries {k : Nat} {edge : K} {component : Nat}
    (Rall Rdone : Triangle K → Prop)
    (hout : ∀ t, t.culled = false → Rall t →
      ∀ u ∈ clipOutputs k edge component t, Rall u ∧ Rdone u)
    (hskip : ∀ t, t.culled = true → Rdone t)
    {fuel : Nat} {st st2 : ClipState K} (h : clipLoop k edge component fuel st 0 = some st2)
    (hall : ∀ i, i < st.iTriangleCnt → Rall (st.triangleList i)) :
    ∀ i, i < st2.iTriangleCnt → Rall (st2.triangleList i) ∧ Rdone (st2.triangleList i) := by
  obtain ⟨j, hj, -, h1, h2⟩ := clipLoop_induct
    (fun s i => i ≤ s.iTriangleCnt ∧ (∀ j, j < s.iTriangleCnt → Rall (s.triangleList j)) ∧
      ∀ j, j < i → Rdone (s.triangleList j))
    (by
      intro s i s1 i1 ⟨hle, hA, hD⟩ hlt hr
      by_cases hc : (s.triangleList i).culled = false
      · have hO := hout _ hc (hA i hlt)
        rcases clipTriangle_step hr hlt hc with
          ⟨u, hu, e1, e2, e3, e4⟩ | ⟨u, v, huv, e1, e2, e3, e4, e5, e6, e7⟩
        · have hu1 := hO u (by rw [hu]; exact List.mem_singleton_self _)
          refine ⟨by omega, ?_, ?_⟩
          · intro j hj
            by_cases hji : j = i
            · rw [hji, e3]; exact hu1.1
            · rw [e4 j hji]; exact hA j (by omega)
          · intro j hj
            by_cases hji : j = i
            · rw [hji, e3]; exact hu1.2
            · rw [e4 j hji]; exact hD j (by omega)
        · have hu1 := hO u (by rw [huv]; exact List.mem_cons_self _ _)
          have hv1 := hO v (by rw [huv]; exact List.mem_cons_of_mem _ (List.mem_singleton_self _))
          refine ⟨by omega, ?_, ?_⟩
          · intro j hj
            by_cases hji : j = i
            · rw [hji, e4]; exact hu1.1
            · by_cases hji1 : j = i + 1
              · rw [hji1, e5]; exact hv1.1
              · by_cases hjc : j = s.iTriangleCnt
                · rw [hjc, e6 (by omega)]; exact hA _ (by omega)
                · rw [e7 j hji hji1 hjc]; exact hA j (by omega)
          · intro j hj
            by_cases hji : j = i
            · rw [hji, e4]; exact hu1.2
            · by_cases hji1 : j = i + 1
              · rw [hji1, e5]; exact hv1.2
              · rw [e7 j hji hji1 (by omega)]; exact hD j (by omega)
      · have h16 : i < triangleListSize := by
          by_contra hh
          simp [clipTriangle, hh] at hr
        have hc1 : (s.triangleList i).culled = true := by simpa using hc
        rw [clipTriangle_culled k edge component s i h16 hc1] at hr
        simp only [Option.some.injEq, Prod.mk.injEq] at hr
        obtain ⟨rfl, rfl⟩ := hr
        refine ⟨by omega, hA, ?_⟩
        intro j hj
        by_cases hji : j = i
        · rw [hji]; exact hskip _ hc1
        · exact hD j (by omega))
    fuel st 0 st2 ⟨by omega, hall, by intro j hj; omega⟩ h
  intro i hi
  exact ⟨h1 i hi, h2 i (by omega)⟩

/-- Coverage is kept by one pass, for every point that passes the plane. -/
theorem clipLoop_cover {k : Nat} {edge : K} {component : Nat} {fuel : Nat}
    {st st2 : ClipState K} (h : clipLoop k edge component fuel st 0 = some st2)
    {p : float3 K} (hpass : Passes k edge component p) (hcov : Covered st p) :
    Covered st2 p := by
  obtain ⟨j, -, hj⟩ := clipLoop_induct (fun s _ => Covered s p)
    (by
      intro s i s1 i1 ⟨m, hm, hmc, hmp⟩ hlt hr
      by_cases hc : (s.triangleList i).culled = false
      · rcases clipTriangle_step hr hlt hc with
          ⟨u, hu, e1, e2, e3, e4⟩ | ⟨u, v, huv, e1, e2, e3, e4, e5, e6, e7⟩
        · by_cases hmi : m = i
          · subst hmi
            obtain ⟨w, hw, hwc, hwp⟩ := clipOutputs_cover k edge component _ hmp hpass
            rw [hu, List.mem_singleton] at hw
            subst hw
            exact ⟨m, by omega, by rw [e3]; exact hwc, by rw [e3]; exact hwp⟩
          · exact ⟨m, by omega, by rw [e4 m hmi]; exact hmc, by rw [e4 m hmi]; exact hmp⟩
        · by_cases hmi : m = i
          · subst hmi
            obtain ⟨w, hw, hwc, hwp⟩ := clipOutputs_cover k edge component _ hmp hpass
            rw [huv, List.mem_cons, List.mem_singleton] at hw
            rcases hw with hw | hw <;> subst hw
            · exact ⟨m, by omega, by rw [e4]; exact hwc, by rw [e4]; exact hwp⟩
            · exact ⟨m + 1, by omega, by rw [e5]; exact hwc, by rw [e5]; exact hwp⟩
          · by_cases hmi1 : m = i + 1
            · subst hmi1
              have := e6 hm
              exact ⟨s.iTriangleCnt, by omega, by rw [this]; exact hmc, by rw [this]; exact hmp⟩
            · have := e7 m hmi hmi1 (by omega)
              exact ⟨m, by omega, by rw [this]; exact hmc, by rw [this]; exact hmp⟩
      · have h16 : i < triangleListSize := by
          by_contra hh
          simp [clipTriangle, hh] at hr
        have hc1 : (s.triangleList i).culled = true := by simpa using hc
        rw [clipTriangle_culled k edge component s i h16 hc1] at hr
        simp only [Option.some.injEq, Prod.mk.injEq] at hr
        obtain ⟨rfl, rfl⟩ := hr
        exact ⟨m, hm, hmc, hmp⟩)
    fuel st 0 st2 hcov h
  exact hj

/-! ### Convex sets of points -/

theorem convexPred_passesClosed (k : Nat) (edge : K) (component : Nat) :
    ConvexPred (PassesClosed k edge component) := by
  intro a b t ha hb h0 h1
  rw [passesClosed_iff] at ha hb ⊢
  rw [signedDist_Lerp]
  have e : signedDist k edge component a +
      (signedDist k edge component b - signedDist k edge component a) * t =
      (1 - t) * signedDist k edge component a + t * signedDist k edge component b := by ring
  rw [e]
  exact add_nonneg (mul_nonneg (by linarith) ha) (mul_nonneg h0 hb)

theorem convexPred_not_passes (k : Nat) (edge : K) (component : Nat) :
    ConvexPred (fun p => ¬ Passes k edge component p) := by
  intro a b t ha hb h0 h1
  simp only [passes_iff, not_lt] at ha hb ⊢
  rw [signedDist_Lerp]
  have e : signedDist k edge component a +
      (signedDist k edge component b - signedDist k edge component a) * t =
      (1 - t) * signedDist k edge component a + t * signedDist k edge component b := by ring
  rw [e]
  have := mul_nonpos_of_nonneg_of_nonpos (by linarith : (0 : K) ≤ 1 - t) ha
  have := mul_nonpos_of_nonneg_of_nonpos h0 hb
  linarith

theorem convexPred_onTriangle (A B C : float3 K) : ConvexPred (OnTriangle A B C) := by
  intro a b t ⟨α, β, γ, h0, h1, h2, hs, hx, hy, hz⟩ ⟨α1, β1, γ1, k0, k1, k2, ks, kx, ky, kz⟩
    ht0 ht1
  have h1t : (0 : K) ≤ 1 - t := by linarith
  refine ⟨(1 - t) * α + t * α1, (1 - t) * β + t * β1, (1 - t) * γ + t * γ1,
    add_nonneg (mul_nonneg h1t h0) (mul_nonneg ht0 k0),
    add_nonneg (mul_nonneg h1t h1) (mul_nonneg ht0 k1),
    add_nonneg (mul_nonneg h1t h2) (mul_nonneg ht0 k2), ?_, ?_, ?_, ?_⟩
  · have hα : α = 1 - β - γ := by linarith
    have hα1 : α1 = 1 - β1 - γ1 := by linarith
    subst hα hα1
    ring
  · simp only [Lerp, hx, kx]; ring
  · simp only [Lerp, hy, ky]; ring
  · simp only [Lerp, hz, kz]; ring

theorem ConvexPred.and {Q R : float3 K → Prop} (hQ : ConvexPred Q) (hR : ConvexPred R) :
    ConvexPred (fun p => Q p ∧ R p) :=
  fun a b t ha hb h0 h1 => ⟨hQ a b t ha.1 hb.1 h0 h1, hR a b t ha.2 hb.2 h0 h1⟩

/-! ### Invariants of the loop over the clip planes -/

theorem clipPlane_live {b : BoundingBox K} {n : Nat} {st st2 : ClipState K}
    {Q : float3 K → Prop} (hQ : ConvexPred Q) (h : clipPlane b st n = some st2)
    (hl : Live Q st) : Live Q st2 := by
  have := clipLoop_entries (fun t => t.culled = false → TriAll Q t) (fun _ => True)
    (by
      intro t hc ht u hu
      exact ⟨fun _ => clipOutputs_convex n _ _ t hQ (ht hc) u hu, trivial⟩)
    (fun _ _ => trivial) h (fun i hi => hl i hi)
  exact fun i hi => (this i hi).1

theorem clipPlanes_live {b : BoundingBox K} {Q : float3 K → Prop} (hQ : ConvexPred Q) :
    ∀ (n : Nat) {st st2 : ClipState K}, clipPlanes b n st = some st2 → Live Q st →
      Live Q st2 := by
  intro n
  induction n with
  | zero =>
    intro st st2 h hl
    rw [clipPlanes_zero] at h
    simp only [Option.some.injEq] at h
    subst h
    exact hl
  | succ n ih =>
    intro st st2 h hl
    obtain ⟨st1, h1, h2⟩ := clipPlanes_succ_eq_some h
    exact clipPlane_live hQ h2 (ih h1 hl)

/-- After pass `n`, every non-culled entry lies in the closed half-space of plane `n`. -/
theorem clipPlane_closed {b : BoundingBox K} {n : Nat} {st st2 : ClipState K}
    (h : clipPlane b st n = some st2) : Live (PlanePassClosed b n) st2 := by
  have := clipLoop_entries (fun _ => True)
    (fun t => t.culled = false → TriAll (PlanePassClosed b n) t)
    (by
      intro t hc _ u hu
      exact ⟨trivial, fun hcu => clipOutputs_closed n _ _ t u hu hcu⟩)
    (by
      intro t hc hc2
      rw [hc] at hc2
      exact absurd hc2 (by simp)) h (fun _ _ => trivial)
  exact fun i hi => (this i hi).2

/-- After `n` passes, every non-culled entry lies in the closed half-spaces
of the planes handled so far. -/
theorem clipPlanes_closed {b : BoundingBox K} :
    ∀ (n : Nat) {st st2 : ClipState K}, clipPlanes b n st = some st2 →
      ∀ m, m < n → Live (PlanePassClosed b m) st2 := by
  intro n
  induction n with
  | zero => intro st st2 _ m hm; omega
  | succ n ih =>
    intro st st2 h m hm
    obtain ⟨st1, h1, h2⟩ := clipPlanes_succ_eq_some h
    by_cases hmn : m = n
    · subst hmn
      exact clipPlane_closed h2
    · exact clipPlane_live (convexPred_passesClosed _ _ _) h2 (ih h1 m (by omega))

/-- Coverage after `n` passes, for the points that pass the first `n` planes. -/
theorem clipPlanes_cover {b : BoundingBox K} {p : float3 K} :
    ∀ (n : Nat) {st st2 : ClipState K}, clipPlanes b n st = some st2 →
      (∀ m, m < n → PlanePass b m p) → Covered st p → Covered st2 p := by
  intro n
  induction n with
  | zero =>
    intro st st2 h _ hc
    rw [clipPlanes_zero] at h
    simp only [Option.some.injEq] at h
    subst h
    exact hc
  | succ n ih =>
    intro st st2 h hp hc
    obtain ⟨st1, h1, h2⟩ := clipPlanes_succ_eq_some h
    exact clipLoop_cover h2 (hp n (by omega)) (ih h1 (fun m hm => hp m (by omega)) hc)

/-- All entries stay culled once they are. -/
theorem clipPlane_culled {b : BoundingBox K} {n : Nat} {st st2 : ClipState K}
    (h : clipPlane b st n = some st2)
    (hc : ∀ i, i < st.iTriangleCnt → (st.triangleList i).culled = true) :
    ∀ i, i < st2.iTriangleCnt → (st2.triangleList i).culled = true := by
  have := clipLoop_entries (fun t => t.culled = true) (fun _ => True)
    (by
      intro t hc1 hc2 u _
      rw [hc1] at hc2
      exact absurd hc2 (by simp))
    (fun _ _ => trivial) h hc
  exact fun i hi => (this i hi).1

/-- If no corner of any live entry passes plane `n`, pass `n` culls everything. -/
theorem clipPlane_all_fail {b : BoundingBox K} {n : Nat} {st st2 : ClipState K}
    (h : clipPlane b st n = some st2) (hl : Live (fun p => ¬ PlanePass b n p) st) :
    ∀ i, i < st2.iTriangleCnt → (st2.triangleList i).culled = true := by
  have := clipLoop_entries
    (fun t => t.culled = false → TriAll (fun p => ¬ PlanePass b n p) t)
    (fun t => t.culled = true)
    (by
      intro t hc ht u hu
      have := clipOutputs_all_fail n _ _ t (ht hc) u hu
      exact ⟨fun hcu => by rw [this] at hcu; exact absurd hcu (by simp), this⟩)
    (fun _ hc => hc) h (fun i hi => hl i hi)
  exact fun i hi => (this i hi).2

/-- If no corner passes plane `m < n`, nothing survives `n` passes. -/
theorem clipPlanes_all_fail {b : BoundingBox K} {m : Nat} :
    ∀ (n : Nat) {st st2 : ClipState K}, clipPlanes b n st = some st2 → m < n →
      Live (fun p => ¬ PlanePass b m p) st →
      ∀ i, i < st2.iTriangleCnt → (st2.triangleList i).culled = true := by
  intro n
  induction n with
  | zero => intro st st2 _ hm; omega
  | succ n ih =>
    intro st st2 h hm hl
    obtain ⟨st1, h1, h2⟩ := clipPlanes_succ_eq_some h
    by_cases hmn : m = n
    · subst hmn
      exact clipPlane_all_fail h2 (clipPlanes_live (convexPred_not_passes _ _ _) m h1 hl)
    · exact clipPlane_culled h2 (ih h1 (by omega) hl)

/-! ### The near/far accumulation -/

theorem accumVert_fst (nf : K × K) (z : K) : (accumVert nf z).1 = min nf.1 z := by
  unfold accumVert
  simp only
  split_ifs with h
  · exact (min_eq_right (le_of_lt h)).symm
  · exact (min_eq_left (not_lt.1 h)).symm

theorem accumVert_snd (nf : K × K) (z : K) : (accumVert nf z).2 = max nf.2 z := by
  unfold accumVert
  simp only
  split_ifs with h
  · exact (max_eq_right (le_of_lt h)).symm
  · exact (max_eq_left (not_lt.1 h)).symm

theorem min3_cases (n a b c : K) :
    min (min (min n a) b) c = n ∨ min (min (min n a) b) c = a ∨
      min (min (min n a) b) c = b ∨ min (min (min n a) b) c = c := by
  rcases min_choice (min (min n a) b) c with h | h
  · rcases min_choice (min n a) b with h1 | h1
    · rcases min_choice n a with h2 | h2
      · left; rw [h, h1, h2]
      · right; left; rw [h, h1, h2]
    · right; right; left; rw [h, h1]
  · right; right; right; exact h

theorem max3_cases (n a b c : K) :
    max (max (max n a) b) c = n ∨ max (max (max n a) b) c = a ∨
      max (max (max n a) b) c = b ∨ max (max (max n a) b) c = c := by
  rcases max_choice (max (max n a) b) c with h | h
  · rcases max_choice (max n a) b with h1 | h1
    · rcases max_choice n a with h2 | h2
      · left; rw [h, h1, h2]
      · right; left; rw [h, h1, h2]
    · right; right; left; rw [h, h1]
  · right; right; right; exact h

/-- The accumulation over the first `m` entries: it succeeds, only widens the
range, encloses every live corner, and each end is the old one or a live corner. -/
theorem accum_prefix (st : ClipState K) (nf : K × K) :
    ∀ m, m ≤ triangleListSize →
      ∃ r, (List.range m).foldlM (accumTriangle st) nf = some r ∧
        r.1 ≤ nf.1 ∧ nf.2 ≤ r.2 ∧
        (∀ z, VertZ st m z → r.1 ≤ z ∧ z ≤ r.2) ∧
        (r.1 = nf.1 ∨ VertZ st m r.1) ∧ (r.2 = nf.2 ∨ VertZ st m r.2) := by
  intro m
  induction m with
  | zero =>
    intro _
    refine ⟨nf, by simp, le_refl _, le_refl _, ?_, Or.inl rfl, Or.inl rfl⟩
    rintro z ⟨i, hi, -⟩
    omega
  | succ m ih =>
    intro hm
    obtain ⟨r, hr, h1, h2, h3, h4, h5⟩ := ih (by omega)
    have hm16 : m < triangleListSize := by omega
    have hmono : ∀ z, VertZ st m z → VertZ st (m + 1) z := by
      rintro z ⟨i, hi, hc, hz⟩
      exact ⟨i, by omega, hc, hz⟩
    by_cases hc : (st.triangleList m).culled = false
    · refine ⟨accumVert (accumVert (accumVert r (st.triangleList m).pt0.z)
        (st.triangleList m).pt1.z) (st.triangleList m).pt2.z, ?_, ?_, ?_, ?_, ?_, ?_⟩
      · simp [List.range_succ, List.foldlM_append, hr, accumTriangle, hm16, hc]
      · simp only [accumVert_fst]
        exact le_trans (le_trans (le_trans (min_le_left _ _) (min_le_left _ _))
          (min_le_left _ _)) h1
      · simp only [accumVert_snd]
        exact le_trans h2 (le_trans (le_trans (le_max_left _ _) (le_max_left _ _))
          (le_max_left _ _))
      · rintro z ⟨i, hi, hci, hz⟩
        simp only [accumVert_fst, accumVert_snd]
        by_cases him : i = m
        · subst him
          rcases hz with hz | hz | hz <;> subst hz
          · exact ⟨le_trans (min_le_left _ _) (le_trans (min_le_left _ _) (min_le_right _ _)),
              le_trans (le_max_right _ _) (le_trans (le_max_left _ _) (le_max_left _ _))⟩
          · exact ⟨le_trans (min_le_left _ _) (min_le_right _ _),
              le_trans (le_max_right _ _) (le_max_left _ _)⟩
          · exact ⟨min_le_right _ _, le_max_right _ _⟩
        · obtain ⟨l1, l2⟩ := h3 z ⟨i, by omega, hci, hz⟩
          exact ⟨le_trans (le_trans (le_trans (min_le_left _ _) (min_le_left _ _))
            (min_le_left _ _)) l1,
            le_trans l2 (le_trans (le_trans (le_max_left _ _) (le_max_left _ _))
              (le_max_left _ _))⟩
      · simp only [accumVert_fst]
        rcases min3_cases r.1 (st.triangleList m).pt0.z (st.triangleList m).pt1.z
          (st.triangleList m).pt2.z with e | e | e | e
        · rw [e]
          rcases h4 with h4 | h4
          · exact Or.inl h4
          · exact Or.inr (hmono _ h4)
        · exact Or.inr ⟨m, by omega, hc, Or.inl e⟩
        · exact Or.inr ⟨m, by omega, hc, Or.inr (Or.inl e)⟩
        · exact Or.inr ⟨m, by omega, hc, Or.inr (Or.inr e)⟩
      · simp only [accumVert_snd]
        rcases max3_cases r.2 (st.triangleList m).pt0.z (st.triangleList m).pt1.z
          (st.triangleList m).pt2.z with e | e | e | e
        · rw [e]
          rcases h5 with h5 | h5
          · exact Or.inl h5
          · exact Or.inr (hmono _ h5)
        · exact Or.inr ⟨m, by omega, hc, Or.inl e⟩
        · exact Or.inr ⟨m, by omega, hc, Or.inr (Or.inl e)⟩
        · exact Or.inr ⟨m, by omega, hc, Or.inr (Or.inr e)⟩
    · refine ⟨r, ?_, h1, h2, ?_, ?_, ?_⟩
      · simp [List.range_succ, List.foldlM_append, hr, accumTriangle, hm16, hc]
      · rintro z ⟨i, hi, hci, hz⟩
        by_cases him : i = m
        · subst him
          exact absurd hci hc
        · exact h3 z ⟨i, by omega, hci, hz⟩
      · rcases h4 with h4 | h4
        · exact Or.inl h4
        · exact Or.inr (hmono _ h4)
      · rcases h5 with h5 | h5
        · exact Or.inl h5
        · exact Or.inr (hmono _ h5)

/-- With every entry culled the accumulation leaves the pair unchanged. -/
theorem accumTriangles_culled (st : ClipState K) (nf : K × K)
    (hcnt : st.iTriangleCnt ≤ triangleListSize)
    (hc : ∀ i, i < st.iTriangleCnt → (st.triangleList i).culled = true) :
    accumTriangles st nf = some nf := by
  obtain ⟨r, hr, -, -, -, h4, h5⟩ := accum_prefix st nf st.iTriangleCnt hcnt
  have hno : ∀ z, ¬ VertZ st st.iTriangleCnt z := by
    rintro z ⟨i, hi, hci, -⟩
    rw [hc i hi] at hci
    exact absurd hci (by simp)
  have e1 : r.1 = nf.1 := h4.resolve_right (hno _)
  have e2 : r.2 = nf.2 := h5.resolve_right (hno _)
  unfold accumTriangles
  rw [hr]
  exact congrArg some (Prod.ext e1 e2)

/-! ### The four planes of the box -/

theorem planePass_iff (b : BoundingBox K) (p : float3 K) :
    (∀ m, m < 4 → PlanePass b m p) ↔ InSlab b p := by
  constructor
  · intro h
    have h0 := h 0 (by omega)
    have h1 := h 1 (by omega)
    have h2 := h 2 (by omega)
    have h3 := h 3 (by omega)
    simp [PlanePass, Passes, ClipPlaneEdge, float3.comp] at h0 h1 h2 h3
    exact ⟨h0, h1, h2, h3⟩
  · rintro ⟨h0, h1, h2, h3⟩ m hm
    interval_cases m <;> simp [PlanePass, Passes, ClipPlaneEdge, float3.comp] <;> assumption

theorem planePassClosed_iff (b : BoundingBox K) (p : float3 K) :
    (∀ m, m < 4 → PlanePassClosed b m p) ↔ InSlabClosed b p := by
  constructor
  · intro h
    have h0 := h 0 (by omega)
    have h1 := h 1 (by omega)
    have h2 := h 2 (by omega)
    have h3 := h 3 (by omega)
    simp [PlanePassClosed, PassesClosed, ClipPlaneEdge, float3.comp] at h0 h1 h2 h3
    exact ⟨h0, h1, h2, h3⟩
  · rintro ⟨h0, h1, h2, h3⟩ m hm
    interval_cases m <;>
      simp [PlanePassClosed, PassesClosed, ClipPlaneEdge, float3.comp] <;> assumption

/-! ### One triangle of the scene box -/

theorem OnTriangle.corner0 (a b c : float3 K) : OnTriangle a b c a :=
  ⟨1, 0, 0, by norm_num, le_refl _, le_refl _, by ring, by ring, by ring, by ring⟩

theorem OnTriangle.corner1 (a b c : float3 K) : OnTriangle a b c b :=
  ⟨0, 1, 0, le_refl _, by norm_num, le_refl _, by ring, by ring, by ring, by ring⟩

theorem OnTriangle.corner2 (a b c : float3 K) : OnTriangle a b c c :=
  ⟨0, 0, 1, le_refl _, le_refl _, by norm_num, by ring, by ring, by ring, by ring⟩

theorem OnTriangle.z_bounds {a b c p : float3 K} (hp : OnTriangle a b c p) {lo hi : K}
    (ha : lo ≤ a.z ∧ a.z ≤ hi) (hb : lo ≤ b.z ∧ b.z ≤ hi) (hc : lo ≤ c.z ∧ c.z ≤ hi) :
    lo ≤ p.z ∧ p.z ≤ hi := by
  obtain ⟨α, β, γ, h0, h1, h2, hs, -, -, hz⟩ := hp
  have e1 : lo = α * lo + β * lo + γ * lo := by rw [← add_mul, ← add_mul, hs, one_mul]
  have e2 : hi = α * hi + β * hi + γ * hi := by rw [← add_mul, ← add_mul, hs, one_mul]
  have a1 := mul_le_mul_of_nonneg_left ha.1 h0
  have a2 := mul_le_mul_of_nonneg_left ha.2 h0
  have b1 := mul_le_mul_of_nonneg_left hb.1 h1
  have b2 := mul_le_mul_of_nonneg_left hb.2 h1
  have c1 := mul_le_mul_of_nonneg_left hc.1 h2
  have c2 := mul_le_mul_of_nonneg_left hc.2 h2
  rw [hz]
  constructor
  · rw [e1]; linarith
  · rw [e2]; linarith

theorem loadTriangle_live (scene : Nat → float3 K) (tl : Nat → Triangle K) (i : Nat) :
    Live (OnSceneTriangle scene i) (loadTriangle scene tl i) := by
  intro j hj _
  have hj0 : j = 0 := by
    simp only [loadTriangle] at hj
    omega
  subst hj0
  simp only [loadTriangle, Function.update_same, TriAll, OnSceneTriangle]
  exact ⟨OnTriangle.corner0 _ _ _, OnTriangle.corner1 _ _ _, OnTriangle.corner2 _ _ _⟩

theorem loadTriangle_covered (scene : Nat → float3 K) (tl : Nat → Triangle K) (i : Nat)
    {p : float3 K} (hp : OnSceneTriangle scene i p) : Covered (loadTriangle scene tl i) p := by
  refine ⟨0, by simp [loadTriangle], by simp [loadTriangle], ?_⟩
  simpa [loadTriangle, OnSceneTriangle] using hp

/-- Soundness for one scene triangle: a point of it strictly inside the slab
lies on a surviving entry. -/
theorem clipPlanes_sound {b : BoundingBox K} {scene : Nat → float3 K} {tl : Nat → Triangle K}
    {i : Nat} {st : ClipState K} (h : clipPlanes b 4 (loadTriangle scene tl i) = some st)
    {p : float3 K} (hp : OnSceneTriangle scene i p) (hs : InSlab b p) : Covered st p :=
  clipPlanes_cover 4 h ((planePass_iff b p).2 hs) (loadTriangle_covered scene tl i hp)

/-- Tightness for one scene triangle: every corner of a surviving entry is a
point of the scene triangle inside the closed slab. -/
theorem clipPlanes_tight {b : BoundingBox K} {scene : Nat → float3 K} {tl : Nat → Triangle K}
    {i : Nat} {st : ClipState K} (h : clipPlanes b 4 (loadTriangle scene tl i) = some st) :
    Live (fun p => OnSceneTriangle scene i p ∧ InSlabClosed b p) st := by
  intro j hj hc
  have h1 := clipPlanes_live (convexPred_onTriangle _ _ _) 4 h (loadTriangle_live scene tl i)
    j hj hc
  have h2 := fun m hm => clipPlanes_closed 4 h m hm j hj hc
  refine ⟨⟨h1.1, (planePassClosed_iff b _).1 (fun m hm => (h2 m hm).1)⟩,
    ⟨h1.2.1, (planePassClosed_iff b _).1 (fun m hm => (h2 m hm).2.1)⟩,
    ⟨h1.2.2, (planePassClosed_iff b _).1 (fun m hm => (h2 m hm).2.2)⟩⟩

/-! ### The loop over the 12 triangles -/

theorem foldTri_zero (b : BoundingBox K) (scene : Nat → float3 K) (uninit : Nat → Triangle K) :
    foldTri b scene uninit 0 = some (uninit, ((FLT_MAX : K), -(FLT_MAX : K))) := by
  simp [foldTri]

theorem foldTri_succ (b : BoundingBox K) (scene : Nat → float3 K) (uninit : Nat → Triangle K)
    (m : Nat) :
    foldTri b scene uninit (m + 1) =
      (foldTri b scene uninit m).bind (fun acc => processAABBTri b scene acc m) := by
  simp [foldTri, List.range_succ, List.foldlM_append]

theorem CalculateLightNearFar_eq (b : BoundingBox K) (scene : Nat → float3 K)
    (uninit : Nat → Triangle K) :
    CalculateLightNearFar b scene uninit =
      (foldTri b scene uninit 12).map
        (fun r => ⟨{ b.Min with z := r.2.1 }, { b.Max with z := r.2.2 }⟩) := by
  unfold CalculateLightNearFar foldTri
  cases (List.range 12).foldlM (processAABBTri b scene) (uninit, ((FLT_MAX : K), -(FLT_MAX : K)))
    <;> rfl

/-- One iteration of the loop over the triangles: clipping succeeds within
the array, and the accumulation behaves as `accum_prefix` says. -/
theorem processAABBTri_spec (b : BoundingBox K) (scene : Nat → float3 K)
    (acc : (Nat → Triangle K) × (K × K)) (i : Nat) :
    ∃ st nf, clipPlanes b 4 (loadTriangle scene acc.1 i) = some st ∧
      st.iTriangleCnt ≤ triangleListSize ∧
      processAABBTri b scene acc i = some (st.triangleList, nf) ∧
      nf.1 ≤ acc.2.1 ∧ acc.2.2 ≤ nf.2 ∧
      (∀ z, VertZ st st.iTriangleCnt z → nf.1 ≤ z ∧ z ≤ nf.2) ∧
      (nf.1 = acc.2.1 ∨ VertZ st st.iTriangleCnt nf.1) ∧
      (nf.2 = acc.2.2 ∨ VertZ st st.iTriangleCnt nf.2) := by
  obtain ⟨st, hst⟩ := clipPlanes_isSome b 4 (loadTriangle scene acc.1 i) (le_refl _) rfl
  have hcnt : st.iTriangleCnt ≤ triangleListSize := by
    have := (clipPlanes_count 4 hst).2
    simpa [loadTriangle, triangleListSize] using this
  obtain ⟨nf, hnf, h1, h2, h3, h4, h5⟩ := accum_prefix st acc.2 st.iTriangleCnt hcnt
  refine ⟨st, nf, hst, hcnt, ?_, h1, h2, h3, h4, h5⟩
  unfold processAABBTri
  rw [hst]
  simp only
  unfold accumTriangles
  rw [hnf]

theorem vertZ_good {b : BoundingBox K} {scene : Nat → float3 K} {tl : Nat → Triangle K}
    {i : Nat} {st : ClipState K} (h : clipPlanes b 4 (loadTriangle scene tl i) = some st)
    {z : K} (hz : VertZ st st.iTriangleCnt z) {m : Nat} (him : i < m) : GoodZ b scene m z := by
  obtain ⟨j, hj, hc, hz⟩ := hz
  obtain ⟨t0, t1, t2⟩ := clipPlanes_tight h j hj hc
  rcases hz with hz | hz | hz
  · exact ⟨i, _, him, t0.1, t0.2, hz.symm⟩
  · exact ⟨i, _, him, t1.1, t1.2, hz.symm⟩
  · exact ⟨i, _, him, t2.1, t2.2, hz.symm⟩

theorem GoodZ.mono {b : BoundingBox K} {scene : Nat → float3 K} {m n : Nat} {z : K}
    (h : GoodZ b scene m z) (hmn : m ≤ n) : GoodZ b scene n z := by
  obtain ⟨i, p, hi, h1, h2, h3⟩ := h
  exact ⟨i, p, by omega, h1, h2, h3⟩

/-- The invariant of the loop over the triangles. -/
theorem foldTri_spec (b : BoundingBox K) (scene : Nat → float3 K) (uninit : Nat → Triangle K) :
    ∀ m, ∃ acc, foldTri b scene uninit m = some acc ∧
      (∀ i p, i < m → OnSceneTriangle scene i p → InSlab b p →
        acc.2.1 ≤ p.z ∧ p.z ≤ acc.2.2) ∧
      (acc.2.1 = FLT_MAX ∨ GoodZ b scene m acc.2.1) ∧
      (acc.2.2 = -FLT_MAX ∨ GoodZ b scene m acc.2.2) ∧
      (∀ i st z, i < m → clippedAt b scene uninit i = some st →
        VertZ st st.iTriangleCnt z → acc.2.1 ≤ z ∧ z ≤ acc.2.2) := by
  intro m
  induction m with
  | zero =>
    exact ⟨_, foldTri_zero b scene uninit, fun i p hi => by omega, Or.inl rfl, Or.inl rfl,
      fun i st z hi => by omega⟩
  | succ m ih =>
    obtain ⟨acc, hacc, hS, hN, hF, hV⟩ := ih
    obtain ⟨st, nf, hst, hcnt, hproc, h1, h2, h3, h4, h5⟩ := processAABBTri_spec b scene acc m
    refine ⟨(st.triangleList, nf), by rw [foldTri_succ, hacc]; exact hproc, ?_, ?_, ?_, ?_⟩
    · intro i p hi hp hs
      by_cases him : i = m
      · subst him
        obtain ⟨j, hj, hc, hpj⟩ := clipPlanes_sound hst hp hs
        exact hpj.z_bounds (h3 _ ⟨j, hj, hc, Or.inl rfl⟩) (h3 _ ⟨j, hj, hc, Or.inr (Or.inl rfl)⟩)
          (h3 _ ⟨j, hj, hc, Or.inr (Or.inr rfl)⟩)
      · obtain ⟨l1, l2⟩ := hS i p (by omega) hp hs
        exact ⟨le_trans h1 l1, le_trans l2 h2⟩
    · rcases h4 with h4 | h4
      · simp only
        rw [h4]
        rcases hN with hN | hN
        · exact Or.inl hN
        · exact Or.inr (hN.mono (by omega))
      · exact Or.inr (vertZ_good hst h4 (by omega))
    · rcases h5 with h5 | h5
      · simp only
        rw [h5]
        rcases hF with hF | hF
        · exact Or.inl hF
        · exact Or.inr (hF.mono (by omega))
      · exact Or.inr (vertZ_good hst h5 (by omega))
    · intro i s z hi hs hz
      by_cases him : i = m
      · subst him
        unfold clippedAt at hs
        rw [hacc] at hs
        simp only [Option.some_bind] at hs
        rw [hst] at hs
        simp only [Option.some.injEq] at hs
        subst hs
        exact h3 z hz
      · obtain ⟨l1, l2⟩ := hV i s z (by omega) hs hz
        exact ⟨le_trans h1 l1, le_trans l2 h2⟩

/-- Every run of the loop over the triangles reaches each of its iterations,
and the clipping of each triangle succeeds. -/
theorem clippedAt_isSome (b : BoundingBox K) (scene : Nat → float3 K)
    (uninit : Nat → Triangle K) (i : Nat) :
    ∃ acc st, foldTri b scene uninit i = some acc ∧
      clipPlanes b 4 (loadTriangle scene acc.1 i) = some st ∧
      clippedAt b scene uninit i = some st ∧ st.iTriangleCnt ≤ triangleListSize := by
  obtain ⟨acc, hacc, -⟩ := foldTri_spec b scene uninit i
  obtain ⟨st, nf, hst, hcnt, -⟩ := processAABBTri_spec b scene acc i
  exact ⟨acc, st, hacc, hst, by unfold clippedAt; rw [hacc]; exact hst, hcnt⟩

/-! ### The tessellation table -/

theorem triIndex_lt (n : Nat) : AABBTriIndexes.getD n 0 < 8 := by
  by_cases h : n < 36
  · interval_cases n <;> decide
  · rw [List.getD_eq_default _ _ (by simp [AABBTriIndexes]; omega)]
    omega

theorem triIndex_surj (j : Nat) (hj : j < 8) :
    ∃ i c, i < 12 ∧ c < 3 ∧ AABBTriIndexes.getD (i * 3 + c) 0 = j := by
  interval_cases j
  · exact ⟨0, 0, by omega, by omega, by decide⟩
  · exact ⟨0, 1, by omega, by omega, by decide⟩
  · exact ⟨0, 2, by omega, by omega, by decide⟩
  · exact ⟨1, 2, by omega, by omega, by decide⟩
  · exact ⟨2, 0, by omega, by omega, by decide⟩
  · exact ⟨2, 1, by omega, by omega, by decide⟩
  · exact ⟨2, 2, by omega, by omega, by decide⟩
  · exact ⟨3, 2, by omega, by omega, by decide⟩

/-- Every corner of the scene box is a point of some tessellation triangle. -/
theorem corner_onSceneTriangle (scene : Nat → float3 K) (j : Nat) (hj : j < 8) :
    ∃ i, i < 12 ∧ OnSceneTriangle scene i (scene j) := by
  obtain ⟨i, c, hi, hc, e⟩ := triIndex_surj j hj
  refine ⟨i, hi, ?_⟩
  unfold OnSceneTriangle
  interval_cases c
  · rw [e]; exact OnTriangle.corner0 _ _ _
  · rw [e]; exact OnTriangle.corner1 _ _ _
  · rw [e]; exact OnTriangle.corner2 _ _ _

/-- The corners of every tessellation triangle satisfy what all 8 scene points satisfy. -/
theorem loadTriangle_live_of_forall (scene : Nat → float3 K) (tl : Nat → Triangle K) (i : Nat)
    {Q : float3 K → Prop} (hQ : ∀ j, j < 8 → Q (scene j)) : Live Q (loadTriangle scene tl i) := by
  intro j hj _
  have hj0 : j = 0 := by
    simp only [loadTriangle] at hj
    omega
  subst hj0
  simp only [loadTriangle, Function.update_same, TriAll]
  exact ⟨hQ _ (triIndex_lt _), hQ _ (triIndex_lt _), hQ _ (triIndex_lt _)⟩

/-- Z range of the points of a tessellation triangle. -/
theorem OnSceneTriangle.z_range {scene : Nat → float3 K} {i : Nat} {p : float3 K}
    (hp : OnSceneTriangle scene i p) {lo hi : K}
    (h : ∀ j, j < 8 → lo ≤ (scene j).z ∧ (scene j).z ≤ hi) : lo ≤ p.z ∧ p.z ≤ hi :=
  OnTriangle.z_bounds hp (h _ (triIndex_lt _)) (h _ (triIndex_lt _)) (h _ (triIndex_lt _))

/-- A point of a triangle that is not above any corner in Z has the Z of a corner. -/
theorem OnTriangle.z_eq_of_le {a b c p : float3 K} (hp : OnTriangle a b c p)
    (ha : p.z ≤ a.z) (hb : p.z ≤ b.z) (hc : p.z ≤ c.z) :
    p.z = a.z ∨ p.z = b.z ∨ p.z = c.z := by
  obtain ⟨α, β, γ, h0, h1, h2, hs, -, -, hz⟩ := hp
  by_contra hne
  push_neg at hne
  obtain ⟨na, nb, nc⟩ := hne
  have la : 0 < a.z - p.z := sub_pos.2 (lt_of_le_of_ne ha na)
  have lb : 0 < b.z - p.z := sub_pos.2 (lt_of_le_of_ne hb nb)
  have lc : 0 < c.z - p.z := sub_pos.2 (lt_of_le_of_ne hc nc)
  have e : α * (a.z - p.z) + β * (b.z - p.z) + γ * (c.z - p.z) = 0 := by
    have : α * (a.z - p.z) + β * (b.z - p.z) + γ * (c.z - p.z) =
        α * a.z + β * b.z + γ * c.z - (α + β + γ) * p.z := by ring
    rw [this, hs, ← hz]
    ring
  have t1 := mul_nonneg h0 la.le
  have t2 := mul_nonneg h1 lb.le
  have t3 := mul_nonneg h2 lc.le
  have z1 : α * (a.z - p.z) = 0 := by linarith
  have z2 : β * (b.z - p.z) = 0 := by linarith
  have z3 : γ * (c.z - p.z) = 0 := by linarith
  have a0 : α = 0 := (mul_eq_zero.1 z1).resolve_right (ne_of_gt la)
  have b0 : β = 0 := (mul_eq_zero.1 z2).resolve_right (ne_of_gt lb)
  have c0 : γ = 0 := (mul_eq_zero.1 z3).resolve_right (ne_of_gt lc)
  rw [a0, b0, c0] at hs
  norm_num at hs

/-- A point of a triangle that is not below any corner in Z has the Z of a corner. -/
theorem OnTriangle.z_eq_of_ge {a b c p : float3 K} (hp : OnTriangle a b c p)
    (ha : a.z ≤ p.z) (hb : b.z ≤ p.z) (hc : c.z ≤ p.z) :
    p.z = a.z ∨ p.z = b.z ∨ p.z = c.z := by
  obtain ⟨α, β, γ, h0, h1, h2, hs, -, -, hz⟩ := hp
  by_contra hne
  push_neg at hne
  obtain ⟨na, nb, nc⟩ := hne
  have la : 0 < p.z - a.z := sub_pos.2 (lt_of_le_of_ne ha (Ne.symm na))
  have lb : 0 < p.z - b.z := sub_pos.2 (lt_of_le_of_ne hb (Ne.symm nb))
  have lc : 0 < p.z - c.z := sub_pos.2 (lt_of_le_of_ne hc (Ne.symm nc))
  have e : α * (p.z - a.z) + β * (p.z - b.z) + γ * (p.z - c.z) = 0 := by
    have : α * (p.z - a.z) + β * (p.z - b.z) + γ * (p.z - c.z) =
        (α + β + γ) * p.z - (α * a.z + β * b.z + γ * c.z) := by ring
    rw [this, hs, ← hz]
    ring
  have t1 := mul_nonneg h0 la.le
  have t2 := mul_nonneg h1 lb.le
  have t3 := mul_nonneg h2 lc.le
  have z1 : α * (p.z - a.z) = 0 := by linarith
  have z2 : β * (p.z - b.z) = 0 := by linarith
  have z3 : γ * (p.z - c.z) = 0 := by linarith
  have a0 : α = 0 := (mul_eq_zero.1 z1).resolve_right (ne_of_gt la)
  have b0 : β = 0 := (mul_eq_zero.1 z2).resolve_right (ne_of_gt lb)
  have c0 : γ = 0 := (mul_eq_zero.1 z3).resolve_right (ne_of_gt lc)
  rw [a0, b0, c0] at hs
  norm_num at hs

/-- With every scene point outside plane `k`, each iteration ends with all
entries culled and the near/far pair stays at the initial sentinels. -/
theorem foldTri_excluded (b : BoundingBox K) (scene : Nat → float3 K)
    (uninit : Nat → Triangle K) {k : Nat} (hk : k < 4)
    (hex : ∀ j, j < 8 → ¬ PlanePass b k (scene j)) :
    ∀ m, (∃ acc, foldTri b scene uninit m = some acc ∧ acc.2 = ((FLT_MAX : K), -(FLT_MAX : K))) ∧
      ∀ i, i < m → ∃ st, clippedAt b scene uninit i = some st ∧
        ∀ j, j < st.iTriangleCnt → (st.triangleList j).culled = true := by
  intro m
  induction m with
  | zero => exact ⟨⟨_, foldTri_zero b scene uninit, rfl⟩, fun i hi => by omega⟩
  | succ m ih =>
    obtain ⟨⟨acc, hacc, hnf⟩, hprev⟩ := ih
    obtain ⟨st, nf, hst, hcnt, hproc, -⟩ := processAABBTri_spec b scene acc m
    have hcull := clipPlanes_all_fail 4 hst hk (loadTriangle_live_of_forall scene acc.1 m hex)
    have hnf2 := accumTriangles_culled st acc.2 hcnt hcull
    have hproc2 : processAABBTri b scene acc m = some (st.triangleList, acc.2) := by
      unfold processAABBTri
      rw [hst]
      simp only
      rw [hnf2]
    refine ⟨⟨(st.triangleList, acc.2), by rw [foldTri_succ, hacc]; exact hproc2, hnf⟩, ?_⟩
    intro i hi
    by_cases him : i = m
    · subst him
      exact ⟨st, by unfold clippedAt; rw [hacc]; exact hst, hcull⟩
    · exact hprev i (by omega)

/-! ### Split depths -/

theorem splitLoop_foldl (powf : K → K → K) (n f l : K) (N : Nat) :
    ∀ (cnt start : Nat) (s : Nat → K) (i : Nat),
      ((List.range' start cnt).foldl (splitLoopBody powf n f l N) s) i =
        if start ≤ i ∧ i < start + cnt then splitBlend powf n f l N i else s i := by
  intro cnt
  induction cnt with
  | zero =>
    intro start s i
    simp only [List.range'_zero, List.foldl_nil, add_zero]
    rw [if_neg (by omega)]
  | succ c ih =>
    intro start s i
    rw [List.range'_succ, List.foldl_cons, ih]
    by_cases h1 : start + 1 ≤ i ∧ i < start + 1 + c
    · rw [if_pos h1, if_pos (by omega)]
    · rw [if_neg h1]
      by_cases h2 : i = start
      · subst h2
        rw [if_pos (by omega)]
        simp [splitLoopBody, splitBlend]
      · rw [if_neg (by omega)]
        simp [splitLoopBody, Function.update_noteq h2]

/-- Closed form of the array after step 1. -/
theorem computeSplitPlanes_apply (powf : K → K → K) (n f l : K) (N : Nat) (s : Nat → K)
    (i : Nat) :
    computeSplitPlanes powf n f l N s i =
      if i = max 1 N then f
      else if 1 ≤ i ∧ i < N then splitBlend powf n f l N i
      else if i = 0 then n else s i := by
  unfold computeSplitPlanes
  by_cases h1 : i = max 1 N
  · rw [if_pos h1, h1, Function.update_same]
  · rw [if_neg h1, Function.update_noteq h1, splitLoop_foldl]
    by_cases h2 : 1 ≤ i ∧ i < N
    · rw [if_pos h2, if_pos (by omega)]
    · rw [if_neg h2, if_neg (by omega)]
      by_cases h3 : i = 0
      · rw [if_pos h3, h3, Function.update_same]
      · rw [if_neg h3, Function.update_noteq h3]

/-! ### The render paths -/

theorem split_append {α : Type} {l1 l2 pre post : List α} {e : α}
    (h : l1 ++ l2 = pre ++ e :: post) :
    (∃ post1, l1 = pre ++ e :: post1) ∨ (∃ pre2, pre = l1 ++ pre2 ∧ l2 = pre2 ++ e :: post) := by
  rcases List.append_eq_append_iff.1 h with ⟨a, ha, hb⟩ | ⟨c, hc, hd⟩
  · exact Or.inr ⟨a, ha, hb⟩
  · rcases c with _ | ⟨c0, c⟩
    · right
      simp only [List.append_nil] at hc
      simp only [List.nil_append] at hd
      exact ⟨[], by simp [hc], by simp [hd]⟩
    · left
      simp only [List.cons_append, List.cons.injEq] at hd
      exact ⟨c, by rw [hc, hd.1]⟩

theorem ClearGuarded.append_clear {l1 l2 : List (RenderEvent K)} (h1 : ClearGuarded l1)
    (h2 : ClearGuarded l2) : ClearGuarded (l1 ++ l2) := by
  intro pre post e h he
  rcases split_append h with ⟨post1, h⟩ | ⟨pre2, hp, h⟩
  · exact h1 pre post1 e h he
  · obtain ⟨c, hc, hcc⟩ := h2 pre2 post e h he
    exact ⟨c, by rw [hp]; exact List.mem_append_right _ hc, hcc⟩

theorem ClearGuarded.of_no_volume {l : List (RenderEvent K)}
    (h : ∀ e ∈ l, e.isLightVolumeDraw = false) : ClearGuarded l := by
  intro pre post e hl he
  have := h e (by rw [hl]; simp)
  rw [this] at he
  cases he

theorem ClearGuarded.cons_clear (l : List (RenderEvent K)) :
    ClearGuarded (RenderEvent.ClearStencil :: l) := by
  intro pre post e h he
  rcases pre with _ | ⟨p, pre⟩
  · simp only [List.nil_append, List.cons.injEq] at h
    rw [← h.1] at he
    cases he
  · simp only [List.cons_append, List.cons.injEq] at h
    exact ⟨p, List.mem_cons_self _ _, by rw [← h.1]; rfl⟩

theorem DrawDirectionalLightShape_no_volume (light : Light K) :
    ∀ e ∈ DeferredPath.DrawDirectionalLightShape light, e.isLightVolumeDraw = false := by
  intro e he
  unfold DeferredPath.DrawDirectionalLightShape at he
  split_ifs at he
  · simp at he
    rcases he with rfl | rfl | rfl | rfl <;> rfl
  · simp at he
    rcases he with rfl | rfl | rfl <;> rfl

theorem DrawDirectionalLightShape_no_clear (light : Light K) :
    (DeferredPath.DrawDirectionalLightShape light).countP RenderEvent.isClearStencil = 0 := by
  unfold DeferredPath.DrawDirectionalLightShape
  split_ifs <;> rfl

theorem DrawSpotLightShape_no_clear (b : Bool) (light : Light K) :
    (DeferredPath.DrawSpotLightShape b light).countP RenderEvent.isClearStencil = 0 := by
  unfold DeferredPath.DrawSpotLightShape
  split_ifs <;> rfl

theorem DrawPointLightShape_no_clear (light : Light K) :
    (DeferredPath.DrawPointLightShape light).countP RenderEvent.isClearStencil = 0 := rfl

theorem lightLoop_clear_count (b : Bool) (lights : List (Light K)) (flag : Bool) :
    (DeferredPath.lightLoop b flag lights).countP RenderEvent.isClearStencil =
      if flag = false ∧ ∃ l ∈ lights, l.LightType ≠ LightType.LT_DirectionalLight then 1
      else 0 := by
  induction lights generalizing flag with
  | nil => simp [DeferredPath.lightLoop]
  | cons light rest ih =>
    by_cases hd : light.LightType = LightType.LT_DirectionalLight
    · rw [DeferredPath.lightLoop, if_pos hd, List.countP_append,
        DrawDirectionalLightShape_no_clear, ih flag]
      simp [hd]
    · rw [DeferredPath.lightLoop, if_neg hd, List.countP_append, List.countP_append, ih true]
      have hdraw : List.countP RenderEvent.isClearStencil
          (if light.LightType = LightType.LT_SpotLight then
            DeferredPath.DrawSpotLightShape b light
          else if light.LightType = LightType.LT_PointLight then
            DeferredPath.DrawPointLightShape light
          else []) = 0 := by
        split_ifs
        · exact DrawSpotLightShape_no_clear b light
        · exact DrawPointLightShape_no_clear light
        · rfl
      rw [hdraw]
      cases flag <;> simp [hd, RenderEvent.isClearStencil]

theorem lightLoop_guarded (b : Bool) (lights : List (Light K)) :
    ClearGuarded (DeferredPath.lightLoop b false lights) := by
  induction lights with
  | nil => exact ClearGuarded.of_no_volume (by simp [DeferredPath.lightLoop])
  | cons light rest ih =>
    by_cases hd : light.LightType = LightType.LT_DirectionalLight
    · rw [DeferredPath.lightLoop, if_pos hd]
      exact (ClearGuarded.of_no_volume (DrawDirectionalLightShape_no_volume light)).append_clear ih
    · rw [DeferredPath.lightLoop, if_neg hd]
      simp only [Bool.not_false, if_true, List.singleton_append, List.cons_append,
        List.nil_append]
      exact ClearGuarded.cons_clear _

theorem ShadowOffGuarded.append_off {l1 l2 : List (RenderEvent K)} (h1 : ShadowOffGuarded l1)
    (h2 : ShadowOffGuarded l2) : ShadowOffGuarded (l1 ++ l2) := by
  intro pre post item h
  rcases split_append h with ⟨post1, h⟩ | ⟨pre2, hp, h⟩
  · exact h1 pre post1 item h
  · rw [hp]
    exact List.mem_append_right _ (h2 pre2 post item h)

theorem ShadowOffGuarded.of_no_render {l : List (RenderEvent K)}
    (h : ∀ e ∈ l, e.isRender = false) : ShadowOffGuarded l := by
  intro pre post item hl
  have := h (RenderEvent.Render item) (by rw [hl]; simp)
  cases this

theorem ShadowOffGuarded.flatten {ls : List (List (RenderEvent K))}
    (h : ∀ l ∈ ls, ShadowOffGuarded l) : ShadowOffGuarded ls.flatten := by
  induction ls with
  | nil => exact ShadowOffGuarded.of_no_render (by simp)
  | cons l ls ih =>
    rw [List.flatten_cons]
    exact (h l (List.mem_cons_self _ _)).append_off
      (ih (fun l1 hl1 => h l1 (List.mem_cons_of_mem _ hl1)))

theorem renderItem_off (light : Light K) (item : Nat) (hoff : light.CastShadow = false) :
    ForwardPath.renderItem light item =
      [RenderEvent.SetCurrentTechnique item Technique.DirectionalLighting,
       RenderEvent.SetValue item EffectParam.Light_Color,
       RenderEvent.SetValue item EffectParam.Light_Dir,
       RenderEvent.SetShadowEnabled item false,
       RenderEvent.Render item] := by
  simp [ForwardPath.renderItem, hoff]

theorem renderItem_guarded (light : Light K) (item : Nat) (hoff : light.CastShadow = false) :
    ShadowOffGuarded (ForwardPath.renderItem light item) := by
  rw [renderItem_off light item hoff]
  intro pre post item1 h
  rcases pre with _ | ⟨p1, _ | ⟨p2, _ | ⟨p3, _ | ⟨p4, _ | ⟨p5, pre⟩⟩⟩⟩⟩ <;>
    simp at h
  obtain ⟨-, -, -, h4, h5, -⟩ := h
  rw [← h4, h5]
  simp

theorem renderItem_quiet (light : Light K) (item : Nat) (hoff : light.CastShadow = false) :
    ∀ e ∈ ForwardPath.renderItem light item,
      e.isShadowRendererCall = false ∧ e.isShadowBinding = false ∧
        e.shadowEnabledValue ≠ some true := by
  rw [renderItem_off light item hoff]
  intro e he
  simp at he
  rcases he with rfl | rfl | rfl | rfl | rfl <;>
    simp [RenderEvent.isShadowRendererCall, RenderEvent.isShadowBinding,
      RenderEvent.shadowEnabledValue, EffectParam.isShadowParam]

theorem renderLight_off (items : List Nat) (light : Light K)
    (hoff : light.CastShadow = false) :
    ForwardPath.renderLight items light =
      if light.LightType = LightType.LT_DirectionalLight then
        (items.map (ForwardPath.renderItem light)).flatten
      else [] := by
  simp [ForwardPath.renderLight, hoff]

theorem renderLight_guarded (items : List Nat) (light : Light K)
    (hoff : light.CastShadow = false) :
    ShadowOffGuarded (ForwardPath.renderLight items light) := by
  rw [renderLight_off items light hoff]
  by_cases hd : light.LightType = LightType.LT_DirectionalLight
  · rw [if_pos hd]
    apply ShadowOffGuarded.flatten
    intro l hl
    obtain ⟨item, -, rfl⟩ := List.mem_map.1 hl
    exact renderItem_guarded light item hoff
  · rw [if_neg hd]
    exact ShadowOffGuarded.of_no_render (by simp)

theorem renderLight_quiet (items : List Nat) (light : Light K)
    (hoff : light.CastShadow = false) :
    ∀ e ∈ ForwardPath.renderLight items light,
      e.isShadowRendererCall = false ∧ e.isShadowBinding = false ∧
        e.shadowEnabledValue ≠ some true := by
  intro e he
  rw [renderLight_off items light hoff] at he
  by_cases hd : light.LightType = LightType.LT_DirectionalLight
  · rw [if_pos hd] at he
    obtain ⟨l, hl, hel⟩ := List.mem_flatten.1 he
    obtain ⟨item, -, rfl⟩ := List.mem_map.1 hl
    exact renderItem_quiet light item hoff e hel
  · rw [if_neg hd] at he
    cases he

theorem DrawDirectionalLightShape_quiet (light : Light K) (hoff : light.CastShadow = false) :
    ∀ e ∈ DeferredPath.DrawDirectionalLightShape light,
      e.isShadowRendererCall = false ∧ e.isShadowBinding = false ∧
        e.shadowEnabledValue = none := by
  simp [DeferredPath.DrawDirectionalLightShape, hoff, RenderEvent.isShadowRendererCall,
    RenderEvent.isShadowBinding, RenderEvent.shadowEnabledValue, EffectParam.isShadowParam]

theorem DrawSpotLightShape_quiet (b : Bool) (light : Light K)
    (hoff : light.CastShadow = false) :
    ∀ e ∈ DeferredPath.DrawSpotLightShape b light,
      e.isShadowRendererCall = false ∧ e.isShadowBinding = false ∧
        e.shadowEnabledValue = none := by
  cases b <;>
  simp [DeferredPath.DrawSpotLightShape, hoff, RenderEvent.isShadowRendererCall,
    RenderEvent.isShadowBinding, RenderEvent.shadowEnabledValue, EffectParam.isShadowParam]

theorem DrawPointLightShape_quiet (light : Light K) :
    ∀ e ∈ DeferredPath.DrawPointLightShape light,
      e.isShadowRendererCall = false ∧ e.isShadowBinding = false ∧
        e.shadowEnabledValue = none := by
  simp [DeferredPath.DrawPointLightShape, RenderEvent.isShadowRendererCall,
    RenderEvent.isShadowBinding, RenderEvent.shadowEnabledValue, EffectParam.isShadowParam]

theorem lightLoop_quiet (b : Bool) (lights : List (Light K)) (flag : Bool)
    (hoff : ∀ l ∈ lights, l.CastShadow = false) :
    ∀ e ∈ DeferredPath.lightLoop b flag lights,
      e.isShadowRendererCall = false ∧ e.isShadowBinding = false ∧
        e.shadowEnabledValue = none := by
  induction lights generalizing flag with
  | nil => simp [DeferredPath.lightLoop]
  | cons light rest ih =>
    have hl : light.CastShadow = false := hoff light (List.mem_cons_self _ _)
    have hrest : ∀ l ∈ rest, l.CastShadow = false :=
      fun l h => hoff l (List.mem_cons_of_mem _ h)
    intro e he
    by_cases hd : light.LightType = LightType.LT_DirectionalLight
    · rw [DeferredPath.lightLoop, if_pos hd] at he
      rcases List.mem_append.1 he with he | he
      · exact DrawDirectionalLightShape_quiet light hl e he
      · exact ih _ hrest e he
    · rw [DeferredPath.lightLoop, if_neg hd] at he
      rcases List.mem_append.1 he with he | he
      · rcases List.mem_append.1 he with he | he
        · cases flag
          · simp only [Bool.not_false, if_true, List.mem_singleton] at he
            rw [he]
            exact ⟨rfl, rfl, rfl⟩
          · simp at he
        · by_cases hs : light.LightType = LightType.LT_SpotLight
          · rw [if_pos hs] at he
            exact DrawSpotLightShape_quiet b light hl e he
          · rw [if_neg hs] at he
            by_cases hp : light.LightType = LightType.LT_PointLight
            · rw [if_pos hp] at he
              exact DrawPointLightShape_quiet light e he
            · rw [if_neg hp] at he
              cases he
      · exact ih _ hrest e he

theorem countP_flatten_const {α β : Type} (p : α → Bool) (f : β → List α) (c : Nat)
    (items : List β) (h : ∀ item ∈ items, (f item).countP p = c) :
    ((items.map f).flatten).countP p = items.length * c := by
  induction items with
  | nil => simp
  | cons item rest ih =>
    rw [List.map_cons, List.flatten_cons, List.countP_append, h item (List.mem_cons_self _ _),
      ih (fun i hi => h i (List.mem_cons_of_mem _ hi)), List.length_cons]
    ring

theorem renderItem_count_render (light : Light K) (item : Nat) :
    (ForwardPath.renderItem light item).countP RenderEvent.isRender = 1 := by
  unfold ForwardPath.renderItem
  split_ifs <;> rfl

theorem renderItem_count_color (light : Light K) (item : Nat) :
    (ForwardPath.renderItem light item).countP RenderEvent.isLightColorBinding = 1 := by
  unfold ForwardPath.renderItem
  split_ifs <;> rfl

theorem renderItem_count_renderOf (light : Light K) (item n : Nat) :
    (ForwardPath.renderItem light item).countP (RenderEvent.isRenderOf n) =
      if item = n then 1 else 0 := by
  unfold ForwardPath.renderItem
  by_cases h : item = n <;> split_ifs <;>
    simp [List.countP_cons, RenderEvent.isRenderOf, h]

theorem renderItems_count_renderOf (light : Light K) (items : List Nat) (n : Nat) :
    ((items.map (ForwardPath.renderItem light)).flatten).countP (RenderEvent.isRenderOf n) =
      items.count n := by
  induction items with
  | nil => simp
  | cons item rest ih =>
    rw [List.map_cons, List.flatten_cons, List.countP_append, ih, renderItem_count_renderOf,
      List.count_cons]
    by_cases h : item = n
    · simp [h]
      omega
    · simp [h]

theorem renderLight_count (p : RenderEvent K → Bool) (c : Nat) (items : List Nat)
    (light : Light K)
    (hshadow : p (RenderEvent.MakeCascadedShadowMap light) = false)
    (hitems : ((items.map (ForwardPath.renderItem light)).flatten).countP p = c) :
    (ForwardPath.renderLight items light).countP p = if light.isDirectional then c else 0 := by
  unfold ForwardPath.renderLight Light.isDirectional
  by_cases hd : light.LightType = LightType.LT_DirectionalLight
  · rw [if_pos hd, List.countP_append, hitems]
    cases light.CastShadow <;> simp [hd, List.countP_cons, hshadow]
  · rw [if_neg hd]
    simp [hd]

theorem renderLights_count (p : RenderEvent K → Bool) (c : Nat) (items : List Nat)
    (lights : List (Light K))
    (hshadow : ∀ light, p (RenderEvent.MakeCascadedShadowMap light) = false)
    (hitems : ∀ light : Light K,
      ((items.map (ForwardPath.renderItem light)).flatten).countP p = c) :
    ((lights.map (ForwardPath.renderLight items)).flatten).countP p =
      lights.countP Light.isDirectional * c := by
  induction lights with
  | nil => simp
  | cons light rest ih =>
    rw [List.map_cons, List.flatten_cons, List.countP_append, ih,
      renderLight_count p c items light (hshadow light) (hitems light), List.countP_cons]
    cases light.isDirectional
    · simp
    · simp
      ring

theorem RenderScene_count (p : RenderEvent K → Bool) (c : Nat) (bkg items : List Nat)
    (lights : List (Light K))
    (hbind : p (RenderEvent.BindFrameBuffer FrameBufferId.screenFB) = false)
    (hclear : p (RenderEvent.Clear FrameBufferId.screenFB) = false)
    (hbkg : ∀ item, p (RenderEvent.RenderBackground item) = false)
    (hshadow : ∀ light, p (RenderEvent.MakeCascadedShadowMap light) = false)
    (hitems : ∀ light : Light K,
      ((items.map (ForwardPath.renderItem light)).flatten).countP p = c) :
    (ForwardPath.RenderScene bkg lights items).countP p =
      lights.countP Light.isDirectional * c := by
  unfold ForwardPath.RenderScene
  rw [List.countP_append, List.countP_append, renderLights_count p c items lights hshadow hitems]
  have h1 : List.countP p [RenderEvent.BindFrameBuffer FrameBufferId.screenFB,
      RenderEvent.Clear FrameBufferId.screenFB] = 0 := by
    simp [List.countP_cons, hbind, hclear]
  have h2 : List.countP p (bkg.map RenderEvent.RenderBackground) = 0 := by
    rw [List.countP_eq_zero]
    intro e he
    obtain ⟨item, -, rfl⟩ := List.mem_map.1 he
    simp [hbkg item]
  rw [h1, h2]
  simp

theorem fillLoop_replicate (light : Light K)
    (hpoint : light.LightType = LightType.LT_PointLight) (m : Nat) :
    ∀ (pLights : Nat → PointLight K) (n : Nat), n + m < 2 ^ 32 →
      (TiledDeferredPath.fillLoop (List.replicate m light) pLights n).2 = n + m ∧
      (∀ i, n ≤ i → i < n + m →
        (TiledDeferredPath.fillLoop (List.replicate m light) pLights n).1 i =
          ⟨float3.smul light.LightIntensity light.LightColor, light.Position, light.Range,
            light.Attenuation⟩) ∧
      (∀ i, i < n → (TiledDeferredPath.fillLoop (List.replicate m light) pLights n).1 i =
        pLights i) := by
  induction m with
  | zero =>
    intro pLights n _
    refine ⟨rfl, fun i h1 h2 => ?_, fun i _ => rfl⟩
    omega
  | succ m ih =>
    intro pLights n hn
    have hmod : (n + 1) % 2 ^ 32 = n + 1 := Nat.mod_eq_of_lt (by omega)
    rw [List.replicate_succ, TiledDeferredPath.fillLoop, if_pos hpoint, hmod]
    obtain ⟨h1, h2, h3⟩ := ih (Function.update pLights n
      ⟨float3.smul light.LightIntensity light.LightColor, light.Position, light.Range,
        light.Attenuation⟩) (n + 1) (by omega)
    refine ⟨by rw [h1]; omega, fun i hi1 hi2 => ?_, fun i hi => ?_⟩
    · by_cases hin : i = n
      · rw [h3 i (by omega), hin, Function.update_same]
      · exact h2 i (by omega) (by omega)
    · rw [h3 i (by omega), Function.update_noteq (by omega)]

/-! ### The shadow manager -/

theorem UpdateShadowMapStorage_dir (csm : CascadedShadowMap K) (light : Light K)
    (hdir : light.LightType = LightType.LT_DirectionalLight) :
    (csm.mShadowTexture = some light.ShadowCascades →
      (csm.UpdateShadowMapStorage light).1.mShadowTexture = some light.ShadowCascades ∧
      (csm.UpdateShadowMapStorage light).1.mShadowSplitsRTV = csm.mShadowSplitsRTV ∧
      (csm.UpdateShadowMapStorage light).2.countP FactoryCall.isArrayTextureCreate = 0) ∧
    (csm.mShadowTexture ≠ some light.ShadowCascades →
      (csm.UpdateShadowMapStorage light).1.mShadowTexture = some light.ShadowCascades ∧
      (csm.UpdateShadowMapStorage light).1.mShadowSplitsRTV =
        List.range light.ShadowCascades ∧
      (csm.UpdateShadowMapStorage light).2.countP FactoryCall.isArrayTextureCreate = 1 ∧
      FactoryCall.CreateTexture2D ShadowResource.mShadowTexture light.ShadowCascades ∈
        (csm.UpdateShadowMapStorage light).2) := by
  have hmap : ∀ n : Nat, List.countP FactoryCall.isArrayTextureCreate
      ((List.range n).map
        (FactoryCall.CreateRenderTargetView2D ShadowResource.mShadowTexture)) = 0 := by
    intro n
    rw [List.countP_eq_zero]
    intro e he
    obtain ⟨i, -, rfl⟩ := List.mem_map.1 he
    simp [FactoryCall.isArrayTextureCreate]
  constructor
  · intro h
    unfold CascadedShadowMap.UpdateShadowMapStorage
    cases hfb : csm.mShadowFrameBuffer <;>
      simp [hdir, h, hfb, List.countP_cons, FactoryCall.isArrayTextureCreate]
  · intro h
    unfold CascadedShadowMap.UpdateShadowMapStorage
    cases hfb : csm.mShadowFrameBuffer <;> cases ht : csm.mShadowTexture with
    | none => simp [hdir, ht, hfb, List.countP_cons, FactoryCall.isArrayTextureCreate, hmap]
    | some n =>
      have hn : n ≠ light.ShadowCascades := fun hEq => h (by rw [ht, hEq])
      simp [hdir, ht, hfb, hn, List.countP_cons, FactoryCall.isArrayTextureCreate, hmap]

theorem storageCalls_count (light : Light K)
    (hdir : light.LightType = LightType.LT_DirectionalLight) (k : Nat) :
    ∀ csm : CascadedShadowMap K,
      (csm.mShadowTexture = some light.ShadowCascades →
        (storageCalls light k csm).2.countP FactoryCall.isArrayTextureCreate = 0) ∧
      (csm.mShadowTexture ≠ some light.ShadowCascades → 0 < k →
        (storageCalls light k csm).2.countP FactoryCall.isArrayTextureCreate = 1) := by
  induction k with
  | zero =>
    intro csm
    exact ⟨fun _ => rfl, fun _ h => absurd h (by omega)⟩
  | succ k ih =>
    intro csm
    obtain ⟨hsame, hdiff⟩ := UpdateShadowMapStorage_dir csm light hdir
    constructor
    · intro h
      obtain ⟨h1, -, h3⟩ := hsame h
      rw [storageCalls, List.countP_append, h3, (ih _).1 h1]
    · intro h _
      obtain ⟨h1, -, h3, -⟩ := hdiff h
      rw [storageCalls, List.countP_append, h3, (ih _).1 h1]

theorem foldlM_range_inv {σ : Type} (f : σ → Nat → Option σ) (P : Nat → σ → Prop) (n : Nat)
    (s0 : σ) (h0 : P 0 s0)
    (hstep : ∀ k s, k < n → P k s → ∃ s1, f s k = some s1 ∧ P (k + 1) s1) :
    ∃ s, (List.range n).foldlM f s0 = some s ∧ P n s := by
  suffices h : ∀ m, m ≤ n → ∃ s, (List.range m).foldlM f s0 = some s ∧ P m s from h n le_rfl
  intro m
  induction m with
  | zero =>
    intro _
    exact ⟨s0, rfl, h0⟩
  | succ m ih =>
    intro hm
    obtain ⟨s, hs, hP⟩ := ih (by omega)
    obtain ⟨s1, hf, hP1⟩ := hstep m s (by omega) hP
    refine ⟨s1, ?_, hP1⟩
    rw [List.range_succ, List.foldlM_append, hs]
    simp [hf]

theorem lookAtLoop_spec (lookAt : float3 K → float3 K → float3 K → float4x4 K)
    (dir up : float3 K) (cams0 : List (Camera K)) (n : Nat) (hn : n ≤ cams0.length) :
    ∃ cams, (List.range n).foldlM (lookAtStep lookAt dir up) cams0 = some cams ∧
      cams.length = cams0.length ∧
      (∀ i, n ≤ i → cams[i]? = cams0[i]?) ∧
      (∀ i, i < n →
        cams[i]? = (cams0[i]?).map (fun c => c.CreateLookAt lookAt ⟨0, 0, 0⟩ dir up)) := by
  apply foldlM_range_inv (lookAtStep lookAt dir up)
    (fun k cams => cams.length = cams0.length ∧
      (∀ i, k ≤ i → cams[i]? = cams0[i]?) ∧
      (∀ i, i < k →
        cams[i]? = (cams0[i]?).map (fun c => c.CreateLookAt lookAt ⟨0, 0, 0⟩ dir up)))
  · exact ⟨rfl, fun i _ => rfl, fun i hi => absurd hi (by omega)⟩
  · rintro k cams hk ⟨hlen, hge, hlt⟩
    have hk1 : k < cams.length := by omega
    have hget : cams[k]? = some cams[k] := List.getElem?_eq_getElem hk1
    refine ⟨_, by rw [lookAtStep, hget], by rw [List.length_set, hlen], fun i hi => ?_,
      fun i hi => ?_⟩
    · rw [List.getElem?_set_ne (by omega)]
      exact hge i (by omega)
    · by_cases hik : i = k
      · subst hik
        rw [List.getElem?_set_self hk1, ← hge i le_rfl, hget]
        rfl
      · rw [List.getElem?_set_ne (fun h => hik h.symm)]
        exact hlt i (by omega)

theorem CalculateLightNearFar_isSome (b : BoundingBox K) (scene : Nat → float3 K)
    (uninit : Nat → Triangle K) : ∃ r, CalculateLightNearFar b scene uninit = some r := by
  obtain ⟨acc, hacc, -⟩ := foldTri_spec b scene uninit 12
  exact ⟨_, by rw [CalculateLightNearFar_eq, hacc]; rfl⟩

theorem mergeCorners_isSome (near far : Nat → float3 K) :
    ∃ b, mergeCorners near far = some b := by
  simp [mergeCorners, List.range_succ, BoundingBox.Merge]

theorem CalculateLightNearFar_ne_none (b : BoundingBox K) (scene : Nat → float3 K)
    (uninit : Nat → Triangle K) : CalculateLightNearFar b scene uninit ≠ none := by
  obtain ⟨r, hr⟩ := CalculateLightNearFar_isSome b scene uninit
  rw [hr]
  exact Option.some_ne_none r

theorem mergeCorners_ne_none (near far : Nat → float3 K) : mergeCorners near far ≠ none := by
  obtain ⟨r, hr⟩ := mergeCorners_isSome near far
  rw [hr]
  exact Option.some_ne_none r

theorem cascadeStep_isSome [FloorRing K] (env : ShadowEnv K) (camera : Camera K)
    (scene : Nat → float3 K) (uninit : Nat → Nat → Triangle K) (s : CascadeLoopState K)
    (k : Nat) (h1 : k < s.csm.mLightCamera.length) (h2 : k < s.csm.mShadowCascadeScale.length)
    (h3 : k < s.csm.mShadowCascadeOffset.length) :
    cascadeStep env camera scene uninit s k ≠ none := by
  unfold cascadeStep
  simp only []
  split
  · rename_i h
    exact absurd h (mergeCorners_ne_none _ _)
  · split
    · rename_i h
      exact absurd h (CalculateLightNearFar_ne_none _ _ _)
    · rw [List.getElem?_eq_getElem h1]
      simp only [vectorSet, if_pos h2, if_pos h3]
      exact Option.some_ne_none _

theorem cascadeStep_some [FloorRing K] (env : ShadowEnv K) (camera : Camera K)
    (scene : Nat → float3 K) (uninit : Nat → Nat → Triangle K) (s s1 : CascadeLoopState K)
    (k : Nat) (h : cascadeStep env camera scene uninit s k = some s1) :
    ∃ (b : BoundingBox K) (cam : Camera K) (sc off : float4 K),
      k < s.csm.mShadowCascadeScale.length ∧ k < s.csm.mShadowCascadeOffset.length ∧
      s.csm.mLightCamera[k]? = some cam ∧
      s1.csm.mLightCamera = s.csm.mLightCamera.set k
        (cam.CreateOrthoOffCenter b.Min.x b.Max.x b.Min.y b.Max.y b.Min.z b.Max.z) ∧
      s1.csm.mShadowCascadeScale = s.csm.mShadowCascadeScale.set k sc ∧
      s1.csm.mShadowCascadeOffset = s.csm.mShadowCascadeOffset.set k off := by
  unfold cascadeStep at h
  simp only [] at h
  split at h
  · cases h
  · split at h
    · cases h
    · rename_i boundSplit _
      split at h
      · cases h
      · rename_i cam hcam
        by_cases h2 : k < s.csm.mShadowCascadeScale.length
        · by_cases h3 : k < s.csm.mShadowCascadeOffset.length
          · simp only [vectorSet, if_pos h2, if_pos h3, Option.some.injEq] at h
            subst h
            exact ⟨boundSplit, cam, _, _, h2, h3, hcam, rfl, rfl, rfl⟩
          · simp [vectorSet, h3] at h
        · simp [vectorSet, h2] at h

theorem cascadeLoop_spec [FloorRing K] (env : ShadowEnv K) (camera : Camera K)
    (scene : Nat → float3 K) (uninit : Nat → Nat → Triangle K) (s0 : CascadeLoopState K)
    (n : Nat) (h1 : n ≤ s0.csm.mLightCamera.length)
    (h2 : n ≤ s0.csm.mShadowCascadeScale.length)
    (h3 : n ≤ s0.csm.mShadowCascadeOffset.length) :
    ∃ s, (List.range n).foldlM (cascadeStep env camera scene uninit) s0 = some s ∧
      (s.csm.mLightCamera.length = s0.csm.mLightCamera.length ∧
        s.csm.mShadowCascadeScale.length = s0.csm.mShadowCascadeScale.length ∧
        s.csm.mShadowCascadeOffset.length = s0.csm.mShadowCascadeOffset.length) ∧
      (∀ i, n ≤ i → s.csm.mLightCamera[i]? = s0.csm.mLightCamera[i]? ∧
        s.csm.mShadowCascadeScale[i]? = s0.csm.mShadowCascadeScale[i]? ∧
        s.csm.mShadowCascadeOffset[i]? = s0.csm.mShadowCascadeOffset[i]?) ∧
      (∀ i, i < n → ∃ (b : BoundingBox K) (cam : Camera K),
        s0.csm.mLightCamera[i]? = some cam ∧
        s.csm.mLightCamera[i]? = some
          (cam.CreateOrthoOffCenter b.Min.x b.Max.x b.Min.y b.Max.y b.Min.z b.Max.z)) := by
  apply foldlM_range_inv (cascadeStep env camera scene uninit)
    (fun k s =>
      (s.csm.mLightCamera.length = s0.csm.mLightCamera.length ∧
        s.csm.mShadowCascadeScale.length = s0.csm.mShadowCascadeScale.length ∧
        s.csm.mShadowCascadeOffset.length = s0.csm.mShadowCascadeOffset.length) ∧
      (∀ i, k ≤ i → s.csm.mLightCamera[i]? = s0.csm.mLightCamera[i]? ∧
        s.csm.mShadowCascadeScale[i]? = s0.csm.mShadowCascadeScale[i]? ∧
        s.csm.mShadowCascadeOffset[i]? = s0.csm.mShadowCascadeOffset[i]?) ∧
      (∀ i, i < k → ∃ (b : BoundingBox K) (cam : Camera K),
        s0.csm.mLightCamera[i]? = some cam ∧
        s.csm.mLightCamera[i]? = some
          (cam.CreateOrthoOffCenter b.Min.x b.Max.x b.Min.y b.Max.y b.Min.z b.Max.z)))
  · exact ⟨⟨rfl, rfl, rfl⟩, fun i _ => ⟨rfl, rfl, rfl⟩, fun i hi => absurd hi (by omega)⟩
  · rintro k s hk ⟨⟨hl1, hl2, hl3⟩, hge, hlt⟩
    have hk1 : k < s.csm.mLightCamera.length := by omega
    obtain ⟨s1, hs1⟩ := Option.ne_none_iff_exists'.1
      (cascadeStep_isSome env camera scene uninit s k hk1 (by omega) (by omega))
    obtain ⟨b, cam, sc, off, -, -, hcam, hc, hsc, hoff⟩ :=
      cascadeStep_some env camera scene uninit s s1 k hs1
    refine ⟨s1, hs1, ⟨by rw [hc, List.length_set, hl1], by rw [hsc, List.length_set, hl2],
      by rw [hoff, List.length_set, hl3]⟩, fun i hi => ?_, fun i hi => ?_⟩
    · rw [hc, hsc, hoff, List.getElem?_set_ne (by omega), List.getElem?_set_ne (by omega),
        List.getElem?_set_ne (by omega)]
      exact hge i (by omega)
    · by_cases hik : i = k
      · subst hik
        refine ⟨b, cam, by rw [← (hge i le_rfl).1, hcam], ?_⟩
        rw [hc, List.getElem?_set_self hk1]
      · obtain ⟨b1, cam1, hc1, hc2⟩ := hlt i (by omega)
        exact ⟨b1, cam1, hc1, by rw [hc, List.getElem?_set_ne (fun h => hik h.symm), hc2]⟩

/-! ### One clip step, case by case -/

theorem clipTriangle_isSome_of_ne_two (k : Nat) (edge : K) (component : Nat)
    (st : ClipState K) (iTri : Nat) (h16 : iTri < triangleListSize)
    (hn : insideVertCount k edge component (st.triangleList iTri) ≠ 2) :
    ∃ r, clipTriangle k edge component st iTri = some r := by
  unfold insideVertCount at hn
  rw [clipTriangle, if_pos h16]
  simp only [if_neg hn]
  split_ifs <;> exact ⟨_, rfl⟩

theorem sortedTri_of_zero (k : Nat) (edge : K) (component : Nat) (t : Triangle K)
    (hn : insideVertCount k edge component t = 0) :
    (sortedTri k edge component t).pt0 = t.pt0 ∧ (sortedTri k edge component t).pt1 = t.pt1 ∧
      (sortedTri k edge component t).pt2 = t.pt2 := by
  unfold insideVertCount at hn
  have h0 : pointPassClip k edge component t.pt0 = 0 := by omega
  have h1 : pointPassClip k edge component t.pt1 = 0 := by omega
  have h2 : pointPassClip k edge component t.pt2 = 0 := by omega
  simp [sortedTri, sortedPts, swapNetwork, swap01, swap12, h0, h1, h2]

theorem sortedTri_of_three (k : Nat) (edge : K) (component : Nat) (t : Triangle K)
    (hn : insideVertCount k edge component t = 3) :
    (sortedTri k edge component t).pt0 = t.pt0 ∧ (sortedTri k edge component t).pt1 = t.pt1 ∧
      (sortedTri k edge component t).pt2 = t.pt2 := by
  have l0 := pointPassClip_le_one k edge component t.pt0
  have l1 := pointPassClip_le_one k edge component t.pt1
  have l2 := pointPassClip_le_one k edge component t.pt2
  unfold insideVertCount at hn
  have h0 : pointPassClip k edge component t.pt0 = 1 := by omega
  have h1 : pointPassClip k edge component t.pt1 = 1 := by omega
  have h2 : pointPassClip k edge component t.pt2 = 1 := by omega
  simp [sortedTri, sortedPts, swapNetwork, swap01, swap12, h0, h1, h2]

/-! ### The clipper reads only the X and Y bounds -/

theorem ClipPlaneEdge_z_indep (b : BoundingBox K) (z1 z2 : K) (k : Nat) :
    ClipPlaneEdge ⟨{ b.Min with z := z1 }, { b.Max with z := z2 }⟩ k = ClipPlaneEdge b k := by
  unfold ClipPlaneEdge
  split <;> rfl

theorem clipPlane_z_indep (b : BoundingBox K) (z1 z2 : K) :
    clipPlane (⟨{ b.Min with z := z1 }, { b.Max with z := z2 }⟩ : BoundingBox K) =
      clipPlane b := by
  funext st k
  simp only [clipPlane, ClipPlaneEdge_z_indep]

theorem processAABBTri_z_indep (b : BoundingBox K) (z1 z2 : K) (scene : Nat → float3 K) :
    processAABBTri (⟨{ b.Min with z := z1 }, { b.Max with z := z2 }⟩ : BoundingBox K) scene =
      processAABBTri b scene := by
  funext acc i
  simp only [processAABBTri, clipPlanes, clipPlane_z_indep]

theorem foldTri_z_indep (b : BoundingBox K) (z1 z2 : K) (scene : Nat → float3 K)
    (uninit : Nat → Triangle K) (m : Nat) :
    foldTri (⟨{ b.Min with z := z1 }, { b.Max with z := z2 }⟩ : BoundingBox K) scene uninit m =
      foldTri b scene uninit m := by
  simp only [foldTri, processAABBTri_z_indep]

/-! ### Padding and texel snapping -/

theorem snapCoord_bounds [FloorRing K] (v w : K) (hw : 0 < w) :
    snapCoord v w ≤ v ∧ v < snapCoord v w + w := by
  unfold snapCoord
  have h1 := Int.floor_le (v / w)
  have h2 := Int.lt_floor_add_one (v / w)
  constructor
  · calc ((⌊v / w⌋ : ℤ) : K) * w ≤ v / w * w := mul_le_mul_of_nonneg_right h1 hw.le
      _ = v := div_mul_cancel₀ v hw.ne'
  · calc v = v / w * w := (div_mul_cancel₀ v hw.ne').symm
      _ < (((⌊v / w⌋ : ℤ) : K) + 1) * w := mul_lt_mul_of_pos_right h2 hw
      _ = ((⌊v / w⌋ : ℤ) : K) * w + w := by ring

theorem snapCoord_add_nat [FloorRing K] (v w : K) (n : Nat) (hw : w ≠ 0) :
    snapCoord (v + (n : K) * w) w = snapCoord v w + (n : K) * w := by
  unfold snapCoord
  have h : (v + (n : K) * w) / w = v / w + (n : K) := by
    field_simp
  rw [h, Int.floor_add_nat]
  push_cast
  ring

/-- The snap of a box whose extent is `S` texels: both bounds of an axis move
down by the same amount `d` with `0 ≤ d < w`. -/
theorem snap_axis [FloorRing K] (lo hi : K) (S : Nat) (hS : 0 < S) (hlt : lo < hi) :
    0 < (hi - lo) / (S : K) ∧
    ∃ d, 0 ≤ d ∧ d < (hi - lo) / (S : K) ∧
      snapCoord lo ((hi - lo) / (S : K)) = lo - d ∧
      snapCoord hi ((hi - lo) / (S : K)) = hi - d := by
  have hS0 : (0 : K) < (S : K) := by exact_mod_cast hS
  have hw : 0 < (hi - lo) / (S : K) := div_pos (by linarith) hS0
  obtain ⟨h1, h2⟩ := snapCoord_bounds lo _ hw
  have hhi : hi = lo + (S : K) * ((hi - lo) / (S : K)) := by
    field_simp
  refine ⟨hw, lo - snapCoord lo ((hi - lo) / (S : K)), by linarith, by linarith, by ring, ?_⟩
  have h3 := snapCoord_add_nat lo ((hi - lo) / (S : K)) S hw.ne'
  rw [← hhi] at h3
  rw [h3]
  linarith

theorem wrap_pred (M x : Nat) (hx1 : 1 ≤ x) (hx : x - 1 < M) :
    ((x % M) + (M - 1)) % M = x - 1 := by
  by_cases h : x < M
  · rw [Nat.mod_eq_of_lt h]
    have e : x + (M - 1) = (x - 1) + M := by omega
    rw [e, Nat.add_mod_right, Nat.mod_eq_of_lt hx]
  · have e : x = M := by omega
    subst e
    rw [Nat.mod_self, Nat.zero_add, Nat.mod_eq_of_lt (by omega)]

theorem numGroup_eq (dimension TileGroupSize : Nat) (hd : 1 ≤ dimension)
    (hwrap : dimension + TileGroupSize - 1 < 2 ^ 32) :
    TiledDeferredPath.numGroup dimension TileGroupSize =
      (dimension + TileGroupSize - 1) / TileGroupSize := by
  rw [TiledDeferredPath.numGroup, wrap_pred (2 ^ 32) (dimension + TileGroupSize) (by omega) hwrap]

theorem numGroup_ceil (dimension TileGroupSize : Nat) (hT : 0 < TileGroupSize)
    (hd : 1 ≤ dimension) (hwrap : dimension + TileGroupSize - 1 < 2 ^ 32) :
    1 ≤ TiledDeferredPath.numGroup dimension TileGroupSize ∧
    (TiledDeferredPath.numGroup dimension TileGroupSize - 1) * TileGroupSize < dimension ∧
    dimension ≤ TiledDeferredPath.numGroup dimension TileGroupSize * TileGroupSize := by
  rw [numGroup_eq dimension TileGroupSize hd hwrap]
  have h1 := Nat.div_add_mod (dimension + TileGroupSize - 1) TileGroupSize
  have h2 := Nat.mod_lt (dimension + TileGroupSize - 1) hT
  generalize (dimension + TileGroupSize - 1) / TileGroupSize = q at h1 ⊢
  generalize (dimension + TileGroupSize - 1) % TileGroupSize = r at h1 h2
  have hq : 1 ≤ q := by
    by_contra hq
    have : q = 0 := by omega
    subst this
    simp at h1
    omega
  obtain ⟨q1, rfl⟩ : ∃ q1, q = q1 + 1 := ⟨q - 1, by omega⟩
  have e1 : TileGroupSize * (q1 + 1) = q1 * TileGroupSize + TileGroupSize := by ring
  have e2 : (q1 + 1) * TileGroupSize = q1 * TileGroupSize + TileGroupSize := by ring
  rw [e1] at h1
  refine ⟨by omega, ?_, ?_⟩
  · rw [Nat.add_sub_cancel]
    omega
  · rw [e2]
    omega

theorem tile_unique (TileGroupSize n dimension x : Nat) (hT : 0 < TileGroupSize)
    (hx : x < dimension) (hn : dimension ≤ n * TileGroupSize) :
    ∃! g, g < n ∧ g * TileGroupSize ≤ x ∧ x < (g + 1) * TileGroupSize := by
  have h1 := Nat.div_add_mod x TileGroupSize
  have h2 := Nat.mod_lt x hT
  refine ⟨x / TileGroupSize, ⟨?_, ?_, ?_⟩, ?_⟩
  · by_contra hge
    have h3 : n * TileGroupSize ≤ x / TileGroupSize * TileGroupSize :=
      Nat.mul_le_mul_right _ (by omega)
    have h4 : x / TileGroupSize * TileGroupSize = TileGroupSize * (x / TileGroupSize) :=
      Nat.mul_comm _ _
    omega
  · rw [Nat.mul_comm]
    omega
  · rw [Nat.add_mul, Nat.one_mul, Nat.mul_comm]
    omega
  · rintro g ⟨-, hg1, hg2⟩
    apply Nat.le_antisymm
    · exact (Nat.le_div_iff_mul_le hT).2 hg1
    · have : x / TileGroupSize < g + 1 := (Nat.div_lt_iff_lt_mul hT).2 hg2
      omega

/-! ### Logarithmic against uniform split -/

theorem UpdateShadowMatrix_eq [FloorRing K] (env : ShadowEnv K) (csm : CascadedShadowMap K)
    (camera : Camera K) (light : Light K) (sceneAABB : Nat → float3 K)
    (Corners : Nat → Nat → float3 K) (uninit : Nat → Nat → Triangle K) :
    csm.UpdateShadowMatrix env camera light sceneAABB Corners uninit =
      ((cascadeStateAt env csm camera light sceneAABB Corners uninit
        light.ShadowCascades).map (fun s => s.csm)) :=
  rfl

theorem FrustumPlaneExtraction_indep (tanf : K → K) (camera : Camera K) (camZ : K)
    (c1 c2 : Nat → float3 K) (j : Nat) (hj : j < 4) :
    FrustumPlaneExtraction tanf camera camZ c1 j =
      FrustumPlaneExtraction tanf camera camZ c2 j := by
  unfold FrustumPlaneExtraction
  interval_cases j <;> simp [Function.update_apply]

theorem cascadeStep_frame [FloorRing K] (env : ShadowEnv K) (camera : Camera K)
    (scene : Nat → float3 K) (uninit : Nat → Nat → Triangle K) (s s1 : CascadeLoopState K)
    (k : Nat) (h : cascadeStep env camera scene uninit s k = some s1) :
    s1.csm.mShadowView = s.csm.mShadowView ∧ s1.csm.mSplitPlanes = s.csm.mSplitPlanes ∧
    s1.csm.mMoveLightTexelSize = s.csm.mMoveLightTexelSize ∧
    s1.csm.mShadowTextureNorm = s.csm.mShadowTextureNorm ∧
    s1.nearSplitIdx = s.farSplitIdx ∧ s1.farSplitIdx = s.nearSplitIdx ∧
    s1.Corners = Function.update s.Corners s.farSplitIdx
      (transformCorners s.csm.mShadowView
        (FrustumPlaneExtraction env.tanf camera (s.csm.mSplitPlanes (k + 1))
          (s.Corners s.farSplitIdx))) ∧
    s1.extractionCalls = s.extractionCalls ++ [s.csm.mSplitPlanes (k + 1)] := by
  unfold cascadeStep at h
  simp only [] at h
  split at h
  · cases h
  · split at h
    · cases h
    · split at h
      · cases h
      · split at h
        · simp only [Option.some.injEq] at h
          subst h
          exact ⟨rfl, rfl, rfl, rfl, rfl, rfl, rfl, rfl⟩
        · cases h

theorem cascadeStep_inv [FloorRing K] (env : ShadowEnv K) (camera : Camera K)
    (scene : Nat → float3 K) (uninit : Nat → Nat → Triangle K) (view : float4x4 K)
    (splits : Nat → K) (L1 L2 L3 : Nat) (k : Nat) (s : CascadeLoopState K)
    (h1 : k < L1) (h2 : k < L2) (h3 : k < L3)
    (hP : CascadeInv env.tanf camera view splits L1 L2 L3 k s) :
    ∃ s1, cascadeStep env camera scene uninit s k = some s1 ∧
      CascadeInv env.tanf camera view splits L1 L2 L3 (k + 1) s1 := by
  obtain ⟨hv, hsp, hl1, hl2, hl3, hidx, hc, hlog⟩ := hP
  obtain ⟨s1, hs1⟩ := Option.ne_none_iff_exists'.1
    (cascadeStep_isSome env camera scene uninit s k (by omega) (by omega) (by omega))
  obtain ⟨b, cam, sc, off, -, -, -, e1, e2, e3⟩ :=
    cascadeStep_some env camera scene uninit s s1 k hs1
  obtain ⟨f1, f2, -, -, f5, f6, f7, f8⟩ := cascadeStep_frame env camera scene uninit s s1 k hs1
  refine ⟨s1, hs1, by rw [f1, hv], by rw [f2, hsp], by rw [e1, List.length_set, hl1],
    by rw [e2, List.length_set, hl2], by rw [e3, List.length_set, hl3], ?_, fun j hj => ?_, ?_⟩
  · rw [f5, f6]
    rcases hidx with ⟨a, b⟩ | ⟨a, b⟩
    · exact Or.inr ⟨b, a⟩
    · exact Or.inl ⟨b, a⟩
  · rw [f5, f7, Function.update_same, hv, hsp]
    simp only [transformCorners, if_pos hj]
    rw [FrustumPlaneExtraction_indep env.tanf camera _ _ (fun _ => ⟨0, 0, 0⟩) j hj]
  · rw [f8, hlog, hsp, List.range_succ (k + 1), List.map_append]
    rfl

theorem mergeCorners_eq (near far : Nat → float3 K) :
    mergeCorners near far = some (boundingBoxOfPoints (near 0)
      [near 1, near 2, near 3, far 0, far 1, far 2, far 3]) := by
  simp only [mergeCorners, List.range_succ, List.range_zero, List.nil_append, List.cons_append,
    List.foldl_cons, List.foldl_nil, BoundingBox.Merge, boundingBoxOfPoints, List.map_cons,
    List.map_nil, Option.some.injEq, BoundingBox.mk.injEq, float3.mk.injEq]
  refine ⟨⟨?_, ?_, ?_⟩, ⟨?_, ?_, ?_⟩⟩ <;> ac_rfl

theorem cascadeLoopInit_spec (env : ShadowEnv K) (csm : CascadedShadowMap K)
    (camera : Camera K) (light : Light K) (Corners : Nat → Nat → float3 K)
    (hN : light.ShadowCascades ≤ csm.mLightCamera.length)
    (h0 : 0 < csm.mLightCamera.length) :
    ∃ s0, cascadeLoopInit env csm camera light Corners = some s0 ∧
      (s0.csm.mLightCamera.length = csm.mLightCamera.length ∧
        s0.csm.mShadowCascadeScale = csm.mShadowCascadeScale ∧
        s0.csm.mShadowCascadeOffset = csm.mShadowCascadeOffset) ∧
      (∀ i, light.ShadowCascades ≤ i → s0.csm.mLightCamera[i]? = csm.mLightCamera[i]?) ∧
      (∀ i, i < light.ShadowCascades → s0.csm.mLightCamera[i]? =
        (csm.mLightCamera[i]?).map (fun c => c.CreateLookAt env.lookAt ⟨0, 0, 0⟩
          light.DerivedDirection (lightUpVector camera light.DerivedDirection))) ∧
      (∃ camera0, s0.csm.mLightCamera[0]? = some camera0 ∧
        s0.csm.mShadowView = camera0.ViewMatrix) ∧
      s0.csm.mSplitPlanes = computeSplitPlanes env.powf camera.NearPlane camera.FarPlane
        light.SplitLambda light.ShadowCascades csm.mSplitPlanes ∧
      s0.nearSplitIdx = 0 ∧ s0.farSplitIdx = 1 ∧
      s0.extractionCalls = [s0.csm.mSplitPlanes 0] ∧
      ∀ j, j < 4 → s0.Corners 0 j =
        Transform (FrustumPlaneExtraction env.tanf camera (s0.csm.mSplitPlanes 0)
          (fun _ => ⟨0, 0, 0⟩) j) s0.csm.mShadowView := by
  obtain ⟨cams, hcams, hlen, hge, hlt⟩ := lookAtLoop_spec env.lookAt light.DerivedDirection
    (lightUpVector camera light.DerivedDirection) csm.mLightCamera light.ShadowCascades hN
  have hc0 : 0 < cams.length := by omega
  unfold cascadeLoopInit
  simp only [hcams, List.getElem?_eq_getElem hc0]
  refine ⟨_, rfl, ⟨hlen, rfl, rfl⟩, hge, hlt, ⟨_, List.getElem?_eq_getElem hc0, rfl⟩, rfl, rfl,
    rfl, rfl, fun j hj => ?_⟩
  simp only [Function.update_same, transformCorners, if_pos hj, callFrustumPlaneExtraction]
  rw [FrustumPlaneExtraction_indep env.tanf camera _ _ (fun _ => ⟨0, 0, 0⟩) j hj]

theorem cascadeInv_init (env : ShadowEnv K) (csm : CascadedShadowMap K)
    (camera : Camera K) (light : Light K) (Corners : Nat → Nat → float3 K)
    (hN : light.ShadowCascades ≤ csm.mLightCamera.length)
    (h0 : 0 < csm.mLightCamera.length) :
    ∃ s0, cascadeLoopInit env csm camera light Corners = some s0 ∧
      CascadeInv env.tanf camera s0.csm.mShadowView s0.csm.mSplitPlanes
        csm.mLightCamera.length csm.mShadowCascadeScale.length
        csm.mShadowCascadeOffset.length 0 s0 := by
  obtain ⟨s0, hs0, ⟨e1, e2, e3⟩, -, -, -, -, n0, f0, hlog, hc⟩ :=
    cascadeLoopInit_spec env csm camera light Corners hN h0
  refine ⟨s0, hs0, rfl, rfl, e1, by rw [e2], by rw [e3], Or.inl ⟨n0, f0⟩, fun j hj => ?_, hlog⟩
  rw [n0]
  exact hc j hj

theorem cascadeLoop_inv [FloorRing K] (env : ShadowEnv K) (camera : Camera K)
    (scene : Nat → float3 K) (uninit : Nat → Nat → Triangle K) (view : float4x4 K)
    (splits : Nat → K) (L1 L2 L3 : Nat) (s0 : CascadeLoopState K) (n : Nat)
    (h1 : n ≤ L1) (h2 : n ≤ L2) (h3 : n ≤ L3)
    (hP : CascadeInv env.tanf camera view splits L1 L2 L3 0 s0) :
    ∃ s, (List.range n).foldlM (cascadeStep env camera scene uninit) s0 = some s ∧
      CascadeInv env.tanf camera view splits L1 L2 L3 n s :=
  foldlM_range_inv (cascadeStep env camera scene uninit)
    (CascadeInv env.tanf camera view splits L1 L2 L3) n s0 hP
    (fun k s hk hs => cascadeStep_inv env camera scene uninit view splits L1 L2 L3 k s
      (by omega) (by omega) (by omega) hs)

theorem cascadeBoundSplit_eq (env : ShadowEnv K) (camera : Camera K)
    (view : float4x4 K) (splits : Nat → K) (L1 L2 L3 : Nat) (k : Nat)
    (s : CascadeLoopState K) (hP : CascadeInv env.tanf camera view splits L1 L2 L3 k s) :
    cascadeBoundSplit env camera s k =
      some (freshCascadeBox env.tanf camera view splits k) := by
  obtain ⟨hv, hsp, -, -, -, hidx, hc, -⟩ := hP
  have hne : s.nearSplitIdx ≠ s.farSplitIdx := by
    rcases hidx with ⟨a, b⟩ | ⟨a, b⟩ <;> rw [a, b] <;> decide
  have hfar : ∀ j, j < 4 →
      transformCorners s.csm.mShadowView
        (FrustumPlaneExtraction env.tanf camera (s.csm.mSplitPlanes (k + 1))
          (s.Corners s.farSplitIdx)) j =
      Transform (FrustumPlaneExtraction env.tanf camera (splits (k + 1))
        (fun _ => ⟨0, 0, 0⟩) j) view := by
    intro j hj
    simp only [transformCorners, if_pos hj, hv, hsp]
    rw [FrustumPlaneExtraction_indep env.tanf camera _ _ (fun _ => ⟨0, 0, 0⟩) j hj]
  simp only [cascadeBoundSplit, cascadeExtract, callFrustumPlaneExtraction]
  rw [mergeCorners_eq, Function.update_noteq hne, Function.update_same,
    hc 0 (by omega), hc 1 (by omega), hc 2 (by omega), hc 3 (by omega),
    hfar 0 (by omega), hfar 1 (by omega), hfar 2 (by omega), hfar 3 (by omega)]
  rfl

theorem cascadeStep_out [FloorRing K] (env : ShadowEnv K) (camera : Camera K)
    (scene : Nat → float3 K) (uninit : Nat → Nat → Triangle K) (s s1 : CascadeLoopState K)
    (k : Nat) (h : cascadeStep env camera scene uninit s k = some s1) :
    ∃ (merged r : BoundingBox K) (cam : Camera K),
      cascadeBoundSplit env camera s k = some merged ∧
      CalculateLightNearFar
        (snapToTexel s.csm.mMoveLightTexelSize (padBound env merged).2 (padBound env merged).1)
        scene (uninit k) = some r ∧
      s.csm.mLightCamera[k]? = some cam ∧
      s1.csm.mLightCamera = s.csm.mLightCamera.set k
        (cam.CreateOrthoOffCenter r.Min.x r.Max.x r.Min.y r.Max.y r.Min.z r.Max.z) ∧
      s1.csm.mShadowCascadeScale = s.csm.mShadowCascadeScale.set k
        (cascadeScale ((CreateOrthographic r.Min.x r.Max.x r.Min.y r.Max.y r.Min.z
          r.Max.z).mul s.csm.mShadowTextureNorm)) ∧
      s1.csm.mShadowCascadeOffset = s.csm.mShadowCascadeOffset.set k
        (cascadeOffset ((CreateOrthographic r.Min.x r.Max.x r.Min.y r.Max.y r.Min.z
          r.Max.z).mul s.csm.mShadowTextureNorm)) := by
  unfold cascadeStep at h
  simp only [] at h
  split at h
  · cases h
  · rename_i merged hm
    split at h
    · cases h
    · rename_i boundSplit hb
      split at h
      · cases h
      · rename_i cam hcam
        by_cases h2 : k < s.csm.mShadowCascadeScale.length
        · by_cases h3 : k < s.csm.mShadowCascadeOffset.length
          · simp only [vectorSet, if_pos h2, if_pos h3, Option.some.injEq] at h
            subst h
            exact ⟨merged, boundSplit, cam, hm, hb, hcam, rfl, rfl, rfl⟩
          · simp [vectorSet, h3] at h
        · simp [vectorSet, h2] at h

theorem cascadeLoop_fitted [FloorRing K] (env : ShadowEnv K) (camera : Camera K)
    (scene : Nat → float3 K) (uninit : Nat → Nat → Triangle K) (view : float4x4 K)
    (splits : Nat → K) (L1 L2 L3 : Nat) (s0 : CascadeLoopState K) (n : Nat)
    (h1 : n ≤ L1) (h2 : n ≤ L2) (h3 : n ≤ L3)
    (hP : CascadeInv env.tanf camera view splits L1 L2 L3 0 s0) :
    ∃ s, (List.range n).foldlM (cascadeStep env camera scene uninit) s0 = some s ∧
      CascadeInv env.tanf camera view splits L1 L2 L3 n s ∧
      CascadeFitted env s0.csm.mMoveLightTexelSize s0.csm.mShadowTextureNorm scene uninit
        (freshCascadeBox env.tanf camera view splits) n s.csm := by
  obtain ⟨s, hs, hPs, -, -, hF⟩ := foldlM_range_inv (cascadeStep env camera scene uninit)
    (fun k s => CascadeInv env.tanf camera view splits L1 L2 L3 k s ∧
      s.csm.mMoveLightTexelSize = s0.csm.mMoveLightTexelSize ∧
      s.csm.mShadowTextureNorm = s0.csm.mShadowTextureNorm ∧
      CascadeFitted env s0.csm.mMoveLightTexelSize s0.csm.mShadowTextureNorm scene uninit
        (freshCascadeBox env.tanf camera view splits) k s.csm) n s0
    ⟨hP, rfl, rfl, fun i hi => absurd hi (by omega)⟩
    (fun k s hk hs => by
      obtain ⟨hPs, hflag, hnorm, hF⟩ := hs
      obtain ⟨s1, hs1, hP1⟩ := cascadeStep_inv env camera scene uninit view splits L1 L2 L3 k
        s (by omega) (by omega) (by omega) hPs
      obtain ⟨merged, r, cam, hm, hr, hcam, e1, e2, e3⟩ :=
        cascadeStep_out env camera scene uninit s s1 k hs1
      obtain ⟨-, -, f3, f4, -⟩ := cascadeStep_frame env camera scene uninit s s1 k hs1
      rw [cascadeBoundSplit_eq env camera view splits L1 L2 L3 k s hPs] at hm
      obtain rfl := Option.some.inj hm
      have hk1 : k < s.csm.mLightCamera.length := by rw [hPs.2.2.1]; omega
      have hk2 : k < s.csm.mShadowCascadeScale.length := by rw [hPs.2.2.2.1]; omega
      have hk3 : k < s.csm.mShadowCascadeOffset.length := by rw [hPs.2.2.2.2.1]; omega
      refine ⟨s1, hs1, hP1, by rw [f3, hflag], by rw [f4, hnorm], fun i hi => ?_⟩
      by_cases hik : i = k
      · subst hik
        rw [hflag] at hr
        refine ⟨r, _, hr, by rw [e1, List.getElem?_set_self hk1], rfl, ?_, ?_⟩
        · rw [e2, List.getElem?_set_self hk2, hnorm]
          rfl
        · rw [e3, List.getElem?_set_self hk3, hnorm]
          rfl
      · obtain ⟨r1, cam1, c1, c2, c3, c4, c5⟩ := hF i (by omega)
        refine ⟨r1, cam1, c1, ?_, c3, ?_, ?_⟩
        · rw [e1, List.getElem?_set_ne (fun h => hik h.symm)]
          exact c2
        · rw [e2, List.getElem?_set_ne (fun h => hik h.symm)]
          exact c4
        · rw [e3, List.getElem?_set_ne (fun h => hik h.symm)]
          exact c5)
  exact ⟨s, hs, hPs, hF⟩

theorem cascadeLoopInit_frame (env : ShadowEnv K) (csm : CascadedShadowMap K)
    (camera : Camera K) (light : Light K) (Corners : Nat → Nat → float3 K)
    (s0 : CascadeLoopState K) (h : cascadeLoopInit env csm camera light Corners = some s0) :
    s0.csm.mMoveLightTexelSize = csm.mMoveLightTexelSize ∧
    s0.csm.mShadowTextureNorm = csm.mShadowTextureNorm := by
  unfold cascadeLoopInit at h
  simp only [] at h
  split at h
  · cases h
  · split at h
    · cases h
    · simp only [Option.some.injEq] at h
      subst h
      exact ⟨rfl, rfl⟩

theorem cascadeStateAt_spec [FloorRing K] (env : ShadowEnv K) (csm : CascadedShadowMap K)
    (camera : Camera K) (light : Light K) (sceneAABB : Nat → float3 K)
    (Corners : Nat → Nat → float3 K) (uninit : Nat → Nat → Triangle K)
    (hN : 1 ≤ light.ShadowCascades)
    (hcam : light.ShadowCascades ≤ csm.mLightCamera.length)
    (hscale : light.ShadowCascades ≤ csm.mShadowCascadeScale.length)
    (hoff : light.ShadowCascades ≤ csm.mShadowCascadeOffset.length)
    (k : Nat) (hk : k ≤ light.ShadowCascades) :
    ∃ s, cascadeStateAt env csm camera light sceneAABB Corners uninit k = some s ∧
      CascadeInv env.tanf camera
        (env.lookAt ⟨0, 0, 0⟩ light.DerivedDirection
          (lightUpVector camera light.DerivedDirection))
        (computeSplitPlanes env.powf camera.NearPlane camera.FarPlane light.SplitLambda
          light.ShadowCascades csm.mSplitPlanes)
        csm.mLightCamera.length csm.mShadowCascadeScale.length
        csm.mShadowCascadeOffset.length k s ∧
      CascadeFitted env csm.mMoveLightTexelSize csm.mShadowTextureNorm
        (sceneLightSpace (env.lookAt ⟨0, 0, 0⟩ light.DerivedDirection
          (lightUpVector camera light.DerivedDirection)) sceneAABB) uninit
        (freshCascadeBox env.tanf camera
          (env.lookAt ⟨0, 0, 0⟩ light.DerivedDirection
            (lightUpVector camera light.DerivedDirection))
          (computeSplitPlanes env.powf camera.NearPlane camera.FarPlane light.SplitLambda
            light.ShadowCascades csm.mSplitPlanes)) k s.csm := by
  have h0 : 0 < csm.mLightCamera.length := by omega
  obtain ⟨s0, hs0, -, -, hlt, ⟨camera0, hc0, hview⟩, hsplits, -⟩ :=
    cascadeLoopInit_spec env csm camera light Corners hcam h0
  obtain ⟨s0', hs0', hP⟩ := cascadeInv_init env csm camera light Corners hcam h0
  rw [hs0] at hs0'
  obtain rfl : s0 = s0' := Option.some.inj hs0'
  obtain ⟨hflag, hnorm⟩ := cascadeLoopInit_frame env csm camera light Corners s0 hs0
  have hv : s0.csm.mShadowView = env.lookAt ⟨0, 0, 0⟩ light.DerivedDirection
      (lightUpVector camera light.DerivedDirection) := by
    rw [hview]
    have h1 := hlt 0 (by omega)
    rw [hc0, List.getElem?_eq_getElem h0] at h1
    simp only [Option.map_some', Option.some.injEq] at h1
    rw [h1]
    rfl
  rw [hv, hsplits] at hP
  obtain ⟨s, hs, hPs, hF⟩ := cascadeLoop_fitted env camera
    (sceneLightSpace s0.csm.mShadowView sceneAABB) uninit _ _ _ _ _ s0 k
    (by omega) (by omega) (by omega) hP
  rw [hflag, hnorm, hv] at hF
  exact ⟨s, by rw [cascadeStateAt, hs0]; exact hs, hPs, hF⟩

theorem UpdateShadowMatrix_run [FloorRing K] (env : ShadowEnv K) (csm : CascadedShadowMap K)
    (camera : Camera K) (light : Light K) (sceneAABB : Nat → float3 K)
    (Corners : Nat → Nat → float3 K) (uninit : Nat → Nat → Triangle K)
    (hN : 1 ≤ light.ShadowCascades)
    (hcam : light.ShadowCascades ≤ csm.mLightCamera.length)
    (hscale : light.ShadowCascades ≤ csm.mShadowCascadeScale.length)
    (hoff : light.ShadowCascades ≤ csm.mShadowCascadeOffset.length) :
    ∃ csm1, csm.UpdateShadowMatrix env camera light sceneAABB Corners uninit = some csm1 ∧
      csm1.mSplitPlanes = computeSplitPlanes env.powf camera.NearPlane camera.FarPlane
        light.SplitLambda light.ShadowCascades csm.mSplitPlanes ∧
      ∀ i, i < light.ShadowCascades → ∃ cam0 cam1, csm.mLightCamera[i]? = some cam0 ∧
        csm1.mLightCamera[i]? = some cam1 ∧
        cam1.ViewMatrix = env.lookAt ⟨0, 0, 0⟩ light.DerivedDirection
          (lightUpVector camera light.DerivedDirection) := by
  have h0 : 0 < csm.mLightCamera.length := by omega
  obtain ⟨s0, hs0, ⟨e1, e2, e3⟩, -, hlt, -, hsplits, -⟩ :=
    cascadeLoopInit_spec env csm camera light Corners hcam h0
  obtain ⟨s0', hs0', hP⟩ := cascadeInv_init env csm camera light Corners hcam h0
  rw [hs0] at hs0'
  obtain rfl : s0 = s0' := Option.some.inj hs0'
  obtain ⟨s, hs, -, -, hcams⟩ := cascadeLoop_spec env camera
    (sceneLightSpace s0.csm.mShadowView sceneAABB) uninit s0 light.ShadowCascades
    (by rw [e1]; exact hcam) (by rw [e2]; exact hscale) (by rw [e3]; exact hoff)
  obtain ⟨s', hs', hPs⟩ := cascadeLoop_inv env camera
    (sceneLightSpace s0.csm.mShadowView sceneAABB) uninit _ _ _ _ _ s0 light.ShadowCascades
    hcam hscale hoff hP
  rw [hs] at hs'
  obtain rfl : s = s' := Option.some.inj hs'
  refine ⟨s.csm, ?_, by rw [hPs.2.1, hsplits], fun i hi => ?_⟩
  · rw [UpdateShadowMatrix_eq, cascadeStateAt, hs0]
    simp only [Option.some_bind]
    rw [hs]
    rfl
  · obtain ⟨b, cam, c1, c2⟩ := hcams i hi
    have h1 := hlt i hi
    rw [c1] at h1
    cases hc : csm.mLightCamera[i]? with
    | none => rw [hc] at h1; cases h1
    | some cam0 =>
      rw [hc] at h1
      simp only [Option.map_some', Option.some.injEq] at h1
      refine ⟨cam0, _, rfl, c2, ?_⟩
      rw [h1]
      rfl

theorem exShadowMapWith_lengths (env : ShadowEnv K) (prior : Nat → K) :
    (exShadowMapWith env prior).mLightCamera.length = env.MAX_CASCADES ∧
    (exShadowMapWith env prior).mShadowCascadeScale.length = env.MAX_CASCADES ∧
    (exShadowMapWith env prior).mShadowCascadeOffset.length = env.MAX_CASCADES := by
  simp [exShadowMapWith, CascadedShadowMap.ctor]

/-! ### Rounding -/

theorem round32_values :
    round32 1 = 1 ∧ round32 (1 / 3) = 11184811 / 33554432 ∧
    round32 (1 / 10) = 13421773 / 134217728 ∧
    round32 (1 + 1 / 16777216) = 1 ∧ round32 (1 + 3 / 16777216) = 1 + 1 / 4194304 ∧
    round32 (16777217) = 16777216 ∧ round32 (-5 / 3) = -(13981013 / 8388608) ∧
    round32 (FLT_MAX : ℚ) = FLT_MAX ∧
    round32 (1 / 2 ^ 149) = 1 / 2 ^ 149 ∧ round32 (1 / 2 ^ 150) = 0 ∧
    round32 (3 / 2 ^ 150) = 1 / 2 ^ 148 := by
  decide!

theorem clipTriangleRounded_id (k : Nat) (edge : K) (component : Nat) (st : ClipState K)
    (iTri : Nat) :
    clipTriangleRounded id k edge component st iTri = clipTriangle k edge component st iTri :=
  rfl

theorem clipLoopRounded_id (k : Nat) (edge : K) (component : Nat) (fuel : Nat)
    (st : ClipState K) (iTri : Nat) :
    clipLoopRounded id k edge component fuel st iTri = clipLoop k edge component fuel st iTri := by
  induction fuel generalizing st iTri with
  | zero => rfl
  | succ n ih =>
    simp only [clipLoopRounded, clipLoop, clipTriangleRounded_id]
    split
    · cases clipTriangle k edge component st iTri with
      | none => rfl
      | some p => exact ih _ _
    · rfl

theorem CalculateLightNearFarRounded_id (b : BoundingBox K) (scene : Nat → float3 K)
    (uninit : Nat → Triangle K) :
    CalculateLightNearFarRounded id b scene uninit = CalculateLightNearFar b scene uninit := by
  have h1 : ∀ st k, clipPlaneRounded id b st k = clipPlane b st k := fun st k =>
    clipLoopRounded_id _ _ _ _ _ _
  have h2 : clipPlaneRounded id b = clipPlane b := by
    funext st k
    exact h1 st k
  have h3 : ∀ acc i, processAABBTriRounded id b scene acc i = processAABBTri b scene acc i := by
    intro acc i
    unfold processAABBTriRounded processAABBTri clipPlanesRounded clipPlanes
    rw [h2]
  have h4 : processAABBTriRounded id b scene = processAABBTri b scene := by
    funext acc i
    exact h3 acc i
  unfold CalculateLightNearFarRounded CalculateLightNearFar
  rw [h4]

theorem snapCoordRounded_id [FloorRing K] (v w : K) : snapCoordRounded id v w = snapCoord v w :=
  rfl

theorem snapToTexelRounded_id [FloorRing K] (flag : Bool) (w : float3 K) (b : BoundingBox K) :
    snapToTexelRounded id flag w b = snapToTexel flag w b :=
  rfl

/-! ## The claims -/

/-- C1. Clipper soundness: for every 8 scene points and every clip box,
`CalculateLightNearFar` returns, and every point `p` that lies on one of the
12 tessellation triangles and is strictly inside the X and Y bounds of the
box has `Min.Z ≤ p.z ≤ Max.Z` in the returned box. -/
theorem CalculateLightNearFar_sound (b : BoundingBox K) (scene : Nat → float3 K)
    (uninit : Nat → Triangle K) (i : Nat) (p : float3 K) (hi : i < 12)
    (hp : OnSceneTriangle scene i p) (hx0 : b.Min.x < p.x) (hx1 : p.x < b.Max.x)
    (hy0 : b.Min.y < p.y) (hy1 : p.y < b.Max.y) :
    ∃ r, CalculateLightNearFar b scene uninit = some r ∧ r.Min.z ≤ p.z ∧ p.z ≤ r.Max.z := by
  obtain ⟨acc, hacc, hS, -⟩ := foldTri_spec b scene uninit 12
  refine ⟨_, by rw [CalculateLightNearFar_eq, hacc]; rfl, ?_⟩
  exact hS i p hi hp ⟨hx0, hx1, hy0, hy1⟩

theorem CalculateLightNearFar_sound_witness :
    (0 < 12 ∧ OnSceneTriangle exScene 0 ⟨0, -3, 1⟩ ∧ exBox.Min.x < 0 ∧ (0 : ℚ) < exBox.Max.x ∧
      exBox.Min.y < -3 ∧ (-3 : ℚ) < exBox.Max.y) ∧
    ∃ r, CalculateLightNearFar exBox exScene exUninit = some r ∧ r.Min.z ≤ 1 ∧ 1 ≤ r.Max.z :=
  have hp : OnSceneTriangle exScene 0 ⟨0, -3, 1⟩ :=
    ⟨4 / 5, 1 / 5, 0, by norm_num, by norm_num, le_refl _, by norm_num,
      by norm_num [AABBTriIndexes, exScene], by norm_num [AABBTriIndexes, exScene],
      by norm_num [AABBTriIndexes, exScene]⟩
  ⟨⟨by decide, hp, by norm_num [exBox], by norm_num [exBox], by norm_num [exBox],
      by norm_num [exBox]⟩,
    CalculateLightNearFar_sound exBox exScene exUninit 0 ⟨0, -3, 1⟩ (by decide) hp
      (by norm_num [exBox]) (by norm_num [exBox]) (by norm_num [exBox]) (by norm_num [exBox])⟩

/-- C2. Clipper identity case: when all 8 scene points (finite `float`
values, so within `±FLT_MAX`) have X strictly between `Min.X` and `Max.X`
and Y strictly between `Min.Y` and `Max.Y`, `CalculateLightNearFar` returns
and sets `Min.Z` to the minimum and `Max.Z` to the maximum of the 8 points'
Z coordinates. -/
theorem CalculateLightNearFar_identity (b : BoundingBox K) (scene : Nat → float3 K)
    (uninit : Nat → Triangle K)
    (hx : ∀ j, j < 8 → b.Min.x < (scene j).x ∧ (scene j).x < b.Max.x)
    (hy : ∀ j, j < 8 → b.Min.y < (scene j).y ∧ (scene j).y < b.Max.y)
    (hfloat : ∀ j, j < 8 → -FLT_MAX ≤ (scene j).z ∧ (scene j).z ≤ FLT_MAX) :
    ∃ r, CalculateLightNearFar b scene uninit = some r ∧
      IsLeast {z | ∃ j, j < 8 ∧ z = (scene j).z} r.Min.z ∧
      IsGreatest {z | ∃ j, j < 8 ∧ z = (scene j).z} r.Max.z := by
  obtain ⟨acc, hacc, hS, hN, hF, -⟩ := foldTri_spec b scene uninit 12
  refine ⟨_, by rw [CalculateLightNearFar_eq, hacc]; rfl, ?_, ?_⟩
  · have hlow : ∀ j, j < 8 → acc.2.1 ≤ (scene j).z := by
      intro j hj
      obtain ⟨i, hi, hp⟩ := corner_onSceneTriangle scene j hj
      exact (hS i _ hi hp ⟨(hx j hj).1, (hx j hj).2, (hy j hj).1, (hy j hj).2⟩).1
    refine ⟨?_, fun z ⟨j, hj, hz⟩ => by rw [hz]; exact hlow j hj⟩
    rcases hN with hN | ⟨i, p, hi, hp, -, hz⟩
    · exact ⟨0, by omega, le_antisymm (hlow 0 (by omega))
        (by show (scene 0).z ≤ acc.2.1; rw [hN]; exact (hfloat 0 (by omega)).2)⟩
    · show acc.2.1 ∈ _
      rw [← hz]
      have hz2 : p.z ≤ _ ∧ p.z ≤ _ ∧ p.z ≤ _ :=
        ⟨hz ▸ hlow _ (triIndex_lt (i * 3 + 0)), hz ▸ hlow _ (triIndex_lt (i * 3 + 1)),
          hz ▸ hlow _ (triIndex_lt (i * 3 + 2))⟩
      rcases OnTriangle.z_eq_of_le hp hz2.1 hz2.2.1 hz2.2.2 with e | e | e
      · exact ⟨_, triIndex_lt _, e⟩
      · exact ⟨_, triIndex_lt _, e⟩
      · exact ⟨_, triIndex_lt _, e⟩
  · have hhigh : ∀ j, j < 8 → (scene j).z ≤ acc.2.2 := by
      intro j hj
      obtain ⟨i, hi, hp⟩ := corner_onSceneTriangle scene j hj
      exact (hS i _ hi hp ⟨(hx j hj).1, (hx j hj).2, (hy j hj).1, (hy j hj).2⟩).2
    refine ⟨?_, fun z ⟨j, hj, hz⟩ => by rw [hz]; exact hhigh j hj⟩
    rcases hF with hF | ⟨i, p, hi, hp, -, hz⟩
    · exact ⟨0, by omega, le_antisymm
        (by show acc.2.2 ≤ (scene 0).z; rw [hF]; exact (hfloat 0 (by omega)).1)
        (hhigh 0 (by omega))⟩
    · show acc.2.2 ∈ _
      rw [← hz]
      have hz2 : _ ≤ p.z ∧ _ ≤ p.z ∧ _ ≤ p.z :=
        ⟨hz ▸ hhigh _ (triIndex_lt (i * 3 + 0)), hz ▸ hhigh _ (triIndex_lt (i * 3 + 1)),
          hz ▸ hhigh _ (triIndex_lt (i * 3 + 2))⟩
      rcases OnTriangle.z_eq_of_ge hp hz2.1 hz2.2.1 hz2.2.2 with e | e | e
      · exact ⟨_, triIndex_lt _, e⟩
      · exact ⟨_, triIndex_lt _, e⟩
      · exact ⟨_, triIndex_lt _, e⟩

theorem exSceneInside_x : ∀ j, j < 8 →
    exBox.Min.x < (exSceneInside j).x ∧ (exSceneInside j).x < exBox.Max.x := by
  intro j hj
  interval_cases j <;> norm_num [exBox, exSceneInside]

theorem exSceneInside_y : ∀ j, j < 8 →
    exBox.Min.y < (exSceneInside j).y ∧ (exSceneInside j).y < exBox.Max.y := by
  intro j hj
  interval_cases j <;> norm_num [exBox, exSceneInside]

theorem exSceneInside_z : ∀ j, j < 8 →
    -FLT_MAX ≤ (exSceneInside j).z ∧ (exSceneInside j).z ≤ FLT_MAX := by
  intro j hj
  interval_cases j <;> norm_num [FLT_MAX, exSceneInside]

theorem CalculateLightNearFar_identity_witness :
    ((∀ j, j < 8 → exBox.Min.x < (exSceneInside j).x ∧ (exSceneInside j).x < exBox.Max.x) ∧
      (∀ j, j < 8 → exBox.Min.y < (exSceneInside j).y ∧ (exSceneInside j).y < exBox.Max.y) ∧
      (∀ j, j < 8 → -FLT_MAX ≤ (exSceneInside j).z ∧ (exSceneInside j).z ≤ FLT_MAX)) ∧
    ∃ r, CalculateLightNearFar exBox exSceneInside exUninit = some r ∧
      IsLeast {z | ∃ j, j < 8 ∧ z = (exSceneInside j).z} r.Min.z ∧
      IsGreatest {z | ∃ j, j < 8 ∧ z = (exSceneInside j).z} r.Max.z :=
  ⟨⟨exSceneInside_x, exSceneInside_y, exSceneInside_z⟩,
    CalculateLightNearFar_identity exBox exSceneInside exUninit exSceneInside_x
      exSceneInside_y exSceneInside_z⟩

/-- C3 (amended). Clipper exclusion case, in exact arithmetic: when all 8
scene points are excluded on one axis (all X ≤ Min.X, or all X ≥ Max.X, or
all Y ≤ Min.Y, or all Y ≥ Max.Y), each of the 12 input triangles ends with
every entry of the working list culled, and the returned near/far are the
initial sentinels `FLT_MAX` and `-FLT_MAX`. -/
theorem CalculateLightNearFar_excluded (b : BoundingBox K) (scene : Nat → float3 K)
    (uninit : Nat → Triangle K)
    (hex : (∀ j, j < 8 → (scene j).x ≤ b.Min.x) ∨ (∀ j, j < 8 → b.Max.x ≤ (scene j).x) ∨
      (∀ j, j < 8 → (scene j).y ≤ b.Min.y) ∨ (∀ j, j < 8 → b.Max.y ≤ (scene j).y)) :
    (∀ i, i < 12 → ∃ st, clippedAt b scene uninit i = some st ∧
      ∀ j, j < st.iTriangleCnt → (st.triangleList j).culled = true) ∧
    ∃ r, CalculateLightNearFar b scene uninit = some r ∧
      r.Min.z = FLT_MAX ∧ r.Max.z = -FLT_MAX := by
  have hk : ∃ k, k < 4 ∧ ∀ j, j < 8 → ¬ PlanePass b k (scene j) := by
    rcases hex with h | h | h | h
    · exact ⟨0, by omega, fun j hj => by
        simpa [PlanePass, Passes, ClipPlaneEdge, float3.comp] using h j hj⟩
    · exact ⟨1, by omega, fun j hj => by
        simpa [PlanePass, Passes, ClipPlaneEdge, float3.comp] using h j hj⟩
    · exact ⟨2, by omega, fun j hj => by
        simpa [PlanePass, Passes, ClipPlaneEdge, float3.comp] using h j hj⟩
    · exact ⟨3, by omega, fun j hj => by
        simpa [PlanePass, Passes, ClipPlaneEdge, float3.comp] using h j hj⟩
  obtain ⟨k, hk4, hfail⟩ := hk
  obtain ⟨⟨acc, hacc, hnf⟩, hall⟩ := foldTri_excluded b scene uninit hk4 hfail 12
  refine ⟨hall, _, by rw [CalculateLightNearFar_eq, hacc]; rfl, ?_, ?_⟩
  · show acc.2.1 = FLT_MAX
    rw [hnf]
  · show acc.2.2 = -FLT_MAX
    rw [hnf]

theorem exSceneFar_x : ∀ j, j < 8 → exBox.Max.x ≤ (exSceneFar j).x := by
  intro j hj
  interval_cases j <;> norm_num [exBox, exSceneFar]

theorem CalculateLightNearFar_excluded_witness :
    (∀ j, j < 8 → exBox.Max.x ≤ (exSceneFar j).x) ∧
    (∀ i, i < 12 → ∃ st, clippedAt exBox exSceneFar exUninit i = some st ∧
      ∀ j, j < st.iTriangleCnt → (st.triangleList j).culled = true) ∧
    ∃ r, CalculateLightNearFar exBox exSceneFar exUninit = some r ∧
      r.Min.z = FLT_MAX ∧ r.Max.z = -FLT_MAX :=
  ⟨exSceneFar_x,
    CalculateLightNearFar_excluded exBox exSceneFar exUninit (Or.inr (Or.inl exSceneFar_x))⟩

/-- C4. Clipper capacity: for every input `CalculateLightNearFar` returns,
that is, no access to `triangleList` (at `iTri`, `iTri+1` or `iTriangleCnt`)
leaves the 16 entries; and while any triangle of the run is clipped,
after `n ≤ 4` planes the count `iTriangleCnt` is at most `2^n`, hence at
most 16. -/
theorem triangleList_capacity (b : BoundingBox K) (scene : Nat → float3 K)
    (uninit : Nat → Triangle K) :
    (∃ r, CalculateLightNearFar b scene uninit = some r) ∧
    ∀ (i : Nat) (n : Fin 5), ∃ acc st, foldTri b scene uninit i = some acc ∧
      clipPlanes b n (loadTriangle scene acc.1 i) = some st ∧
      st.iTriangleCnt ≤ 2 ^ (n : Nat) ∧ st.iTriangleCnt ≤ triangleListSize := by
  constructor
  · obtain ⟨acc, hacc, -⟩ := foldTri_spec b scene uninit 12
    exact ⟨_, by rw [CalculateLightNearFar_eq, hacc]; rfl⟩
  · intro i n
    obtain ⟨acc, hacc, -⟩ := foldTri_spec b scene uninit i
    obtain ⟨st, hst⟩ := clipPlanes_isSome b n (loadTriangle scene acc.1 i)
      (by omega) rfl
    have hc := (clipPlanes_count n hst).2
    have h1 : (loadTriangle scene acc.1 i).iTriangleCnt = 1 := rfl
    rw [h1, mul_one] at hc
    have h16 : (2 : Nat) ^ (n : Nat) ≤ 2 ^ 4 := Nat.pow_le_pow_right (by omega) (by omega)
    exact ⟨acc, st, hacc, hst, hc, by simp only [triangleListSize]; omega⟩

theorem exTriangle_count : insideVertCount 0 (0 : ℚ) 0 exTriangle = 1 := by
  decide!

/-- A point of a triangle is not below every corner in Z. -/
theorem OnTriangle.exists_z_le {a b c p : float3 K} (hp : OnTriangle a b c p) :
    a.z ≤ p.z ∨ b.z ≤ p.z ∨ c.z ≤ p.z := by
  by_contra hne
  push_neg at hne
  obtain ⟨na, nb, nc⟩ := hne
  rcases OnTriangle.z_eq_of_le hp na.le nb.le nc.le with e | e | e
  · exact absurd e (ne_of_lt na)
  · exact absurd e (ne_of_lt nb)
  · exact absurd e (ne_of_lt nc)

/-- A point of a triangle is not above every corner in Z. -/
theorem OnTriangle.exists_z_ge {a b c p : float3 K} (hp : OnTriangle a b c p) :
    p.z ≤ a.z ∨ p.z ≤ b.z ∨ p.z ≤ c.z := by
  by_contra hne
  push_neg at hne
  obtain ⟨na, nb, nc⟩ := hne
  rcases OnTriangle.z_eq_of_ge hp na.le nb.le nc.le with e | e | e
  · exact absurd e (ne_of_gt na)
  · exact absurd e (ne_of_gt nb)
  · exact absurd e (ne_of_gt nc)

theorem GoodZ.exists_le {b : BoundingBox K} {scene : Nat → float3 K} {m : Nat} {z : K}
    (h : GoodZ b scene m z) : ∃ j, j < 8 ∧ (scene j).z ≤ z := by
  obtain ⟨i, p, -, hp, -, hz⟩ := h
  rw [← hz]
  rcases OnTriangle.exists_z_le hp with e | e | e
  · exact ⟨_, triIndex_lt _, e⟩
  · exact ⟨_, triIndex_lt _, e⟩
  · exact ⟨_, triIndex_lt _, e⟩

theorem GoodZ.exists_ge {b : BoundingBox K} {scene : Nat → float3 K} {m : Nat} {z : K}
    (h : GoodZ b scene m z) : ∃ j, j < 8 ∧ z ≤ (scene j).z := by
  obtain ⟨i, p, -, hp, -, hz⟩ := h
  rw [← hz]
  rcases OnTriangle.exists_z_ge hp with e | e | e
  · exact ⟨_, triIndex_lt _, e⟩
  · exact ⟨_, triIndex_lt _, e⟩
  · exact ⟨_, triIndex_lt _, e⟩

/-- C6 (amended). Clipper tightness, in exact arithmetic: for a clip box with
`Min.X ≤ Max.X` and `Min.Y ≤ Max.Y` and 8 scene points (finite `float`
values, so within `±FLT_MAX`) for which at least one triangle survives the
clipping, the returned `Min.Z` and `Max.Z` are each the Z coordinate of a
point that lies on one of the 12 tessellation triangles and inside the
closed slab `[Min.X, Max.X] x [Min.Y, Max.Y]`; in particular
`min z ≤ Min.Z ≤ Max.Z ≤ max z` over the 8 points. -/
theorem CalculateLightNearFar_tight (b : BoundingBox K) (scene : Nat → float3 K)
    (uninit : Nat → Triangle K) (_hbx : b.Min.x ≤ b.Max.x) (_hby : b.Min.y ≤ b.Max.y)
    (hfloat : ∀ j, j < 8 → -FLT_MAX ≤ (scene j).z ∧ (scene j).z ≤ FLT_MAX)
    (hsurv : ∃ i st j, i < 12 ∧ clippedAt b scene uninit i = some st ∧
      j < st.iTriangleCnt ∧ (st.triangleList j).culled = false) :
    ∃ r, CalculateLightNearFar b scene uninit = some r ∧
      GoodZ b scene 12 r.Min.z ∧ GoodZ b scene 12 r.Max.z ∧
      (∃ j, j < 8 ∧ (scene j).z ≤ r.Min.z) ∧ r.Min.z ≤ r.Max.z ∧
      (∃ j, j < 8 ∧ r.Max.z ≤ (scene j).z) := by
  obtain ⟨acc, hacc, -, hN, hF, hV⟩ := foldTri_spec b scene uninit 12
  obtain ⟨i, st, j, hi, hcl, hj, hc⟩ := hsurv
  have hvz : VertZ st st.iTriangleCnt (st.triangleList j).pt0.z := ⟨j, hj, hc, Or.inl rfl⟩
  obtain ⟨l1, l2⟩ := hV i st _ hi hcl hvz
  obtain ⟨acc0, -, hst⟩ := Option.bind_eq_some.1 hcl
  have hgood : GoodZ b scene 12 (st.triangleList j).pt0.z := vertZ_good hst hvz hi
  have hrange : -FLT_MAX ≤ (st.triangleList j).pt0.z ∧ (st.triangleList j).pt0.z ≤ FLT_MAX := by
    obtain ⟨i1, p, -, hp, -, hz⟩ := hgood
    rw [← hz]
    exact hp.z_range hfloat
  have gN : GoodZ b scene 12 acc.2.1 := by
    rcases hN with hN | hN
    · have e : acc.2.1 = (st.triangleList j).pt0.z :=
        le_antisymm l1 (by rw [hN]; exact hrange.2)
      rw [e]
      exact hgood
    · exact hN
  have gF : GoodZ b scene 12 acc.2.2 := by
    rcases hF with hF | hF
    · have e : acc.2.2 = (st.triangleList j).pt0.z :=
        le_antisymm (by rw [hF]; exact hrange.1) l2
      rw [e]
      exact hgood
    · exact hF
  exact ⟨_, by rw [CalculateLightNearFar_eq, hacc]; rfl, gN, gF, gN.exists_le,
    le_trans l1 l2, gF.exists_ge⟩

theorem exScene_z : ∀ j, j < 8 → -FLT_MAX ≤ (exScene j).z ∧ (exScene j).z ≤ FLT_MAX := by
  intro j hj
  interval_cases j <;> norm_num [FLT_MAX, exScene]

theorem exScene_survives : ∃ i st j, i < 12 ∧ clippedAt exBox exScene exUninit i = some st ∧
    j < st.iTriangleCnt ∧ (st.triangleList j).culled = false := by
  obtain ⟨acc, st, -, hst, hcl, -⟩ := clippedAt_isSome exBox exScene exUninit 0
  have hp : OnSceneTriangle exScene 0 ⟨0, -3, 1⟩ :=
    ⟨4 / 5, 1 / 5, 0, by norm_num, by norm_num, le_refl _, by norm_num,
      by norm_num [AABBTriIndexes, exScene], by norm_num [AABBTriIndexes, exScene],
      by norm_num [AABBTriIndexes, exScene]⟩
  obtain ⟨j, hj, hc, -⟩ := clipPlanes_sound hst hp (by norm_num [InSlab, exBox])
  exact ⟨0, st, j, by omega, hcl, hj, hc⟩

theorem CalculateLightNearFar_tight_witness :
    (exBox.Min.x ≤ exBox.Max.x ∧ exBox.Min.y ≤ exBox.Max.y ∧
      (∀ j, j < 8 → -FLT_MAX ≤ (exScene j).z ∧ (exScene j).z ≤ FLT_MAX) ∧
      ∃ i st j, i < 12 ∧ clippedAt exBox exScene exUninit i = some st ∧
        j < st.iTriangleCnt ∧ (st.triangleList j).culled = false) ∧
    ∃ r, CalculateLightNearFar exBox exScene exUninit = some r ∧
      GoodZ exBox exScene 12 r.Min.z ∧ GoodZ exBox exScene 12 r.Max.z ∧
      (∃ j, j < 8 ∧ (exScene j).z ≤ r.Min.z) ∧ r.Min.z ≤ r.Max.z ∧
      (∃ j, j < 8 ∧ r.Max.z ≤ (exScene j).z) :=
  ⟨⟨by norm_num [exBox], by norm_num [exBox], exScene_z, exScene_survives⟩,
    CalculateLightNearFar_tight exBox exScene exUninit (by norm_num [exBox])
      (by norm_num [exBox]) exScene_z exScene_survives⟩

/-- The split depths that step 1 stores: the planes at both ends and the
blend formula in between. -/
theorem computeSplitPlanes_formula (nearPlane farPlane splitLambda : ℝ) (numSplits : Nat)
    (mSplitPlanes : Nat → ℝ) (hN : 1 ≤ numSplits) :
    computeSplitPlanes (fun x y : ℝ => x ^ y) nearPlane farPlane splitLambda numSplits
        mSplitPlanes 0 = nearPlane ∧
    computeSplitPlanes (fun x y : ℝ => x ^ y) nearPlane farPlane splitLambda numSplits
        mSplitPlanes numSplits = farPlane ∧
    ∀ i, 0 < i → i < numSplits →
      computeSplitPlanes (fun x y : ℝ => x ^ y) nearPlane farPlane splitLambda numSplits
          mSplitPlanes i =
        splitLambda * nearPlane * (farPlane / nearPlane) ^ ((i : ℝ) / (numSplits : ℝ)) +
          (1 - splitLambda) *
            (nearPlane + (farPlane - nearPlane) * (i : ℝ) / (numSplits : ℝ)) := by
  refine ⟨?_, ?_, ?_⟩
  · rw [computeSplitPlanes_apply, if_neg (by omega), if_neg (by omega), if_pos rfl]
  · rw [computeSplitPlanes_apply, if_pos (by omega)]
  · intro i h0 hi
    rw [computeSplitPlanes_apply, if_neg (by omega), if_pos (by omega)]
    simp only [splitBlend]
    ring

/-- Bounds on the cube root of 500. -/
theorem cbrt500_bounds : (7.9367 : ℝ) < (500 : ℝ) ^ ((1 : ℝ) / 3) ∧
    (500 : ℝ) ^ ((1 : ℝ) / 3) < 7.9372 := by
  have e : ((1 : ℝ) / 3) = (((3 : ℕ) : ℝ))⁻¹ := by norm_num
  have h1 : ((7.9367 : ℝ) ^ 3) ^ ((1 : ℝ) / 3) = 7.9367 := by
    rw [e]
    exact Real.pow_rpow_inv_natCast (by norm_num) (by norm_num)
  have h2 : ((7.9372 : ℝ) ^ 3) ^ ((1 : ℝ) / 3) = 7.9372 := by
    rw [e]
    exact Real.pow_rpow_inv_natCast (by norm_num) (by norm_num)
  constructor
  · rw [← h1]
    exact Real.rpow_lt_rpow (by norm_num) (by norm_num) (by norm_num)
  · rw [← h2]
    exact Real.rpow_lt_rpow (by norm_num) (by norm_num) (by norm_num)

theorem rpow500_two_thirds : (500 : ℝ) ^ ((2 : ℝ) / 3) = ((500 : ℝ) ^ ((1 : ℝ) / 3)) ^ 2 := by
  rw [← Real.rpow_natCast, ← Real.rpow_mul (by norm_num)]
  norm_num

/-- The two inner split depths of the test scene. -/
theorem splitPlanes_scenario_values (m : Nat → ℝ) :
    computeSplitPlanes (fun x y : ℝ => x ^ y) 1 500 (1 / 2) 3 m 1 =
      1 / 2 * (500 : ℝ) ^ ((1 : ℝ) / 3) + 1 / 2 * (1 + 499 / 3) ∧
    computeSplitPlanes (fun x y : ℝ => x ^ y) 1 500 (1 / 2) 3 m 2 =
      1 / 2 * (500 : ℝ) ^ ((2 : ℝ) / 3) + 1 / 2 * (1 + 499 * 2 / 3) := by
  constructor
  · rw [computeSplitPlanes_apply, if_neg (by decide), if_pos (by decide)]
    norm_num [splitBlend]
  · rw [computeSplitPlanes_apply, if_neg (by decide), if_pos (by decide)]
    norm_num [splitBlend]

/-- The split depths of the test scene, to two decimals. -/
theorem computeSplitPlanes_scenario (m : Nat → ℝ) :
    computeSplitPlanes (fun x y : ℝ => x ^ y) 1 500 (1 / 2) 3 m 0 = 1 ∧
    |computeSplitPlanes (fun x y : ℝ => x ^ y) 1 500 (1 / 2) 3 m 1 - 87.64| ≤ 0.005 ∧
    |computeSplitPlanes (fun x y : ℝ => x ^ y) 1 500 (1 / 2) 3 m 2 - 198.33| ≤ 0.005 ∧
    computeSplitPlanes (fun x y : ℝ => x ^ y) 1 500 (1 / 2) 3 m 3 = 500 := by
  obtain ⟨v1, v2⟩ := splitPlanes_scenario_values m
  obtain ⟨c1, c2⟩ := cbrt500_bounds
  refine ⟨?_, ?_, ?_, ?_⟩
  · rw [computeSplitPlanes_apply, if_neg (by decide), if_neg (by decide), if_pos rfl]
  · rw [v1, abs_le]
    constructor <;> linarith
  · rw [v2, rpow500_two_thirds, abs_le]
    have hpos : (0 : ℝ) < (500 : ℝ) ^ ((1 : ℝ) / 3) := by linarith
    constructor <;> nlinarith
  · rw [computeSplitPlanes_apply, if_pos (by decide)]

/-- In the test scene `split[1]` exceeds 83 and `split[2]` exceeds 166. -/
theorem computeSplitPlanes_scenario_far (m : Nat → ℝ) :
    ¬ (|computeSplitPlanes (fun x y : ℝ => x ^ y) 1 500 (1 / 2) 3 m 1 - 22.36| ≤ 1) ∧
    ¬ (|computeSplitPlanes (fun x y : ℝ => x ^ y) 1 500 (1 / 2) 3 m 2 - 111.8| ≤ 1) := by
  obtain ⟨v1, v2⟩ := splitPlanes_scenario_values m
  have h1 : (0 : ℝ) ≤ (500 : ℝ) ^ ((1 : ℝ) / 3) := Real.rpow_nonneg (by norm_num) _
  have h2 : (0 : ℝ) ≤ (500 : ℝ) ^ ((2 : ℝ) / 3) := Real.rpow_nonneg (by norm_num) _
  constructor
  · rw [v1, abs_le]
    intro h
    linarith [h.2]
  · rw [v2, abs_le]
    intro h
    linarith [h.2]

theorem snapCoord_idem [FloorRing K] (v w : K) (hw : w ≠ 0) :
    snapCoord (snapCoord v w) w = snapCoord v w := by
  unfold snapCoord
  rw [mul_div_cancel_right₀ _ hw, Int.floor_intCast]

/-- C10 (amended). Texel-snapping idempotence, in exact arithmetic: for every
box and every world-units-per-texel `w` with non-zero X and Y, applying the
snap step of `UpdateShadowMatrix` to an already-snapped box, with the same
`w`, returns the same box. -/
theorem snapToTexel_idem [FloorRing K] (mMoveLightTexelSize : Bool)
    (worldUnitsPerTexel : float3 K) (boundSplit : BoundingBox K)
    (hx : worldUnitsPerTexel.x ≠ 0) (hy : worldUnitsPerTexel.y ≠ 0) :
    snapToTexel mMoveLightTexelSize worldUnitsPerTexel
        (snapToTexel mMoveLightTexelSize worldUnitsPerTexel boundSplit) =
      snapToTexel mMoveLightTexelSize worldUnitsPerTexel boundSplit := by
  cases mMoveLightTexelSize with
  | false => simp [snapToTexel]
  | true => simp [snapToTexel, snapCoord_idem _ _ hx, snapCoord_idem _ _ hy]

theorem snapToTexel_idem_witness :
    (exTexel.x ≠ 0 ∧ exTexel.y ≠ 0) ∧
    snapToTexel true exTexel (snapToTexel true exTexel exCascade) =
      snapToTexel true exTexel exCascade :=
  ⟨⟨by norm_num [exTexel], by norm_num [exTexel]⟩,
    snapToTexel_idem true exTexel exCascade (by norm_num [exTexel]) (by norm_num [exTexel])⟩

/-- C20. Swap network: for each of the 8 classifications of three vertices
(flags 0 or 1), after the three conditional swaps the flags are in
non-increasing order, the three (point, flag) pairs are a permutation of the
original three pairs, so the points are permuted and each flag still
describes the point at its position; when all three are inside nothing moves. -/
theorem swapNetwork_sorts (a b c : float3 K) (c0 c1 c2 : Nat) (h0 : c0 ≤ 1) (h1 : c1 ≤ 1)
    (h2 : c2 ≤ 1) :
    (swapNetwork ⟨a, b, c, c0, c1, c2⟩).c1 ≤ (swapNetwork ⟨a, b, c, c0, c1, c2⟩).c0 ∧
    (swapNetwork ⟨a, b, c, c0, c1, c2⟩).c2 ≤ (swapNetwork ⟨a, b, c, c0, c1, c2⟩).c1 ∧
    List.Perm
      [((swapNetwork ⟨a, b, c, c0, c1, c2⟩).pt0, (swapNetwork ⟨a, b, c, c0, c1, c2⟩).c0),
       ((swapNetwork ⟨a, b, c, c0, c1, c2⟩).pt1, (swapNetwork ⟨a, b, c, c0, c1, c2⟩).c1),
       ((swapNetwork ⟨a, b, c, c0, c1, c2⟩).pt2, (swapNetwork ⟨a, b, c, c0, c1, c2⟩).c2)]
      [(a, c0), (b, c1), (c, c2)] ∧
    (c0 = 1 → c1 = 1 → c2 = 1 →
      swapNetwork ⟨a, b, c, c0, c1, c2⟩ = ⟨a, b, c, c0, c1, c2⟩) := by
  have e0 : c0 = 0 ∨ c0 = 1 := by omega
  have e1 : c1 = 0 ∨ c1 = 1 := by omega
  have e2 : c2 = 0 ∨ c2 = 1 := by omega
  rcases e0 with e0 | e0 <;> rcases e1 with e1 | e1 <;> rcases e2 with e2 | e2 <;>
    subst e0 e1 e2 <;> simp only [swapNetwork, swap01, swap12] <;> norm_num
  · exact @List.perm_append_comm _ [(c, 1)] [(a, 0), (b, 0)]
  · exact List.Perm.swap (a, 0) (b, 1) [(c, 0)]
  · exact @List.perm_append_comm _ [(b, 1), (c, 1)] [(a, 0)]
  · exact List.Perm.swap (b, 0) (c, 1) []

theorem swapNetwork_sorts_witness :
    ((0 : Nat) ≤ 1 ∧ (1 : Nat) ≤ 1 ∧ (1 : Nat) ≤ 1) ∧
    (swapNetwork (⟨⟨1, 0, 0⟩, ⟨2, 0, 0⟩, ⟨3, 0, 0⟩, 0, 1, 1⟩ : Flagged ℚ)).c2 ≤
      (swapNetwork (⟨⟨1, 0, 0⟩, ⟨2, 0, 0⟩, ⟨3, 0, 0⟩, 0, 1, 1⟩ : Flagged ℚ)).c1 :=
  ⟨⟨by decide, by decide, by decide⟩,
    (swapNetwork_sorts (⟨1, 0, 0⟩ : float3 ℚ) ⟨2, 0, 0⟩ ⟨3, 0, 0⟩ 0 1 1 (by decide) (by decide)
      (by decide)).2.1⟩

/-- C14, as stated, fails: with a single directional light whose cast-shadow
flag is off, the deferred path draws the directional lighting technique, yet
no call of the run passes a value for `ShadowEnabled`: the technique does not
receive `ShadowEnabled = false`. -/
theorem shadowsOff_counterexample :
    (exLight LightType.LT_DirectionalLight false).CastShadow = false ∧
    (DeferredPath.DeferredLighting true true
      [exLight LightType.LT_DirectionalLight false]).any RenderEvent.isDraw = true ∧
    (DeferredPath.DeferredLighting true true
      [exLight LightType.LT_DirectionalLight false]).all
        (fun e => e.shadowEnabledValue.isNone) = true := by
  refine ⟨rfl, ?_, ?_⟩ <;> decide

/-- C14 (amended). No shadows when the flag is off: when every light of the
frame has cast-shadow = false, neither the forward nor the deferred path
calls the shadow renderer or binds a shadow texture or cascade parameter.
In the forward path no call passes `ShadowEnabled = true` and every draw
submission of an item comes after that item's effect got
`ShadowEnabled = false`; the deferred path passes no value for
`ShadowEnabled` at all. -/
theorem shadowsOff (bkgBucket opaqueBucket : List Nat) (sceneLights : List (Light K))
    (hasCameraOrigin hasLightColor : Bool)
    (hoff : ∀ light ∈ sceneLights, light.CastShadow = false) :
    (∀ e ∈ ForwardPath.RenderScene bkgBucket sceneLights opaqueBucket,
      e.isShadowRendererCall = false ∧ e.isShadowBinding = false ∧
        e.shadowEnabledValue ≠ some true) ∧
    (∀ pre post item,
      ForwardPath.RenderScene bkgBucket sceneLights opaqueBucket =
          pre ++ RenderEvent.Render item :: post →
        RenderEvent.SetShadowEnabled item false ∈ pre) ∧
    (∀ e ∈ DeferredPath.DeferredLighting hasCameraOrigin hasLightColor sceneLights,
      e.isShadowRendererCall = false ∧ e.isShadowBinding = false ∧
        e.shadowEnabledValue = none) := by
  refine ⟨?_, ?_, ?_⟩
  · intro e he
    unfold ForwardPath.RenderScene at he
    rcases List.mem_append.1 he with he | he
    · rcases List.mem_append.1 he with he | he
      · simp only [List.mem_cons, List.mem_singleton, List.not_mem_nil, or_false] at he
        rcases he with rfl | rfl <;> exact ⟨rfl, rfl, by simp [RenderEvent.shadowEnabledValue]⟩
      · obtain ⟨item, -, rfl⟩ := List.mem_map.1 he
        exact ⟨rfl, rfl, by simp [RenderEvent.shadowEnabledValue]⟩
    · obtain ⟨l, hl, hel⟩ := List.mem_flatten.1 he
      obtain ⟨light, hlight, rfl⟩ := List.mem_map.1 hl
      exact renderLight_quiet opaqueBucket light (hoff light hlight) e hel
  · have h : ShadowOffGuarded (ForwardPath.RenderScene bkgBucket sceneLights opaqueBucket) := by
      unfold ForwardPath.RenderScene
      refine ShadowOffGuarded.append_off (ShadowOffGuarded.of_no_render ?_) (ShadowOffGuarded.flatten ?_)
      · intro e he
        rcases List.mem_append.1 he with he | he
        · simp only [List.mem_cons, List.mem_singleton, List.not_mem_nil, or_false] at he
          rcases he with rfl | rfl <;> rfl
        · obtain ⟨item, -, rfl⟩ := List.mem_map.1 he
          rfl
      · intro l hl
        obtain ⟨light, hlight, rfl⟩ := List.mem_map.1 hl
        exact renderLight_guarded opaqueBucket light (hoff light hlight)
    exact h
  · intro e he
    unfold DeferredPath.DeferredLighting at he
    rcases List.mem_append.1 he with he | he
    · rcases List.mem_append.1 he with he | he
      · simp only [List.mem_cons, List.mem_singleton, List.not_mem_nil, or_false] at he
        rcases he with rfl | rfl | rfl | rfl <;> exact ⟨rfl, rfl, rfl⟩
      · cases hasCameraOrigin
        · simp at he
        · simp only [if_true, List.mem_singleton] at he
          rw [he]
          exact ⟨rfl, rfl, rfl⟩
    · exact lightLoop_quiet hasLightColor sceneLights false hoff e he

/-- Witness for C14: a frame with one directional light whose flag is off,
one background item and two opaque items. -/
theorem shadowsOff_witness :
    (∀ light ∈ [exLight LightType.LT_DirectionalLight false], light.CastShadow = false) ∧
    ((∀ e ∈ ForwardPath.RenderScene [7] [exLight LightType.LT_DirectionalLight false] [0, 1],
      e.isShadowRendererCall = false ∧ e.isShadowBinding = false ∧
        e.shadowEnabledValue ≠ some true) ∧
    (∀ pre post item,
      ForwardPath.RenderScene [7] [exLight LightType.LT_DirectionalLight false] [0, 1] =
          pre ++ RenderEvent.Render item :: post →
        RenderEvent.SetShadowEnabled item false ∈ pre) ∧
    (∀ e ∈ DeferredPath.DeferredLighting true true [exLight LightType.LT_DirectionalLight false],
      e.isShadowRendererCall = false ∧ e.isShadowBinding = false ∧
        e.shadowEnabledValue = none)) :=
  ⟨by simp [exLight],
    shadowsOff [7] [0, 1] [exLight LightType.LT_DirectionalLight false] true true
      (by simp [exLight])⟩

/-- C16. Lazy stencil clear: one run of `DeferredPath::DeferredLighting` over
any light list clears the light-pass stencil exactly once if the list contains
a non-directional light and never otherwise, and every draw of a spot or point
light volume comes after a stencil clear of the same run. -/
theorem DeferredLighting_stencil_clear (hasCameraOrigin hasLightColor : Bool)
    (sceneLights : List (Light K)) :
    ((DeferredPath.DeferredLighting hasCameraOrigin hasLightColor sceneLights).countP
        RenderEvent.isClearStencil =
      if ∃ light ∈ sceneLights, light.LightType ≠ LightType.LT_DirectionalLight then 1 else 0) ∧
    ∀ pre post e,
      DeferredPath.DeferredLighting hasCameraOrigin hasLightColor sceneLights =
          pre ++ e :: post →
        e.isLightVolumeDraw = true → ∃ c ∈ pre, c.isClearStencil = true := by
  constructor
  · unfold DeferredPath.DeferredLighting
    rw [List.countP_append, List.countP_append, lightLoop_clear_count]
    cases hasCameraOrigin <;> simp [List.countP_cons, RenderEvent.isClearStencil]
  · have h : ClearGuarded
        (DeferredPath.DeferredLighting hasCameraOrigin hasLightColor sceneLights) := by
      unfold DeferredPath.DeferredLighting
      refine ClearGuarded.append_clear (ClearGuarded.of_no_volume ?_)
        (lightLoop_guarded hasLightColor sceneLights)
      cases hasCameraOrigin <;> simp [RenderEvent.isLightVolumeDraw]
    exact h

/-- Witness for C16: a directional light, then a spot light and a point light:
one clear; with directional lights only: none. -/
theorem DeferredLighting_stencil_clear_witness :
    (DeferredPath.DeferredLighting true true
      [exLight LightType.LT_DirectionalLight true, exLight LightType.LT_SpotLight false,
        exLight LightType.LT_PointLight false]).countP RenderEvent.isClearStencil = 1 ∧
    (DeferredPath.DeferredLighting true true
      [exLight LightType.LT_DirectionalLight true]).countP RenderEvent.isClearStencil = 0 := by
  constructor
  · rw [(DeferredLighting_stencil_clear true true _).1]
    decide
  · rw [(DeferredLighting_stencil_clear true true _).1]
    decide

/-- C17, as stated, fails: with one point light in the queue and one opaque
item, the forward path submits no opaque draw, while (number of queued
lights) x (number of opaque items) is 1. -/
theorem ForwardPath_draws_counterexample :
    (ForwardPath.RenderScene [] [exLight LightType.LT_PointLight false] [0]).countP
        RenderEvent.isRender = 0 ∧
    [exLight LightType.LT_PointLight false].length * [0].length = 1 := by
  constructor <;> decide

/-- C17 (amended). Forward per-light passes: in `ForwardPath::RenderScene` the
lighting parameters are re-bound and every item of the opaque bucket is
rendered once for every directional light of the light queue (other lights
are skipped): the number of opaque draw submissions, and of light-colour
bindings, is (number of queued directional lights) x (number of opaque
items), and an item is submitted (number of directional lights) x (its
multiplicity in the bucket) times. -/
theorem ForwardPath_draws (bkgBucket opaqueBucket : List Nat) (sceneLights : List (Light K)) :
    (ForwardPath.RenderScene bkgBucket sceneLights opaqueBucket).countP RenderEvent.isRender =
      sceneLights.countP Light.isDirectional * opaqueBucket.length ∧
    (ForwardPath.RenderScene bkgBucket sceneLights opaqueBucket).countP
        RenderEvent.isLightColorBinding =
      sceneLights.countP Light.isDirectional * opaqueBucket.length ∧
    ∀ item, (ForwardPath.RenderScene bkgBucket sceneLights opaqueBucket).countP
        (RenderEvent.isRenderOf item) =
      sceneLights.countP Light.isDirectional * opaqueBucket.count item := by
  refine ⟨?_, ?_, ?_⟩
  · apply RenderScene_count _ _ _ _ _ rfl rfl (fun _ => rfl) (fun _ => rfl)
    intro light
    rw [countP_flatten_const _ _ 1 _ (fun item _ => renderItem_count_render light item)]
    simp
  · apply RenderScene_count _ _ _ _ _ rfl rfl (fun _ => rfl) (fun _ => rfl)
    intro light
    rw [countP_flatten_const _ _ 1 _ (fun item _ => renderItem_count_color light item)]
    simp
  · intro item
    apply RenderScene_count _ _ _ _ _ rfl rfl (fun _ => rfl) (fun _ => rfl)
    intro light
    exact renderItems_count_renderOf light opaqueBucket item

/-- C15 (code bug). The tiled path writes one record per point light of the
queue and never compares the count with the capacity of the buffer: for any
capacity `MaxNumLights`, a queue of `MaxNumLights + 1` point lights makes
`TiledDeferredLighting` report `LightCount = MaxNumLights + 1` and write the
record of index `MaxNumLights`, one past the last record of the buffer. -/
theorem fillLightBuffer_overflow (MaxNumLights : Nat) (mapped : Nat → PointLight K)
    (light : Light K) (hpoint : light.LightType = LightType.LT_PointLight)
    (h32 : MaxNumLights + 1 < 2 ^ 32) :
    MaxNumLights <
      (TiledDeferredPath.fillLightBuffer (List.replicate (MaxNumLights + 1) light) mapped).2 ∧
    (TiledDeferredPath.fillLightBuffer (List.replicate (MaxNumLights + 1) light) mapped).2 =
      MaxNumLights + 1 ∧
    (TiledDeferredPath.fillLightBuffer (List.replicate (MaxNumLights + 1) light) mapped).1
        MaxNumLights =
      ⟨float3.smul light.LightIntensity light.LightColor, light.Position, light.Range,
        light.Attenuation⟩ := by
  have hlen : (List.replicate (MaxNumLights + 1) light).length ≠ 0 := by simp
  obtain ⟨h1, h2, -⟩ := fillLoop_replicate light hpoint (MaxNumLights + 1) mapped 0 (by omega)
  rw [TiledDeferredPath.fillLightBuffer, if_pos hlen]
  refine ⟨by rw [h1]; omega, by rw [h1]; omega, h2 MaxNumLights (by omega) (by omega)⟩

/-- Witness for C15: a buffer of two records and a queue of three point lights. -/
theorem fillLightBuffer_overflow_witness :
    (exLight LightType.LT_PointLight false).LightType = LightType.LT_PointLight ∧
    2 + 1 < 2 ^ 32 ∧
    2 < (TiledDeferredPath.fillLightBuffer
      (List.replicate (2 + 1) (exLight LightType.LT_PointLight false)) exMapped).2 :=
  ⟨rfl, by norm_num,
    (fillLightBuffer_overflow 2 exMapped (exLight LightType.LT_PointLight false) rfl
      (by norm_num)).1⟩

/-- C18. Unregistered factory is fatal: each of `CreateLight`, `CreateEntity`
and `CreateSkyBox` raises `ERR_ITEM_NOT_FOUND` and leaves the scene-object
collections and the light list unchanged when its scene-object type is absent
from the registry; when the type is registered it does not raise, returns the
object built by the registered factory and appends exactly that object to the
collection of its type (`CreateLight` also to the light list, the other two
leave the light list unchanged). -/
theorem create_unregistered_fatal {S O : Type} (sm : SceneManager S O) (name a b : S)
    (type : LightType) :
    (sm.mRegistry SceneObjectType.SOT_Light = none →
      FailsUnchanged sm (sm.CreateLight name type)) ∧
    (sm.mRegistry SceneObjectType.SOT_Entity = none →
      FailsUnchanged sm (sm.CreateEntity name a b)) ∧
    (sm.mRegistry SceneObjectType.SOT_Sky = none →
      FailsUnchanged sm (sm.CreateSkyBox name a b)) ∧
    (sm.mRegistry SceneObjectType.SOT_Light ≠ none →
      AppendsOne sm SceneObjectType.SOT_Light (sm.CreateLight name type) ∧
      ∃ obj, (sm.CreateLight name type).2 = Except.ok obj ∧
        (sm.CreateLight name type).1.mAllSceneLights = sm.mAllSceneLights ++ [obj]) ∧
    (sm.mRegistry SceneObjectType.SOT_Entity ≠ none →
      AppendsOne sm SceneObjectType.SOT_Entity (sm.CreateEntity name a b) ∧
      (sm.CreateEntity name a b).1.mAllSceneLights = sm.mAllSceneLights) ∧
    (sm.mRegistry SceneObjectType.SOT_Sky ≠ none →
      AppendsOne sm SceneObjectType.SOT_Sky (sm.CreateSkyBox name a b) ∧
      (sm.CreateSkyBox name a b).1.mAllSceneLights = sm.mAllSceneLights) := by
  refine ⟨?_, ?_, ?_, ?_, ?_, ?_⟩
  · intro h
    simp [SceneManager.CreateLight, h, ENGINE_EXCEPT, FailsUnchanged]
  · intro h
    simp [SceneManager.CreateEntity, h, ENGINE_EXCEPT, FailsUnchanged]
  · intro h
    simp [SceneManager.CreateSkyBox, h, ENGINE_EXCEPT, FailsUnchanged]
  · intro h
    obtain ⟨entry, he⟩ := Option.ne_none_iff_exists'.1 h
    refine ⟨⟨entry.factoryFunc name [(ParamKey.LightType, ParamValue.lightTypeStr type)],
      ?_, ?_, ?_, ?_⟩,
      entry.factoryFunc name [(ParamKey.LightType, ParamValue.lightTypeStr type)], ?_, ?_⟩ <;>
      simp only [SceneManager.CreateLight, he]
    · simp
    · intro t ht
      simp [Function.update_apply, ht]
  · intro h
    obtain ⟨entry, he⟩ := Option.ne_none_iff_exists'.1 h
    refine ⟨⟨entry.factoryFunc name [(ParamKey.ResourceGroup, ParamValue.str b),
      (ParamKey.Mesh, ParamValue.str a)], ?_, ?_, ?_, ?_⟩, ?_⟩ <;>
      simp only [SceneManager.CreateEntity, he]
    · simp
    · intro t ht
      simp [Function.update_apply, ht]
  · intro h
    obtain ⟨entry, he⟩ := Option.ne_none_iff_exists'.1 h
    refine ⟨⟨entry.factoryFunc name [(ParamKey.ResourceGroup, ParamValue.str b),
      (ParamKey.Sky, ParamValue.str a)], ?_, ?_, ?_, ?_⟩, ?_⟩ <;>
      simp only [SceneManager.CreateSkyBox, he]
    · simp
    · intro t ht
      simp [Function.update_apply, ht]

/-- Witness for C18: on the manager without registrations `CreateLight` fails
and changes nothing; on the manager set up by the constructor it appends one
light. -/
theorem create_unregistered_fatal_witness :
    (exEmptyManager.mRegistry SceneObjectType.SOT_Light = none ∧
      FailsUnchanged exEmptyManager
        (exEmptyManager.CreateLight 5 LightType.LT_DirectionalLight)) ∧
    (exManager.mRegistry SceneObjectType.SOT_Light ≠ none ∧
      AppendsOne exManager SceneObjectType.SOT_Light
        (exManager.CreateLight 5 LightType.LT_DirectionalLight)) :=
  ⟨⟨rfl, (create_unregistered_fatal exEmptyManager 5 6 7 LightType.LT_DirectionalLight).1 rfl⟩,
    ⟨by simp [exManager, SceneManager.RegisterType, Function.update_apply],
      ((create_unregistered_fatal exManager 5 6 7 LightType.LT_DirectionalLight).2.2.2.1
        (by simp [exManager, SceneManager.RegisterType, Function.update_apply])).1⟩⟩

/-- C13. Shadow-array recreation: for a directional light,
`UpdateShadowMapStorage` creates a new shadow array texture (exactly one) if
none exists yet or the existing texture's array size differs from the light's
cascade count, and none otherwise; after the call the texture has the cascade
count as array size and the number of per-slice render-target views equals
the cascade count; so after a change of the cascade count any number k >= 1 of
calls with the new count creates the array texture exactly once, and calls
with an unchanged count create none.  The state before the call is one in
which the views belong to the existing texture. -/
theorem UpdateShadowMapStorage_recreate (csm : CascadedShadowMap K) (light : Light K)
    (hdir : light.LightType = LightType.LT_DirectionalLight)
    (hinv : ∀ n, csm.mShadowTexture = some n → csm.mShadowSplitsRTV.length = n) :
    ((csm.mShadowTexture = none ∨
        ∃ n, csm.mShadowTexture = some n ∧ n ≠ light.ShadowCascades) →
      (csm.UpdateShadowMapStorage light).2.countP FactoryCall.isArrayTextureCreate = 1 ∧
      FactoryCall.CreateTexture2D ShadowResource.mShadowTexture light.ShadowCascades ∈
        (csm.UpdateShadowMapStorage light).2) ∧
    (¬ (csm.mShadowTexture = none ∨
        ∃ n, csm.mShadowTexture = some n ∧ n ≠ light.ShadowCascades) →
      (csm.UpdateShadowMapStorage light).2.countP FactoryCall.isArrayTextureCreate = 0) ∧
    (csm.UpdateShadowMapStorage light).1.mShadowTexture = some light.ShadowCascades ∧
    (csm.UpdateShadowMapStorage light).1.mShadowSplitsRTV.length = light.ShadowCascades ∧
    (∀ k, 0 < k → csm.mShadowTexture ≠ some light.ShadowCascades →
      (storageCalls light k csm).2.countP FactoryCall.isArrayTextureCreate = 1) ∧
    (∀ k, csm.mShadowTexture = some light.ShadowCascades →
      (storageCalls light k csm).2.countP FactoryCall.isArrayTextureCreate = 0) := by
  obtain ⟨hsame, hdiff⟩ := UpdateShadowMapStorage_dir csm light hdir
  have hcond : (csm.mShadowTexture = none ∨
      ∃ n, csm.mShadowTexture = some n ∧ n ≠ light.ShadowCascades) ↔
      csm.mShadowTexture ≠ some light.ShadowCascades := by
    cases ht : csm.mShadowTexture with
    | none => simp
    | some n => simp
  refine ⟨fun h => ?_, fun h => ?_, ?_, ?_, fun k hk h => ?_, fun k h => ?_⟩
  · have hne := hcond.1 h
    exact ⟨(hdiff hne).2.2.1, (hdiff hne).2.2.2⟩
  · have heq : csm.mShadowTexture = some light.ShadowCascades := by
      by_contra hne
      exact h (hcond.2 hne)
    exact (hsame heq).2.2
  · by_cases heq : csm.mShadowTexture = some light.ShadowCascades
    · exact (hsame heq).1
    · exact (hdiff heq).1
  · by_cases heq : csm.mShadowTexture = some light.ShadowCascades
    · rw [(hsame heq).2.1]
      exact hinv _ heq
    · rw [(hdiff heq).2.1, List.length_range]
  · exact (storageCalls_count light hdir k csm).2 h hk
  · exact (storageCalls_count light hdir k csm).1 h

/-- Witness for C13: the first call after construction, for a light with three
cascades. -/
theorem UpdateShadowMapStorage_recreate_witness :
    exSun.LightType = LightType.LT_DirectionalLight ∧
    (∀ n, exShadowMap.mShadowTexture = some n → exShadowMap.mShadowSplitsRTV.length = n) ∧
    (exShadowMap.UpdateShadowMapStorage exSun).1.mShadowSplitsRTV.length =
      exSun.ShadowCascades :=
  ⟨rfl, fun n h => by simp [exShadowMap, CascadedShadowMap.ctor] at h,
    (UpdateShadowMapStorage_recreate exShadowMap exSun rfl
      (fun n h => by simp [exShadowMap, CascadedShadowMap.ctor] at h)).2.2.2.1⟩

/-- C11. Scale/offset round trip: for every cascade box with Min < Max on each
axis and every light-space point p strictly inside it, the component-wise map
p * CascadeScale.xyz + CascadeOffset.xyz, with the scale and offset that
`UpdateShadowMatrix` reads off the composed matrix, equals the transform of p
by the camera's orthographic projection composed with the texture
normalisation matrix of the constructor, on either platform. -/
theorem scaleOffset_roundTrip (isDirect3D11 : Bool) (camera : Camera K)
    (boundSplit : BoundingBox K) (p : float3 K)
    (_hx : boundSplit.Min.x < boundSplit.Max.x) (_hy : boundSplit.Min.y < boundSplit.Max.y)
    (_hz : boundSplit.Min.z < boundSplit.Max.z)
    (_hpx : boundSplit.Min.x < p.x ∧ p.x < boundSplit.Max.x)
    (_hpy : boundSplit.Min.y < p.y ∧ p.y < boundSplit.Max.y)
    (_hpz : boundSplit.Min.z < p.z ∧ p.z < boundSplit.Max.z) :
    applyScaleOffset p
      (cascadeScale ((camera.CreateOrthoOffCenter boundSplit.Min.x boundSplit.Max.x
        boundSplit.Min.y boundSplit.Max.y boundSplit.Min.z boundSplit.Max.z).ProjMatrix.mul
        (textureNorm isDirect3D11)))
      (cascadeOffset ((camera.CreateOrthoOffCenter boundSplit.Min.x boundSplit.Max.x
        boundSplit.Min.y boundSplit.Max.y boundSplit.Min.z boundSplit.Max.z).ProjMatrix.mul
        (textureNorm isDirect3D11))) =
    Transform p
      ((camera.CreateOrthoOffCenter boundSplit.Min.x boundSplit.Max.x
        boundSplit.Min.y boundSplit.Max.y boundSplit.Min.z boundSplit.Max.z).ProjMatrix.mul
        (textureNorm isDirect3D11)) := by
  cases isDirect3D11 <;>
    simp [applyScaleOffset, cascadeScale, cascadeOffset, Transform, float4x4.mul, textureNorm,
      CreateScaling, CreateTranslation, Camera.CreateOrthoOffCenter, CreateOrthographic]

/-- Witness for C11: the box of the example cascade and the point (1, 1, 1). -/
theorem scaleOffset_roundTrip_witness :
    (exCascade.Min.x < exCascade.Max.x ∧ exCascade.Min.y < exCascade.Max.y ∧
      exCascade.Min.z < exCascade.Max.z) ∧
    ((exCascade.Min.x < 1 ∧ (1 : ℚ) < exCascade.Max.x) ∧
      (exCascade.Min.y < 1 ∧ (1 : ℚ) < exCascade.Max.y) ∧
      (exCascade.Min.z < 1 ∧ (1 : ℚ) < exCascade.Max.z)) ∧
    applyScaleOffset (⟨1, 1, 1⟩ : float3 ℚ)
      (cascadeScale ((exCamera.CreateOrthoOffCenter exCascade.Min.x exCascade.Max.x
        exCascade.Min.y exCascade.Max.y exCascade.Min.z exCascade.Max.z).ProjMatrix.mul
        (textureNorm true)))
      (cascadeOffset ((exCamera.CreateOrthoOffCenter exCascade.Min.x exCascade.Max.x
        exCascade.Min.y exCascade.Max.y exCascade.Min.z exCascade.Max.z).ProjMatrix.mul
        (textureNorm true))) =
    Transform ⟨1, 1, 1⟩
      ((exCamera.CreateOrthoOffCenter exCascade.Min.x exCascade.Max.x
        exCascade.Min.y exCascade.Max.y exCascade.Min.z exCascade.Max.z).ProjMatrix.mul
        (textureNorm true)) :=
  ⟨by norm_num [exCascade], by norm_num [exCascade],
    scaleOffset_roundTrip true exCamera exCascade ⟨1, 1, 1⟩
      (by norm_num [exCascade]) (by norm_num [exCascade]) (by norm_num [exCascade])
      (by norm_num [exCascade]) (by norm_num [exCascade]) (by norm_num [exCascade])⟩

/-- C12 (amended). Fixed-size cascade arrays: after construction the
light-camera, cascade-scale and cascade-offset arrays each have exactly
MAX_CASCADES entries; and from any state with these lengths, for a light
with cascade count N <= MAX_CASCADES, `UpdateShadowMatrix` returns (no array
access leaves its array), keeps the three lengths and leaves the cameras,
scales and offsets of index >= N unchanged; a camera of index < N is the old
one after `CreateLookAt` and `CreateOrthoOffCenter`: its view as well as its
projection is replaced, nothing else of it. -/
theorem UpdateShadowMatrix_frame [FloorRing K] (env : ShadowEnv K)
    (csm : CascadedShadowMap K) (camera : Camera K) (light : Light K)
    (sceneAABB : Nat → float3 K) (Corners : Nat → Nat → float3 K)
    (uninit : Nat → Nat → Triangle K)
    (hmax : 0 < env.MAX_CASCADES)
    (hcam : csm.mLightCamera.length = env.MAX_CASCADES)
    (hscale : csm.mShadowCascadeScale.length = env.MAX_CASCADES)
    (hoff : csm.mShadowCascadeOffset.length = env.MAX_CASCADES)
    (hN : light.ShadowCascades ≤ env.MAX_CASCADES) :
    (∀ (d : float4 K) (c : Camera K) (sp : Nat → K) (v : float4x4 K),
      (CascadedShadowMap.ctor env d c sp v).mLightCamera.length = env.MAX_CASCADES ∧
      (CascadedShadowMap.ctor env d c sp v).mShadowCascadeScale.length = env.MAX_CASCADES ∧
      (CascadedShadowMap.ctor env d c sp v).mShadowCascadeOffset.length = env.MAX_CASCADES) ∧
    ∃ csm1, csm.UpdateShadowMatrix env camera light sceneAABB Corners uninit = some csm1 ∧
      (csm1.mLightCamera.length = env.MAX_CASCADES ∧
        csm1.mShadowCascadeScale.length = env.MAX_CASCADES ∧
        csm1.mShadowCascadeOffset.length = env.MAX_CASCADES) ∧
      (∀ i, light.ShadowCascades ≤ i →
        csm1.mLightCamera[i]? = csm.mLightCamera[i]? ∧
        csm1.mShadowCascadeScale[i]? = csm.mShadowCascadeScale[i]? ∧
        csm1.mShadowCascadeOffset[i]? = csm.mShadowCascadeOffset[i]?) ∧
      (∀ i, i < light.ShadowCascades → ∃ (b : BoundingBox K) (cam : Camera K),
        csm.mLightCamera[i]? = some cam ∧
        csm1.mLightCamera[i]? = some
          ((cam.CreateLookAt env.lookAt ⟨0, 0, 0⟩ light.DerivedDirection
            (lightUpVector camera light.DerivedDirection)).CreateOrthoOffCenter
              b.Min.x b.Max.x b.Min.y b.Max.y b.Min.z b.Max.z)) := by
  refine ⟨fun d c sp v => by simp [CascadedShadowMap.ctor], ?_⟩
  obtain ⟨s0, hs0, ⟨e1, e2, e3⟩, hge, hlt, -⟩ :=
    cascadeLoopInit_spec env csm camera light Corners (by omega) (by omega)
  obtain ⟨s, hs, ⟨hl1, hl2, hl3⟩, hge2, hlt2⟩ := cascadeLoop_spec env camera
    (sceneLightSpace s0.csm.mShadowView sceneAABB) uninit s0 light.ShadowCascades
    (by omega) (by rw [e2]; omega) (by rw [e3]; omega)
  refine ⟨s.csm, ?_, ⟨by omega, by rw [hl2, e2, hscale], by rw [hl3, e3, hoff]⟩,
    fun i hi => ?_, fun i hi => ?_⟩
  · rw [UpdateShadowMatrix_eq, cascadeStateAt, hs0]
    simp only [Option.some_bind]
    rw [hs]
    rfl
  · obtain ⟨c1, c2, c3⟩ := hge2 i hi
    exact ⟨by rw [c1, hge i hi], by rw [c2, e2], by rw [c3, e3]⟩
  · obtain ⟨b, cam, c1, c2⟩ := hlt2 i hi
    rw [hlt i hi] at c1
    cases hc : csm.mLightCamera[i]? with
    | none => rw [hc] at c1; cases c1
    | some cam0 =>
      rw [hc] at c1
      simp only [Option.map_some', Option.some.injEq] at c1
      exact ⟨b, cam0, rfl, by rw [c2, ← c1]⟩

/-- Witness for C12: the shadow manager right after construction, with
MAX_CASCADES = 4, and a light with three cascades. -/
theorem UpdateShadowMatrix_frame_witness :
    (0 < exEnv.MAX_CASCADES ∧ exShadowMap.mLightCamera.length = exEnv.MAX_CASCADES ∧
      exShadowMap.mShadowCascadeScale.length = exEnv.MAX_CASCADES ∧
      exShadowMap.mShadowCascadeOffset.length = exEnv.MAX_CASCADES ∧
      exSun.ShadowCascades ≤ exEnv.MAX_CASCADES) ∧
    ∃ csm1, exShadowMap.UpdateShadowMatrix exEnv exCamera exSun exScene (fun _ _ => ⟨0, 0, 0⟩)
        (fun _ => exUninit) = some csm1 ∧
      csm1.mShadowCascadeScale.length = exEnv.MAX_CASCADES ∧
      csm1.mShadowCascadeScale[3]? = exShadowMap.mShadowCascadeScale[3]? := by
  have h1 : 0 < exEnv.MAX_CASCADES := by decide
  have h2 : exShadowMap.mLightCamera.length = exEnv.MAX_CASCADES := by
    simp [exShadowMap, CascadedShadowMap.ctor]
  have h3 : exShadowMap.mShadowCascadeScale.length = exEnv.MAX_CASCADES := by
    simp [exShadowMap, CascadedShadowMap.ctor]
  have h4 : exShadowMap.mShadowCascadeOffset.length = exEnv.MAX_CASCADES := by
    simp [exShadowMap, CascadedShadowMap.ctor]
  have h5 : exSun.ShadowCascades ≤ exEnv.MAX_CASCADES := by decide
  obtain ⟨csm1, hr, ⟨-, hl, -⟩, hge, -⟩ :=
    (UpdateShadowMatrix_frame exEnv exShadowMap exCamera exSun exScene (fun _ _ => ⟨0, 0, 0⟩)
      (fun _ => exUninit) h1 h2 h3 h4 h5).2
  exact ⟨⟨h1, h2, h3, h4, h5⟩, csm1, hr, hl, (hge 3 (by decide)).2.1⟩

/-- C21 (amended). Single-triangle clip step, in exact arithmetic: clipping
one non-culled entry of the working list against one plane (a) marks it culled, with points and count
unchanged, when 0 vertices are inside; (b) leaves its points and the count
unchanged when 3 are inside; (c) with 1 inside replaces it by the triangle of
the inside vertex `A` and the two new points on the edges from `A` to the
outside vertices, count unchanged; (d) with 2 inside replaces it by two
non-culled triangles built from the inside vertices `A`, `B` and two new
points, increases the count by exactly one and ends with `iTri` on the
inserted entry, which the loop then skips (the entry that was at `iTri + 1`
moves to the end).  Every new point has clip-axis coordinate equal to the
edge value of the plane. -/
theorem clipTriangle_cases (k : Nat) (edge : K) (component : Nat) (st : ClipState K)
    (iTri : Nat) (hlt : iTri < st.iTriangleCnt) (hcnt : st.iTriangleCnt ≤ triangleListSize)
    (hc : (st.triangleList iTri).culled = false) :
    (insideVertCount k edge component (st.triangleList iTri) = 0 →
      ∃ st1, clipTriangle k edge component st iTri = some (st1, iTri) ∧
        st1.iTriangleCnt = st.iTriangleCnt ∧
        st1.triangleList iTri = { st.triangleList iTri with culled := true } ∧
        ∀ j, j ≠ iTri → st1.triangleList j = st.triangleList j) ∧
    (insideVertCount k edge component (st.triangleList iTri) = 3 →
      ∃ st1, clipTriangle k edge component st iTri = some (st1, iTri) ∧
        st1.iTriangleCnt = st.iTriangleCnt ∧
        st1.triangleList = st.triangleList) ∧
    (insideVertCount k edge component (st.triangleList iTri) = 1 →
      ∃ st1 A B C, clipTriangle k edge component st iTri = some (st1, iTri) ∧
        st1.iTriangleCnt = st.iTriangleCnt ∧
        IsPerm3 (st.triangleList iTri).pt0 (st.triangleList iTri).pt1
          (st.triangleList iTri).pt2 A B C ∧
        Passes k edge component A ∧ ¬ Passes k edge component B ∧
        ¬ Passes k edge component C ∧
        st1.triangleList iTri =
          ⟨A, Lerp A C ((edge - A.comp component) / (C.comp component - A.comp component)),
            Lerp A B ((edge - A.comp component) / (B.comp component - A.comp component)),
            false⟩ ∧
        (st1.triangleList iTri).pt1.comp component = edge ∧
        (st1.triangleList iTri).pt2.comp component = edge ∧
        ∀ j, j ≠ iTri → st1.triangleList j = st.triangleList j) ∧
    (insideVertCount k edge component (st.triangleList iTri) = 2 →
      st.iTriangleCnt < triangleListSize →
      ∃ st1 A B C, clipTriangle k edge component st iTri = some (st1, iTri + 1) ∧
        st1.iTriangleCnt = st.iTriangleCnt + 1 ∧
        IsPerm3 (st.triangleList iTri).pt0 (st.triangleList iTri).pt1
          (st.triangleList iTri).pt2 A B C ∧
        Passes k edge component A ∧ Passes k edge component B ∧
        ¬ Passes k edge component C ∧
        st1.triangleList iTri =
          ⟨B, Lerp C A ((edge - C.comp component) / (A.comp component - C.comp component)),
            Lerp C B ((edge - C.comp component) / (B.comp component - C.comp component)),
            false⟩ ∧
        st1.triangleList (iTri + 1) =
          ⟨A, B, Lerp C A ((edge - C.comp component) / (A.comp component - C.comp component)),
            false⟩ ∧
        (st1.triangleList iTri).pt1.comp component = edge ∧
        (st1.triangleList iTri).pt2.comp component = edge ∧
        (st1.triangleList (iTri + 1)).pt2.comp component = edge ∧
        (iTri + 1 < st.iTriangleCnt →
          st1.triangleList st.iTriangleCnt = st.triangleList (iTri + 1)) ∧
        ∀ j, j ≠ iTri → j ≠ iTri + 1 → j ≠ st.iTriangleCnt →
          st1.triangleList j = st.triangleList j) := by
  have h16 : iTri < triangleListSize := by omega
  obtain ⟨hperm, -, c1, c2, -⟩ := sortedTri_spec k edge component (st.triangleList iTri)
  refine ⟨fun hn => ?_, fun hn => ?_, fun hn => ?_, fun hn hcap => ?_⟩
  · obtain ⟨⟨st1, i1⟩, hres⟩ := clipTriangle_isSome_of_ne_two k edge component st iTri h16
      (by omega)
    obtain ⟨h1, h2, h3, h4⟩ := clipTriangle_zero hres hc hn
    obtain ⟨e0, e1, e2⟩ := sortedTri_of_zero k edge component _ hn
    subst h1
    exact ⟨st1, hres, h2, by rw [h3, e0, e1, e2], h4⟩
  · obtain ⟨⟨st1, i1⟩, hres⟩ := clipTriangle_isSome_of_ne_two k edge component st iTri h16
      (by omega)
    obtain ⟨h1, h2, h3, h4⟩ := clipTriangle_three hres hc hn
    obtain ⟨e0, e1, e2⟩ := sortedTri_of_three k edge component _ hn
    subst h1
    refine ⟨st1, hres, h2, funext fun j => ?_⟩
    by_cases hj : j = i1
    · subst hj
      rw [h3]
      cases hT : st.triangleList j with
      | mk a b c f =>
        rw [hT] at e0 e1 e2 hc
        simp only at e0 e1 e2 hc
        simp only [sortedTri, Triangle.mk.injEq] at e0 e1 e2 ⊢
        exact ⟨e0, e1, e2, hc.symm⟩
    · exact h4 j hj
  · obtain ⟨⟨st1, i1⟩, hres⟩ := clipTriangle_isSome_of_ne_two k edge component st iTri h16
      (by omega)
    obtain ⟨h1, h2, h3, h4⟩ := clipTriangle_one hres hc hn
    obtain ⟨hA, hB, hC⟩ := c1 hn
    subst h1
    refine ⟨st1, _, _, _, hres, h2, hperm, hA, hB, hC, h3, ?_, ?_, h4⟩
    · rw [h3]
      exact Lerp_on_plane edge component _ _ (ratio_pass_fail k edge component hA hC).1
    · rw [h3]
      exact Lerp_on_plane edge component _ _ (ratio_pass_fail k edge component hA hB).1
  · obtain ⟨⟨st1, i1⟩, hres⟩ := clipTriangle_isSome k edge component st iTri hlt hcap
    obtain ⟨h1, h2, -, h3, h4, h5, h6⟩ := clipTriangle_two hres hlt hc hn
    obtain ⟨hA, hB, hC⟩ := c2 hn
    subst h1
    refine ⟨st1, _, _, _, hres, h2, hperm, hA, hB, hC, h3, h4, ?_, ?_, ?_, h5, h6⟩
    · rw [h3]
      exact Lerp_on_plane edge component _ _ (ratio_fail_pass k edge component hC hA).1
    · rw [h3]
      exact Lerp_on_plane edge component _ _ (ratio_fail_pass k edge component hC hB).1
    · rw [h4]
      exact Lerp_on_plane edge component _ _ (ratio_fail_pass k edge component hC hA).1

/-- Witness for C21: the example triangle against the plane `x > 0`, which
one of its vertices passes. -/
theorem clipTriangle_cases_witness :
    (0 < exClipState.iTriangleCnt ∧ exClipState.iTriangleCnt ≤ triangleListSize ∧
      (exClipState.triangleList 0).culled = false ∧
      insideVertCount 0 (0 : ℚ) 0 (exClipState.triangleList 0) = 1) ∧
    ∃ st1, clipTriangle 0 (0 : ℚ) 0 exClipState 0 = some (st1, 0) ∧
      st1.iTriangleCnt = exClipState.iTriangleCnt ∧
      (st1.triangleList 0).pt1.comp 0 = 0 ∧ (st1.triangleList 0).pt2.comp 0 = 0 := by
  have h1 : 0 < exClipState.iTriangleCnt := by decide
  have h2 : exClipState.iTriangleCnt ≤ triangleListSize := by decide
  have h3 : (exClipState.triangleList 0).culled = false := rfl
  have h4 : insideVertCount 0 (0 : ℚ) 0 (exClipState.triangleList 0) = 1 := exTriangle_count
  obtain ⟨st1, A, B, C, hres, hcnt, -, -, -, -, -, e1, e2, -⟩ :=
    (clipTriangle_cases 0 (0 : ℚ) 0 exClipState 0 h1 h2 h3).2.2.1 h4
  exact ⟨⟨h1, h2, h3, h4⟩, st1, hres, hcnt, e1, e2⟩

/-- C26. Clipper frame and independence: `CalculateLightNearFar` returns the
bound with `Min.X`, `Max.X`, `Min.Y` and `Max.Y` as on entry, only `Min.Z` and
`Max.Z` are written; and a run that differs only in the `Min.Z` and `Max.Z` of
the bound on entry returns the same bound. -/
theorem CalculateLightNearFar_frame (b : BoundingBox K) (scene : Nat → float3 K)
    (uninit : Nat → Triangle K) (z1 z2 : K) :
    ∃ r, CalculateLightNearFar b scene uninit = some r ∧
      (r.Min.x = b.Min.x ∧ r.Min.y = b.Min.y ∧ r.Max.x = b.Max.x ∧ r.Max.y = b.Max.y) ∧
      CalculateLightNearFar ⟨{ b.Min with z := z1 }, { b.Max with z := z2 }⟩ scene uninit =
        some r := by
  obtain ⟨acc, hacc, -⟩ := foldTri_spec b scene uninit 12
  refine ⟨⟨{ b.Min with z := acc.2.1 }, { b.Max with z := acc.2.2 }⟩,
    by rw [CalculateLightNearFar_eq, hacc]; rfl, ⟨rfl, rfl, rfl, rfl⟩, ?_⟩
  rw [CalculateLightNearFar_eq, foldTri_z_indep, hacc]
  rfl

/-- C27. Boundary vertices count as outside: a vertex whose clip-axis
coordinate equals the edge value fails the inside test of every plane, Min or
Max; hence, if all 8 scene points have X equal to `Min.X` (or all equal to
`Max.X`, or likewise on Y), every point of the scene lies in the closed slab
on that axis, yet each of the 12 triangles ends with every entry of the
working list culled and the returned near/far are the sentinels `FLT_MAX` and
`-FLT_MAX`. -/
theorem CalculateLightNearFar_boundary (b : BoundingBox K) (scene : Nat → float3 K)
    (uninit : Nat → Triangle K)
    (hon : (∀ j, j < 8 → (scene j).x = b.Min.x) ∨ (∀ j, j < 8 → (scene j).x = b.Max.x) ∨
      (∀ j, j < 8 → (scene j).y = b.Min.y) ∨ (∀ j, j < 8 → (scene j).y = b.Max.y)) :
    (∀ (k : Nat) (edge : K) (component : Nat) (p : float3 K),
      p.comp component = edge → pointPassClip k edge component p = 0) ∧
    (∀ i, i < 12 → ∃ st, clippedAt b scene uninit i = some st ∧
      ∀ j, j < st.iTriangleCnt → (st.triangleList j).culled = true) ∧
    ∃ r, CalculateLightNearFar b scene uninit = some r ∧
      r.Min.z = FLT_MAX ∧ r.Max.z = -FLT_MAX := by
  have hk : ∃ k, k < 4 ∧ ∀ j, j < 8 → ¬ PlanePass b k (scene j) := by
    rcases hon with h | h | h | h
    · exact ⟨0, by omega, fun j hj => by
        simp [PlanePass, Passes, ClipPlaneEdge, float3.comp, h j hj]⟩
    · exact ⟨1, by omega, fun j hj => by
        simp [PlanePass, Passes, ClipPlaneEdge, float3.comp, h j hj]⟩
    · exact ⟨2, by omega, fun j hj => by
        simp [PlanePass, Passes, ClipPlaneEdge, float3.comp, h j hj]⟩
    · exact ⟨3, by omega, fun j hj => by
        simp [PlanePass, Passes, ClipPlaneEdge, float3.comp, h j hj]⟩
  obtain ⟨k, hk4, hfail⟩ := hk
  obtain ⟨⟨acc, hacc, hnf⟩, hall⟩ := foldTri_excluded b scene uninit hk4 hfail 12
  refine ⟨fun k edge component p hp => ?_, hall, _,
    by rw [CalculateLightNearFar_eq, hacc]; rfl, ?_, ?_⟩
  · unfold pointPassClip
    rw [hp]
    simp
  · show acc.2.1 = FLT_MAX
    rw [hnf]
  · show acc.2.2 = -FLT_MAX
    rw [hnf]

theorem exSceneOnPlane_x : ∀ j, j < 8 → (exSceneOnPlane j).x = exBox.Min.x := by
  intro j hj
  interval_cases j <;> norm_num [exBox, exSceneOnPlane]

/-- Witness for C27: a scene whose corners all have X = `Min.X` = -10, inside
the closed slab of the example box, gives the sentinels. -/
theorem CalculateLightNearFar_boundary_witness :
    (∀ j, j < 8 → (exSceneOnPlane j).x = exBox.Min.x) ∧
    (∀ j, j < 8 → InSlabClosed exBox (exSceneOnPlane j)) ∧
    ∃ r, CalculateLightNearFar exBox exSceneOnPlane exUninit = some r ∧
      r.Min.z = FLT_MAX ∧ r.Max.z = -FLT_MAX :=
  ⟨exSceneOnPlane_x,
    fun j hj => by interval_cases j <;> norm_num [InSlabClosed, exBox, exSceneOnPlane],
    (CalculateLightNearFar_boundary exBox exSceneOnPlane exUninit
      (Or.inl exSceneOnPlane_x)).2.2⟩

/-- C28. Snapping is a pure translation: for every padded box with positive
X/Y extent and `SHADOW_MAP_SIZE = S > 0`, with `w = (Max - Min) / S` the world
units per texel (positive on X and Y), the texel-snap step moves Min and Max
on each of X and Y down by the same amount `d` with `0 ≤ d < w`; so the
snapped box has the X/Y extent of the padded box, which is `S * w`, and its
X/Y bounds are integer multiples of `w`; Z is not touched. -/
theorem snapToTexel_translation [FloorRing K] (S : Nat) (padded : BoundingBox K)
    (hS : 0 < S) (hx : padded.Min.x < padded.Max.x) (hy : padded.Min.y < padded.Max.y) :
    (0 < ((padded.Max.sub padded.Min).sdiv (S : K)).x ∧
      0 < ((padded.Max.sub padded.Min).sdiv (S : K)).y) ∧
    (∃ dx, 0 ≤ dx ∧ dx < ((padded.Max.sub padded.Min).sdiv (S : K)).x ∧
      (snapToTexel true ((padded.Max.sub padded.Min).sdiv (S : K)) padded).Min.x =
        padded.Min.x - dx ∧
      (snapToTexel true ((padded.Max.sub padded.Min).sdiv (S : K)) padded).Max.x =
        padded.Max.x - dx) ∧
    (∃ dy, 0 ≤ dy ∧ dy < ((padded.Max.sub padded.Min).sdiv (S : K)).y ∧
      (snapToTexel true ((padded.Max.sub padded.Min).sdiv (S : K)) padded).Min.y =
        padded.Min.y - dy ∧
      (snapToTexel true ((padded.Max.sub padded.Min).sdiv (S : K)) padded).Max.y =
        padded.Max.y - dy) ∧
    ((snapToTexel true ((padded.Max.sub padded.Min).sdiv (S : K)) padded).Max.x -
        (snapToTexel true ((padded.Max.sub padded.Min).sdiv (S : K)) padded).Min.x =
        (S : K) * ((padded.Max.sub padded.Min).sdiv (S : K)).x ∧
      (snapToTexel true ((padded.Max.sub padded.Min).sdiv (S : K)) padded).Max.y -
        (snapToTexel true ((padded.Max.sub padded.Min).sdiv (S : K)) padded).Min.y =
        (S : K) * ((padded.Max.sub padded.Min).sdiv (S : K)).y ∧
      (S : K) * ((padded.Max.sub padded.Min).sdiv (S : K)).x = padded.Max.x - padded.Min.x ∧
      (S : K) * ((padded.Max.sub padded.Min).sdiv (S : K)).y = padded.Max.y - padded.Min.y) ∧
    (∃ m n : ℤ,
      (snapToTexel true ((padded.Max.sub padded.Min).sdiv (S : K)) padded).Min.x =
        (m : K) * ((padded.Max.sub padded.Min).sdiv (S : K)).x ∧
      (snapToTexel true ((padded.Max.sub padded.Min).sdiv (S : K)) padded).Max.x =
        (n : K) * ((padded.Max.sub padded.Min).sdiv (S : K)).x) ∧
    (∃ m n : ℤ,
      (snapToTexel true ((padded.Max.sub padded.Min).sdiv (S : K)) padded).Min.y =
        (m : K) * ((padded.Max.sub padded.Min).sdiv (S : K)).y ∧
      (snapToTexel true ((padded.Max.sub padded.Min).sdiv (S : K)) padded).Max.y =
        (n : K) * ((padded.Max.sub padded.Min).sdiv (S : K)).y) ∧
    ((snapToTexel true ((padded.Max.sub padded.Min).sdiv (S : K)) padded).Min.z = padded.Min.z ∧
      (snapToTexel true ((padded.Max.sub padded.Min).sdiv (S : K)) padded).Max.z =
        padded.Max.z) := by
  have hS0 : (S : K) ≠ 0 := by exact_mod_cast hS.ne'
  obtain ⟨hwx, dx, hdx0, hdx1, hxlo, hxhi⟩ := snap_axis padded.Min.x padded.Max.x S hS hx
  obtain ⟨hwy, dy, hdy0, hdy1, hylo, hyhi⟩ := snap_axis padded.Min.y padded.Max.y S hS hy
  simp only [snapToTexel, if_true, float3.sub, float3.sdiv]
  refine ⟨⟨hwx, hwy⟩, ⟨dx, hdx0, hdx1, hxlo, hxhi⟩, ⟨dy, hdy0, hdy1, hylo, hyhi⟩,
    ⟨?_, ?_, ?_, ?_⟩, ⟨_, _, rfl, rfl⟩, ⟨_, _, rfl, rfl⟩, trivial, trivial⟩
  · rw [hxlo, hxhi]
    field_simp
  · rw [hylo, hyhi]
    field_simp
  · field_simp
  · field_simp

/-- Witness for C28: the example cascade box with 1024 texels. -/
theorem snapToTexel_translation_witness :
    ((0 : Nat) < 1024 ∧ exCascade.Min.x < exCascade.Max.x ∧
      exCascade.Min.y < exCascade.Max.y) ∧
    (snapToTexel true ((exCascade.Max.sub exCascade.Min).sdiv ((1024 : Nat) : ℚ))
        exCascade).Max.x -
      (snapToTexel true ((exCascade.Max.sub exCascade.Min).sdiv ((1024 : Nat) : ℚ))
        exCascade).Min.x =
      ((1024 : Nat) : ℚ) * ((exCascade.Max.sub exCascade.Min).sdiv ((1024 : Nat) : ℚ)).x :=
  ⟨⟨by norm_num, by norm_num [exCascade], by norm_num [exCascade]⟩,
    (snapToTexel_translation 1024 exCascade (by norm_num) (by norm_num [exCascade])
      (by norm_num [exCascade])).2.2.2.1.1⟩

/-- C25. Tile grid covers the screen: for a positive `TileGroupSize` and every
accumulation-image width and height >= 1 with dimension + TileGroupSize - 1 <
2^32 (no wrap of the `uint32_t` arithmetic), the dispatched group counts
satisfy (numGroup - 1) * TileGroupSize < dimension <= numGroup * TileGroupSize
on each axis, that is numGroup is the ceiling of dimension / TileGroupSize,
and every pixel lies in exactly one dispatched tile; the third group count
is 1. -/
theorem dispatchGroups_cover (windowWidth windowHeight TileGroupSize : Nat)
    (hT : 0 < TileGroupSize) (hw : 1 ≤ windowWidth) (hh : 1 ≤ windowHeight)
    (hwrapX : windowWidth + TileGroupSize - 1 < 2 ^ 32)
    (hwrapY : windowHeight + TileGroupSize - 1 < 2 ^ 32) :
    ((TiledDeferredPath.dispatchGroups windowWidth windowHeight TileGroupSize).1 - 1) *
        TileGroupSize < windowWidth ∧
    windowWidth ≤
      (TiledDeferredPath.dispatchGroups windowWidth windowHeight TileGroupSize).1 *
        TileGroupSize ∧
    ((TiledDeferredPath.dispatchGroups windowWidth windowHeight TileGroupSize).2.1 - 1) *
        TileGroupSize < windowHeight ∧
    windowHeight ≤
      (TiledDeferredPath.dispatchGroups windowWidth windowHeight TileGroupSize).2.1 *
        TileGroupSize ∧
    (TiledDeferredPath.dispatchGroups windowWidth windowHeight TileGroupSize).2.2 = 1 ∧
    (∀ x y, x < windowWidth → y < windowHeight →
      ∃! g : Nat × Nat,
        g.1 < (TiledDeferredPath.dispatchGroups windowWidth windowHeight TileGroupSize).1 ∧
        g.2 < (TiledDeferredPath.dispatchGroups windowWidth windowHeight TileGroupSize).2.1 ∧
        g.1 * TileGroupSize ≤ x ∧ x < (g.1 + 1) * TileGroupSize ∧
        g.2 * TileGroupSize ≤ y ∧ y < (g.2 + 1) * TileGroupSize) := by
  obtain ⟨-, hx1, hx2⟩ := numGroup_ceil windowWidth TileGroupSize hT hw hwrapX
  obtain ⟨-, hy1, hy2⟩ := numGroup_ceil windowHeight TileGroupSize hT hh hwrapY
  refine ⟨hx1, hx2, hy1, hy2, rfl, fun x y hx hy => ?_⟩
  obtain ⟨gx, ⟨a1, a2, a3⟩, ux⟩ := tile_unique TileGroupSize _ windowWidth x hT hx hx2
  obtain ⟨gy, ⟨b1, b2, b3⟩, uy⟩ := tile_unique TileGroupSize _ windowHeight y hT hy hy2
  refine ⟨(gx, gy), ⟨a1, b1, a2, a3, b2, b3⟩, ?_⟩
  rintro ⟨g1, g2⟩ ⟨c1, c2, c3, c4, c5, c6⟩
  rw [ux g1 ⟨c1, c3, c4⟩, uy g2 ⟨c2, c5, c6⟩]

/-- Witness for C25: a 1920 x 1080 image with tiles of 32 pixels gives 60 x 34
groups. -/
theorem dispatchGroups_cover_witness :
    ((0 : Nat) < 32 ∧ (1 : Nat) ≤ 1920 ∧ (1 : Nat) ≤ 1080 ∧ 1920 + 32 - 1 < 2 ^ 32 ∧
      1080 + 32 - 1 < 2 ^ 32) ∧
    TiledDeferredPath.dispatchGroups 1920 1080 32 = (60, 34, 1) ∧
    1080 ≤ (TiledDeferredPath.dispatchGroups 1920 1080 32).2.1 * 32 :=
  ⟨⟨by norm_num, by norm_num, by norm_num, by norm_num, by norm_num⟩, by decide,
    (dispatchGroups_cover 1920 1080 32 (by norm_num) (by norm_num) (by norm_num)
      (by norm_num) (by norm_num)).2.2.2.1⟩

/-- C24, as stated, fails: with the camera's right vector (1, 0, 0) and the
light direction (-1, 0, 0) the dot product is -1, not greater than 0.9, yet
the light's up vector is the camera's up vector, not its right vector. -/
theorem lightUp_counterexample :
    ¬ (Dot exCamera.Right (⟨-1, 0, 0⟩ : float3 ℚ) > 9 / 10) ∧
    lightUpVector exCamera (⟨-1, 0, 0⟩ : float3 ℚ) = exCamera.Up ∧
    exCamera.Up ≠ exCamera.Right := by
  refine ⟨?_, ?_, ?_⟩
  · norm_num [Dot, exCamera]
  · norm_num [lightUpVector, Dot, exCamera, abs_of_neg]
  · simp [exCamera]

/-- C24 (amended). Light basis up vector: in `UpdateShadowMatrix` the
light-space up vector is the camera's right vector, except that it is the
camera's up vector when the absolute value of the dot product of the
camera's right vector with the light direction is greater than 0.9 (the dot
product is above 0.9 or below -0.9); all N light cameras, and the shared
shadow view when N >= 1, get the look-at view built from the origin, the
light direction and that up vector. -/
theorem lightUp_lookAt [FloorRing K] (env : ShadowEnv K) (csm : CascadedShadowMap K)
    (camera : Camera K) (light : Light K) (sceneAABB : Nat → float3 K)
    (Corners : Nat → Nat → float3 K) (uninit : Nat → Nat → Triangle K)
    (h0 : 0 < csm.mLightCamera.length)
    (hcam : light.ShadowCascades ≤ csm.mLightCamera.length)
    (hscale : light.ShadowCascades ≤ csm.mShadowCascadeScale.length)
    (hoff : light.ShadowCascades ≤ csm.mShadowCascadeOffset.length) :
    ((9 / 10 < Dot camera.Right light.DerivedDirection ∨
        Dot camera.Right light.DerivedDirection < -(9 / 10)) →
      lightUpVector camera light.DerivedDirection = camera.Up) ∧
    ((-(9 / 10) ≤ Dot camera.Right light.DerivedDirection ∧
        Dot camera.Right light.DerivedDirection ≤ 9 / 10) →
      lightUpVector camera light.DerivedDirection = camera.Right) ∧
    ∃ csm1, csm.UpdateShadowMatrix env camera light sceneAABB Corners uninit = some csm1 ∧
      (∀ i, i < light.ShadowCascades → ∃ cam, csm1.mLightCamera[i]? = some cam ∧
        cam.ViewMatrix = env.lookAt ⟨0, 0, 0⟩ light.DerivedDirection
          (lightUpVector camera light.DerivedDirection)) ∧
      (0 < light.ShadowCascades →
        csm1.mShadowView = env.lookAt ⟨0, 0, 0⟩ light.DerivedDirection
          (lightUpVector camera light.DerivedDirection)) := by
  refine ⟨fun h => ?_, fun h => ?_, ?_⟩
  · unfold lightUpVector
    rw [if_pos]
    rcases h with h | h
    · exact lt_of_lt_of_le h (le_abs_self _)
    · exact lt_of_lt_of_le (by linarith) (neg_le_abs _)
  · unfold lightUpVector
    rw [if_neg]
    rw [not_lt, abs_le]
    exact h
  · obtain ⟨s0, hs0, ⟨e1, e2, e3⟩, -, hlt, ⟨camera0, hc0, hview⟩, -, -⟩ :=
      cascadeLoopInit_spec env csm camera light Corners hcam h0
    obtain ⟨s0', hs0', hP⟩ := cascadeInv_init env csm camera light Corners hcam h0
    rw [hs0] at hs0'
    obtain rfl : s0 = s0' := Option.some.inj hs0'
    obtain ⟨s, hs, -, -, hcams⟩ := cascadeLoop_spec env camera
      (sceneLightSpace s0.csm.mShadowView sceneAABB) uninit s0 light.ShadowCascades
      (by rw [e1]; exact hcam) (by rw [e2]; exact hscale) (by rw [e3]; exact hoff)
    obtain ⟨s', hs', hPs⟩ := cascadeLoop_inv env camera
      (sceneLightSpace s0.csm.mShadowView sceneAABB) uninit _ _ _ _ _ s0 light.ShadowCascades
      hcam hscale hoff hP
    rw [hs] at hs'
    obtain rfl : s = s' := Option.some.inj hs'
    refine ⟨s.csm, ?_, fun i hi => ?_, fun hpos => ?_⟩
    · rw [UpdateShadowMatrix_eq, cascadeStateAt, hs0]
      simp only [Option.some_bind]
      rw [hs]
      rfl
    · obtain ⟨b, cam, c1, c2⟩ := hcams i hi
      refine ⟨_, c2, ?_⟩
      have h1 := hlt i hi
      rw [c1] at h1
      cases hc : csm.mLightCamera[i]? with
      | none => rw [hc] at h1; cases h1
      | some cam0 =>
        rw [hc] at h1
        simp only [Option.map_some', Option.some.injEq] at h1
        rw [h1]
        rfl
    · rw [hPs.1, hview]
      have h1 := hlt 0 hpos
      rw [hc0, List.getElem?_eq_getElem h0] at h1
      simp only [Option.map_some', Option.some.injEq] at h1
      rw [h1]
      rfl

/-- Witness for C24: the shadow manager right after construction and a light
with three cascades shining straight down. -/
theorem lightUp_lookAt_witness :
    (0 < exShadowMap.mLightCamera.length ∧
      exSun.ShadowCascades ≤ exShadowMap.mLightCamera.length ∧
      exSun.ShadowCascades ≤ exShadowMap.mShadowCascadeScale.length ∧
      exSun.ShadowCascades ≤ exShadowMap.mShadowCascadeOffset.length) ∧
    (-(9 / 10) ≤ Dot exCamera.Right exSun.DerivedDirection ∧
      Dot exCamera.Right exSun.DerivedDirection ≤ 9 / 10) ∧
    lightUpVector exCamera exSun.DerivedDirection = exCamera.Right := by
  have h0 : 0 < exShadowMap.mLightCamera.length := by
    simp [exShadowMap, CascadedShadowMap.ctor, exEnv]
  have h2 : exSun.ShadowCascades ≤ exShadowMap.mLightCamera.length := by
    simp [exShadowMap, CascadedShadowMap.ctor, exSun, exLight, exEnv]
  have h3 : exSun.ShadowCascades ≤ exShadowMap.mShadowCascadeScale.length := by
    simp [exShadowMap, CascadedShadowMap.ctor, exSun, exLight, exEnv]
  have h4 : exSun.ShadowCascades ≤ exShadowMap.mShadowCascadeOffset.length := by
    simp [exShadowMap, CascadedShadowMap.ctor, exSun, exLight, exEnv]
  have h5 : -(9 / 10) ≤ Dot exCamera.Right exSun.DerivedDirection ∧
      Dot exCamera.Right exSun.DerivedDirection ≤ 9 / 10 := by
    norm_num [Dot, exCamera, exSun, exLight]
  exact ⟨⟨h0, h2, h3, h4⟩, h5,
    (lightUp_lookAt exEnv exShadowMap exCamera exSun exScene (fun _ _ => ⟨0, 0, 0⟩)
      (fun _ => exUninit) h0 h2 h3 h4).2.1 h5⟩

/-- C23. Ping-pong equivalence: for every cascade count N >= 1 (within the
lengths of the three arrays) and every cascade i < N, the run of
`UpdateShadowMatrix` reaches iteration i, and the light-space box that the
iteration builds before padding, from the two swapped corner buffers, equals
the bounding box of the 8 corners extracted afresh at `split[i]` and
`split[i+1]` and transformed by the light view.  The complete run returns;
it has called `FrustumPlaneExtraction` exactly N+1 times, at the depths
`split[0], ..., split[N]` in this order; and in the members it returns, the
projection, scale and offset of every cascade i < N are those fitted to the
box of the corners extracted afresh. -/
theorem pingPong_equiv [FloorRing K] (env : ShadowEnv K) (csm : CascadedShadowMap K)
    (camera : Camera K) (light : Light K) (sceneAABB : Nat → float3 K)
    (Corners : Nat → Nat → float3 K) (uninit : Nat → Nat → Triangle K)
    (hN : 1 ≤ light.ShadowCascades)
    (hcam : light.ShadowCascades ≤ csm.mLightCamera.length)
    (hscale : light.ShadowCascades ≤ csm.mShadowCascadeScale.length)
    (hoff : light.ShadowCascades ≤ csm.mShadowCascadeOffset.length) :
    (∀ i, i < light.ShadowCascades →
      ∃ s, cascadeStateAt env csm camera light sceneAABB Corners uninit i = some s ∧
        cascadeBoundSplit env camera s i =
          some (freshCascadeBox env.tanf camera
            (env.lookAt ⟨0, 0, 0⟩ light.DerivedDirection
              (lightUpVector camera light.DerivedDirection))
            (computeSplitPlanes env.powf camera.NearPlane camera.FarPlane light.SplitLambda
              light.ShadowCascades csm.mSplitPlanes) i)) ∧
    ∃ s, cascadeStateAt env csm camera light sceneAABB Corners uninit
        light.ShadowCascades = some s ∧
      csm.UpdateShadowMatrix env camera light sceneAABB Corners uninit = some s.csm ∧
      s.extractionCalls.length = light.ShadowCascades + 1 ∧
      s.extractionCalls = (List.range (light.ShadowCascades + 1)).map
        (computeSplitPlanes env.powf camera.NearPlane camera.FarPlane light.SplitLambda
          light.ShadowCascades csm.mSplitPlanes) ∧
      CascadeFitted env csm.mMoveLightTexelSize csm.mShadowTextureNorm
        (sceneLightSpace (env.lookAt ⟨0, 0, 0⟩ light.DerivedDirection
          (lightUpVector camera light.DerivedDirection)) sceneAABB) uninit
        (freshCascadeBox env.tanf camera
          (env.lookAt ⟨0, 0, 0⟩ light.DerivedDirection
            (lightUpVector camera light.DerivedDirection))
          (computeSplitPlanes env.powf camera.NearPlane camera.FarPlane light.SplitLambda
            light.ShadowCascades csm.mSplitPlanes)) light.ShadowCascades s.csm := by
  refine ⟨fun i hi => ?_, ?_⟩
  · obtain ⟨s, hs, hPs, -⟩ := cascadeStateAt_spec env csm camera light sceneAABB Corners
      uninit hN hcam hscale hoff i (by omega)
    exact ⟨s, hs, cascadeBoundSplit_eq env camera _ _ _ _ _ i s hPs⟩
  · obtain ⟨s, hs, hPs, hF⟩ := cascadeStateAt_spec env csm camera light sceneAABB Corners
      uninit hN hcam hscale hoff light.ShadowCascades le_rfl
    have hlog := hPs.2.2.2.2.2.2.2
    refine ⟨s, hs, ?_, by rw [hlog]; simp, hlog, hF⟩
    rw [UpdateShadowMatrix_eq, hs]
    rfl

/-- Witness for C23: the shadow manager right after construction and a light
with three cascades: the run makes four extractions. -/
theorem pingPong_equiv_witness :
    (1 ≤ exSun.ShadowCascades ∧ exSun.ShadowCascades ≤ exShadowMap.mLightCamera.length ∧
      exSun.ShadowCascades ≤ exShadowMap.mShadowCascadeScale.length ∧
      exSun.ShadowCascades ≤ exShadowMap.mShadowCascadeOffset.length) ∧
    ∃ s, cascadeStateAt exEnv exShadowMap exCamera exSun exScene (fun _ _ => ⟨0, 0, 0⟩)
        (fun _ => exUninit) exSun.ShadowCascades = some s ∧
      exShadowMap.UpdateShadowMatrix exEnv exCamera exSun exScene (fun _ _ => ⟨0, 0, 0⟩)
        (fun _ => exUninit) = some s.csm ∧
      s.extractionCalls.length = 3 + 1 := by
  have h1 : 1 ≤ exSun.ShadowCascades := by decide
  have h2 : exSun.ShadowCascades ≤ exShadowMap.mLightCamera.length := by
    simp [exShadowMap, CascadedShadowMap.ctor, exSun, exLight, exEnv]
  have h3 : exSun.ShadowCascades ≤ exShadowMap.mShadowCascadeScale.length := by
    simp [exShadowMap, CascadedShadowMap.ctor, exSun, exLight, exEnv]
  have h4 : exSun.ShadowCascades ≤ exShadowMap.mShadowCascadeOffset.length := by
    simp [exShadowMap, CascadedShadowMap.ctor, exSun, exLight, exEnv]
  obtain ⟨s, hs, hr, hlen, -⟩ :=
    (pingPong_equiv exEnv exShadowMap exCamera exSun exScene (fun _ _ => ⟨0, 0, 0⟩)
      (fun _ => exUninit) h1 h2 h3 h4).2
  exact ⟨⟨h1, h2, h3, h4⟩, s, hs, hr, hlen⟩

/-- C8. Cascade split formula: for every `N ≥ 1` (within the lengths of the
three cascade arrays), `UpdateShadowMatrix` returns, and in the members it
returns `split[0] = near`, `split[N] = far`, and for every `i` with
`0 < i < N`,
`split[i] = λ·near·(far/near)^(i/N) + (1-λ)·(near + (far-near)·i/N)`
whenever the quotient `far/near` and its power are defined (`near ≠ 0`,
`0 ≤ far/near`); `powf` is the real power function. -/
theorem splitPlanes_formula (env : ShadowEnv ℝ) (csm : CascadedShadowMap ℝ)
    (camera : Camera ℝ) (light : Light ℝ) (sceneAABB : Nat → float3 ℝ)
    (Corners : Nat → Nat → float3 ℝ) (uninit : Nat → Nat → Triangle ℝ)
    (hpow : env.powf = fun x y => x ^ y)
    (hN : 1 ≤ light.ShadowCascades)
    (hcam : light.ShadowCascades ≤ csm.mLightCamera.length)
    (hscale : light.ShadowCascades ≤ csm.mShadowCascadeScale.length)
    (hoff : light.ShadowCascades ≤ csm.mShadowCascadeOffset.length) :
    ∃ csm1, csm.UpdateShadowMatrix env camera light sceneAABB Corners uninit = some csm1 ∧
      csm1.mSplitPlanes 0 = camera.NearPlane ∧
      csm1.mSplitPlanes light.ShadowCascades = camera.FarPlane ∧
      ∀ i, 0 < i → i < light.ShadowCascades →
        camera.NearPlane ≠ 0 → 0 ≤ camera.FarPlane / camera.NearPlane →
        csm1.mSplitPlanes i =
          light.SplitLambda * camera.NearPlane *
              (camera.FarPlane / camera.NearPlane) ^
                ((i : ℝ) / (light.ShadowCascades : ℝ)) +
            (1 - light.SplitLambda) *
              (camera.NearPlane + (camera.FarPlane - camera.NearPlane) * (i : ℝ) /
                (light.ShadowCascades : ℝ)) := by
  obtain ⟨csm1, hrun, hsp, -⟩ := UpdateShadowMatrix_run env csm camera light sceneAABB Corners
    uninit hN hcam hscale hoff
  rw [hpow] at hsp
  obtain ⟨f0, f1, f2⟩ := computeSplitPlanes_formula camera.NearPlane camera.FarPlane
    light.SplitLambda light.ShadowCascades csm.mSplitPlanes hN
  exact ⟨csm1, hrun, by rw [hsp, f0], by rw [hsp, f1],
    fun i h0 hi _ _ => by rw [hsp, f2 i h0 hi]⟩

/-- Witness for C8: the shadow manager right after construction, the camera
with near 1 and far 500, three cascades, split-lambda 1/2: the first inner
split depth. -/
theorem splitPlanes_formula_witness :
    (1 ≤ 3 ∧ 0 < 1 ∧ 1 < 3 ∧ (1 : ℝ) ≠ 0 ∧ (0 : ℝ) ≤ 500 / 1) ∧
    ∃ csm1, (exShadowMapWith (exEnvWith (fun x y : ℝ => x ^ y) (CreateTranslation 0 0 0))
        (fun _ => 0)).UpdateShadowMatrix
          (exEnvWith (fun x y : ℝ => x ^ y) (CreateTranslation 0 0 0))
          (exCameraWith 1 500) (exSunWith 3 (1 / 2)) exSceneWith (fun _ _ => ⟨0, 0, 0⟩)
          (fun _ _ => ⟨⟨0, 0, 0⟩, ⟨0, 0, 0⟩, ⟨0, 0, 0⟩, false⟩) = some csm1 ∧
      csm1.mSplitPlanes 1 =
        1 / 2 * 1 * (500 / 1) ^ (((1 : Nat) : ℝ) / ((3 : Nat) : ℝ)) +
          (1 - 1 / 2) * (1 + (500 - 1) * ((1 : Nat) : ℝ) / ((3 : Nat) : ℝ)) := by
  obtain ⟨csm1, hrun, -, -, h⟩ := splitPlanes_formula
    (exEnvWith (fun x y : ℝ => x ^ y) (CreateTranslation 0 0 0))
    (exShadowMapWith (exEnvWith (fun x y : ℝ => x ^ y) (CreateTranslation 0 0 0)) (fun _ => 0))
    (exCameraWith 1 500) (exSunWith 3 (1 / 2)) exSceneWith (fun _ _ => ⟨0, 0, 0⟩)
    (fun _ _ => ⟨⟨0, 0, 0⟩, ⟨0, 0, 0⟩, ⟨0, 0, 0⟩, false⟩) rfl (by decide)
    (by rw [(exShadowMapWith_lengths _ _).1]; decide)
    (by rw [(exShadowMapWith_lengths _ _).2.1]; decide)
    (by rw [(exShadowMapWith_lengths _ _).2.2]; decide)
  exact ⟨⟨by decide, by decide, by decide, by norm_num, by norm_num⟩, csm1, hrun,
    h 1 (by decide) (by decide) (by norm_num [exCameraWith]) (by norm_num [exCameraWith])⟩

/-- C9, as stated, fails: in the configuration of the test application
(three cascades, split-lambda 0.5, near 1, far 500), on the shadow manager
right after construction, with the split-depth array holding 0, 1, 2, ...
from before, `UpdateShadowMatrix` returns `split[1]` above 83, so not within
1 of 22.36, and `split[2]` above 166, so not within 1 of 111.8. -/
theorem splitPlanes_scenario_counterexample :
    ∃ csm1, (exShadowMapWith (exEnvWith (fun x y : ℝ => x ^ y) (CreateTranslation 0 0 0))
        (fun i => (i : ℝ))).UpdateShadowMatrix
          (exEnvWith (fun x y : ℝ => x ^ y) (CreateTranslation 0 0 0))
          (exCameraWith 1 500) (exSunWith 3 (1 / 2)) exSceneWith (fun _ _ => ⟨0, 0, 0⟩)
          (fun _ _ => ⟨⟨0, 0, 0⟩, ⟨0, 0, 0⟩, ⟨0, 0, 0⟩, false⟩) = some csm1 ∧
      ¬ (|csm1.mSplitPlanes 1 - 22.36| ≤ 1) ∧ ¬ (|csm1.mSplitPlanes 2 - 111.8| ≤ 1) := by
  obtain ⟨csm1, hrun, hsp, -⟩ := UpdateShadowMatrix_run
    (exEnvWith (fun x y : ℝ => x ^ y) (CreateTranslation 0 0 0))
    (exShadowMapWith (exEnvWith (fun x y : ℝ => x ^ y) (CreateTranslation 0 0 0))
      (fun i => (i : ℝ)))
    (exCameraWith 1 500) (exSunWith 3 (1 / 2)) exSceneWith (fun _ _ => ⟨0, 0, 0⟩)
    (fun _ _ => ⟨⟨0, 0, 0⟩, ⟨0, 0, 0⟩, ⟨0, 0, 0⟩, false⟩) (by decide)
    (by rw [(exShadowMapWith_lengths _ _).1]; decide)
    (by rw [(exShadowMapWith_lengths _ _).2.1]; decide)
    (by rw [(exShadowMapWith_lengths _ _).2.2]; decide)
  refine ⟨csm1, hrun, ?_⟩
  rw [hsp]
  exact computeSplitPlanes_scenario_far _

/-- C9 (amended). Split scenario: with `N = 3` cascades, split-lambda 0.5,
`near = 1` and `far = 500`, from any members with at least three entries in
each cascade array, `UpdateShadowMatrix` returns, and the split depths in the
members it returns are 1, approximately 87.64, approximately 198.33, and 500
(each within half a unit of the last digit shown); `powf` is the real power
function. -/
theorem splitPlanes_scenario (env : ShadowEnv ℝ) (csm : CascadedShadowMap ℝ)
    (camera : Camera ℝ) (light : Light ℝ) (sceneAABB : Nat → float3 ℝ)
    (Corners : Nat → Nat → float3 ℝ) (uninit : Nat → Nat → Triangle ℝ)
    (hpow : env.powf = fun x y => x ^ y)
    (hN : light.ShadowCascades = 3) (hl : light.SplitLambda = 1 / 2)
    (hnear : camera.NearPlane = 1) (hfar : camera.FarPlane = 500)
    (hcam : 3 ≤ csm.mLightCamera.length)
    (hscale : 3 ≤ csm.mShadowCascadeScale.length)
    (hoff : 3 ≤ csm.mShadowCascadeOffset.length) :
    ∃ csm1, csm.UpdateShadowMatrix env camera light sceneAABB Corners uninit = some csm1 ∧
      csm1.mSplitPlanes 0 = 1 ∧
      |csm1.mSplitPlanes 1 - 87.64| ≤ 0.005 ∧
      |csm1.mSplitPlanes 2 - 198.33| ≤ 0.005 ∧
      csm1.mSplitPlanes 3 = 500 := by
  obtain ⟨csm1, hrun, hsp, -⟩ := UpdateShadowMatrix_run env csm camera light sceneAABB Corners
    uninit (by omega) (by omega) (by omega) (by omega)
  rw [hpow, hN, hl, hnear, hfar] at hsp
  refine ⟨csm1, hrun, ?_⟩
  rw [hsp]
  exact computeSplitPlanes_scenario csm.mSplitPlanes

/-- Witness for C9: the shadow manager right after construction with four
entries per array, and the camera and light of the test application. -/
theorem splitPlanes_scenario_witness :
    ((exSunWith 3 (1 / 2 : ℝ)).ShadowCascades = 3 ∧
      (exSunWith 3 (1 / 2 : ℝ)).SplitLambda = 1 / 2 ∧
      (exCameraWith (1 : ℝ) 500).NearPlane = 1 ∧ (exCameraWith (1 : ℝ) 500).FarPlane = 500) ∧
    ∃ csm1, (exShadowMapWith (exEnvWith (fun x y : ℝ => x ^ y) (CreateTranslation 0 0 0))
        (fun _ => 0)).UpdateShadowMatrix
          (exEnvWith (fun x y : ℝ => x ^ y) (CreateTranslation 0 0 0))
          (exCameraWith 1 500) (exSunWith 3 (1 / 2)) exSceneWith (fun _ _ => ⟨0, 0, 0⟩)
          (fun _ _ => ⟨⟨0, 0, 0⟩, ⟨0, 0, 0⟩, ⟨0, 0, 0⟩, false⟩) = some csm1 ∧
      |csm1.mSplitPlanes 1 - 87.64| ≤ 0.005 := by
  obtain ⟨csm1, hrun, -, h, -⟩ := splitPlanes_scenario
    (exEnvWith (fun x y : ℝ => x ^ y) (CreateTranslation 0 0 0))
    (exShadowMapWith (exEnvWith (fun x y : ℝ => x ^ y) (CreateTranslation 0 0 0)) (fun _ => 0))
    (exCameraWith 1 500) (exSunWith 3 (1 / 2)) exSceneWith (fun _ _ => ⟨0, 0, 0⟩)
    (fun _ _ => ⟨⟨0, 0, 0⟩, ⟨0, 0, 0⟩, ⟨0, 0, 0⟩, false⟩) rfl rfl rfl rfl rfl
    (by rw [(exShadowMapWith_lengths _ _).1]; decide)
    (by rw [(exShadowMapWith_lengths _ _).2.1]; decide)
    (by rw [(exShadowMapWith_lengths _ _).2.2]; decide)
  exact ⟨⟨rfl, rfl, rfl, rfl⟩, csm1, hrun, h⟩

/-- C12, as stated, fails: with a look-at construction that returns a
translation along Z, a run of `UpdateShadowMatrix` for three cascades on the
shadow manager right after construction (light cameras with the identity as
view) changes the view matrix of light camera 0, not only its projection. -/
theorem UpdateShadowMatrix_frame_counterexample :
    (exSunWith 3 (1 / 2 : ℚ)).ShadowCascades ≤
      (exEnvWith (fun x _ : ℚ => x) (CreateTranslation 0 0 (-10))).MAX_CASCADES ∧
    ∃ csm1 cam0 cam1,
      (exShadowMapWith (exEnvWith (fun x _ : ℚ => x) (CreateTranslation 0 0 (-10)))
        (fun _ => 0)).UpdateShadowMatrix
          (exEnvWith (fun x _ : ℚ => x) (CreateTranslation 0 0 (-10)))
          (exCameraWith 1 500) (exSunWith 3 (1 / 2)) exSceneWith (fun _ _ => ⟨0, 0, 0⟩)
          (fun _ _ => ⟨⟨0, 0, 0⟩, ⟨0, 0, 0⟩, ⟨0, 0, 0⟩, false⟩) = some csm1 ∧
      (exShadowMapWith (exEnvWith (fun x _ : ℚ => x) (CreateTranslation 0 0 (-10)))
        (fun _ => 0)).mLightCamera[0]? = some cam0 ∧
      csm1.mLightCamera[0]? = some cam1 ∧
      cam0.ViewMatrix = (CreateTranslation 0 0 0 : float4x4 ℚ) ∧
      cam1.ViewMatrix = (CreateTranslation 0 0 (-10) : float4x4 ℚ) ∧
      cam1.ViewMatrix ≠ cam0.ViewMatrix := by
  obtain ⟨csm1, hrun, -, hv⟩ := UpdateShadowMatrix_run
    (exEnvWith (fun x _ : ℚ => x) (CreateTranslation 0 0 (-10)))
    (exShadowMapWith (exEnvWith (fun x _ : ℚ => x) (CreateTranslation 0 0 (-10))) (fun _ => 0))
    (exCameraWith 1 500) (exSunWith 3 (1 / 2)) exSceneWith (fun _ _ => ⟨0, 0, 0⟩)
    (fun _ _ => ⟨⟨0, 0, 0⟩, ⟨0, 0, 0⟩, ⟨0, 0, 0⟩, false⟩) (by decide)
    (by rw [(exShadowMapWith_lengths _ _).1]; decide)
    (by rw [(exShadowMapWith_lengths _ _).2.1]; decide)
    (by rw [(exShadowMapWith_lengths _ _).2.2]; decide)
  obtain ⟨cam0, cam1, h0, h1, hview⟩ := hv 0 (by decide)
  have hc0 : cam0.ViewMatrix = (CreateTranslation 0 0 0 : float4x4 ℚ) := by
    have e : (exShadowMapWith (exEnvWith (fun x _ : ℚ => x) (CreateTranslation 0 0 (-10)))
        (fun _ => 0)).mLightCamera[0]? = some (exCameraWith 1 500) := by
      simp [exShadowMapWith, CascadedShadowMap.ctor, exEnvWith]
    rw [e] at h0
    rw [← Option.some.inj h0]
    rfl
  have hc1 : cam1.ViewMatrix = (CreateTranslation 0 0 (-10) : float4x4 ℚ) := by
    rw [hview]
    rfl
  refine ⟨by decide, csm1, cam0, cam1, hrun, h0, h1, hc0, hc1, ?_⟩
  rw [hc0, hc1]
  intro h
  have h43 := congrArg float4x4.M43 h
  norm_num [CreateTranslation] at h43

/-- C3, as stated, fails in `float` arithmetic: for the clip box with X in
[0, 3] and Y in [-2, -1] and eight scene points with integer coordinates that
all have `Y ≥ Max.Y = -1`, the clipper with every operation rounded to
binary32 returns `Min.Z = Max.Z = -1`, not the sentinels: a point created on
the plane `Max.X` gets a `Y` just below -1 and passes the test of the plane
`Max.Y`. -/
theorem CalculateLightNearFar_excluded_counterexample :
    (∀ j, j < 8 → exBoxBelow.Max.y ≤ (exSceneAbove j).y) ∧
    (∀ j, j < 8 → round32 (exSceneAbove j).x = (exSceneAbove j).x ∧
      round32 (exSceneAbove j).y = (exSceneAbove j).y ∧
      round32 (exSceneAbove j).z = (exSceneAbove j).z) ∧
    (CalculateLightNearFarRounded round32 exBoxBelow exSceneAbove exUninit).map
      (fun r => (r.Min.z, r.Max.z)) = some (-1, -1) ∧
    ((-1 : ℚ), (-1 : ℚ)) ≠ (FLT_MAX, -FLT_MAX) := by
  decide!

/-- C6, as stated, fails in `float` arithmetic: for the clip box with X in
[-2, 4] and Y in [-3, 1] and eight scene points with integer coordinates and
`Z ≥ -1`, the clipper with every operation rounded to binary32 returns
`Min.Z = -1 - 2^-23`, below the Z of every scene point, hence not the Z of a
point of a tessellation triangle. -/
theorem CalculateLightNearFar_tight_counterexample :
    (exBoxWide.Min.x ≤ exBoxWide.Max.x ∧ exBoxWide.Min.y ≤ exBoxWide.Max.y) ∧
    (∀ j, j < 8 → -1 ≤ (exSceneSlanted j).z ∧
      round32 (exSceneSlanted j).x = (exSceneSlanted j).x ∧
      round32 (exSceneSlanted j).y = (exSceneSlanted j).y ∧
      round32 (exSceneSlanted j).z = (exSceneSlanted j).z) ∧
    (CalculateLightNearFarRounded round32 exBoxWide exSceneSlanted exUninit).map
      (fun r => (r.Min.z, r.Max.z)) = some (-1 - 1 / 8388608, 4) ∧
    (-1 - 1 / 8388608 : ℚ) < -1 := by
  decide!

/-- C10, as stated, fails in `float` arithmetic: with the texel size the
`float` nearest to 5/3 and every operation of the snap step rounded to
binary32, the bound 19 snaps to 18.333332 (11 texels), and snapping that
again gives 16.666666 (10 texels), because the quotient 18.333332 / w rounds
to a `float` just below 11. -/
theorem snapToTexel_idem_counterexample :
    (exTexelThirds.x ≠ 0 ∧ exTexelThirds.y ≠ 0 ∧ round32 exTexelThirds.x = exTexelThirds.x ∧
      round32 exTexelThirds.y = exTexelThirds.y) ∧
    (snapToTexelRounded round32 true exTexelThirds exBoxIntegers).Min.x = 4805973 / 262144 ∧
    (snapToTexelRounded round32 true exTexelThirds
      (snapToTexelRounded round32 true exTexelThirds exBoxIntegers)).Min.x =
        8738133 / 524288 ∧
    snapToTexelRounded round32 true exTexelThirds
      (snapToTexelRounded round32 true exTexelThirds exBoxIntegers) ≠
        snapToTexelRounded round32 true exTexelThirds exBoxIntegers := by
  have h1 : (snapToTexelRounded round32 true exTexelThirds exBoxIntegers).Min.x =
      4805973 / 262144 := by decide!
  have h2 : (snapToTexelRounded round32 true exTexelThirds
      (snapToTexelRounded round32 true exTexelThirds exBoxIntegers)).Min.x =
        8738133 / 524288 := by decide!
  refine ⟨by decide!, h1, h2, fun h => ?_⟩
  rw [h, h1] at h2
  revert h2
  decide!

/-- C21, as stated, fails in `float` arithmetic: clipping the triangle with
one vertex at X = 0 and two at X = 13 against the plane `Max.X = 7`, with
every operation rounded to binary32, creates two points with
X = 7 + 2^-21, not 7 (the ratio 7/13 rounds up, and so does its product with
13); without rounding both have X = 7. -/
theorem clipTriangle_cases_counterexample :
    insideVertCount 1 (7 : ℚ) 0 (exClipStateThirteen.triangleList 0) = 1 ∧
    (clipTriangleRounded round32 1 7 0 exClipStateThirteen 0).map
      (fun r => ((r.1.triangleList 0).pt1.comp 0, (r.1.triangleList 0).pt2.comp 0,
        r.1.iTriangleCnt, r.2)) =
      some (7 + 1 / 2097152, 7 + 1 / 2097152, 1, 0) ∧
    (clipTriangle 1 7 0 exClipStateThirteen 0).map
      (fun r => ((r.1.triangleList 0).pt1.comp 0, (r.1.triangleList 0).pt2.comp 0,
        r.1.iTriangleCnt, r.2)) =
      some (7, 7, 1, 0) ∧
    (7 + 1 / 2097152 : ℚ) ≠ 7 := by
  decide!

end RcEngine
